import Mathlib

/-!
# Star-density neighbour loops of SWIFT (`src/runner_doiact_stars.h`)

A shallow embedding of the stars density interaction functions and of the
recursive cell-pair dispatch, followed by theorems about them.

Modelling conventions.

* `float` and `double` values are rationals (`ℚ`).  The functions are embedded
  in exact arithmetic, where a cast `(float)` is the identity; statements
  about them speak about the exact-arithmetic reading of the code.  The two
  loops that decide on the computed `r2` whether to interact,
  `runner_doself_stars_density` and `runner_dosubpair_stars_density`, are
  embedded a second time with their casts and the rounding of every operation
  (`runner_doself_stars_density_float`, `runner_dosubpair_stars_density_float`,
  parameterised by a `rounding`: `ieee_rounding` is round-to-nearest, ties to
  even, at 24 and 53 significant bits); the exact embedding is the instance
  `exact_rounding` of the second one.
* A `struct cell *` is a value of `cell`: either `NULL` or a node carrying the
  fields the code reads and its eight `progeny` pointers.
* A call of `runner_iact_nonsym_stars_density` is recorded as an `iact` value;
  every function returns the list of calls it made, in program order.  A call
  of `error(...)` stops the program: functions that can reach one return an
  `outcome`, the calls made so far together with the fatal error, if any.
* The build is the one without `SWIFT_DEBUG_CHECKS`; timers are not modelled.
* Constants and inline helpers that live in headers outside this file
  (`kernel_gamma2`, `space_maxreldx`, `cell_is_active_stars`, ...) are fields
  of `engine`, i.e. parameters of every function.
-/

namespace Swift

/-! ## Data model -/

/-- A `double x[3]` array. -/
abbrev vec3 := Fin 3 → ℚ

/-- The fields of `struct spart` read by the loops.  The field `id` stands for
the identity (address) of the particle. -/
structure spart where
  id : Int
  x : vec3
  h : ℚ
deriving DecidableEq

/-- The fields of `struct part` read by the loops.  The field `id` stands for
the identity (address) of the particle. -/
structure part where
  id : Int
  x : vec3
  h : ℚ
deriving DecidableEq

/-- The fields of `struct cell` read by this file, progeny apart:
`scount` is `sparts.length` and `count` is `parts.length`. -/
structure cell_data where
  loc : vec3
  width : vec3
  dmin : ℚ
  h_max_old : ℚ
  sparts : List spart
  parts : List part
  split : Bool
  sorted : Nat
  dx_max_sort_old : ℚ
deriving DecidableEq

/-- A `struct cell *`: the null pointer, or a cell with its eight progeny. -/
inductive cell where
  | NULL : cell
  | node (d : cell_data) (p0 p1 p2 p3 p4 p5 p6 p7 : cell) : cell
deriving DecidableEq

instance : Inhabited cell_data :=
  ⟨{ loc := fun _ => 0, width := fun _ => 0, dmin := 0, h_max_old := 0,
     sparts := [], parts := [], split := false, sorted := 0,
     dx_max_sort_old := 0 }⟩

namespace cell

/-- The fields of a cell; reading through `NULL` yields the all-zero record
(the C program would fault; the one function that can be handed a null cell by
the code itself, `runner_dosub_subset_stars_density`, checks for it). -/
def data : cell → cell_data
  | NULL => default
  | node d _ _ _ _ _ _ _ _ => d

/-- The pointer `c->progeny[k]`. -/
def progeny : cell → Nat → cell
  | node _ p0 _ _ _ _ _ _ _, 0 => p0
  | node _ _ p1 _ _ _ _ _ _, 1 => p1
  | node _ _ _ p2 _ _ _ _ _, 2 => p2
  | node _ _ _ _ p3 _ _ _ _, 3 => p3
  | node _ _ _ _ _ p4 _ _ _, 4 => p4
  | node _ _ _ _ _ _ p5 _ _, 5 => p5
  | node _ _ _ _ _ _ _ p6 _, 6 => p6
  | node _ _ _ _ _ _ _ _ p7, 7 => p7
  | _, _ => NULL

/-- Field `c->loc`. -/
abbrev loc (c : cell) : vec3 := c.data.loc
/-- Field `c->width`. -/
abbrev width (c : cell) : vec3 := c.data.width
/-- Field `c->dmin`. -/
abbrev dmin (c : cell) : ℚ := c.data.dmin
/-- Field `c->h_max_old`. -/
abbrev h_max_old (c : cell) : ℚ := c.data.h_max_old
/-- The array `c->sparts[0 .. scount)`. -/
abbrev sparts (c : cell) : List spart := c.data.sparts
/-- The array `c->parts[0 .. count)`. -/
abbrev parts (c : cell) : List part := c.data.parts
/-- Field `c->scount`. -/
abbrev scount (c : cell) : Nat := c.data.sparts.length
/-- Field `c->count`. -/
abbrev count (c : cell) : Nat := c.data.parts.length
/-- Field `c->sorted`, a bit mask over direction ids. -/
abbrev sorted (c : cell) : Nat := c.data.sorted
/-- Field `c->dx_max_sort_old`. -/
abbrev dx_max_sort_old (c : cell) : ℚ := c.data.dx_max_sort_old

/-- Number of levels below and including a cell (`NULL` has none). -/
def depth : cell → Nat
  | NULL => 0
  | node _ p0 p1 p2 p3 p4 p5 p6 p7 =>
    1 + max (max (max p0.depth p1.depth) (max p2.depth p3.depth))
          (max (max p4.depth p5.depth) (max p6.depth p7.depth))

end cell

/-- The run-time context `const struct engine *e` together with what the
file takes from other headers: the box size `e->s->dim`, the constants
`kernel_gamma`, `kernel_gamma2` and `space_maxreldx`, and the inline
predicates on cells. -/
structure engine where
  dim : vec3
  kernel_gamma : ℚ
  kernel_gamma2 : ℚ
  space_maxreldx : ℚ
  cell_is_active_stars : cell → Bool
  cell_are_part_drifted : cell → Bool
  cell_can_recurse_in_pair_stars_task : cell → Bool
  cell_can_recurse_in_self_stars_task : cell → Bool

/-- One call `runner_iact_nonsym_stars_density(r2, dx, hi, hj, si, pj, a, H)`
(the cosmology factors `a`, `H` are the same in every call and left out). -/
structure iact where
  r2 : ℚ
  dx : vec3
  hi : ℚ
  hj : ℚ
  si : spart
  pj : part
deriving DecidableEq

/-- The fatal `error(...)` calls of the file, and `null_cell`: the crash of a
function that reads the fields of a null cell pointer. -/
inductive fatal where
  | undrifted_cells
  | unsorted_cells
  | unsorted_cell
  | cell_smaller_than_h
  | cell_should_be_drifted
  | null_cell
deriving DecidableEq

/-- What a function did: the interactions it invoked, in order, and the
fatal error that stopped it, if one did. -/
structure outcome where
  calls : List iact
  err : Option fatal
deriving DecidableEq

namespace outcome

/-- Normal return after the given calls. -/
def ok (l : List iact) : outcome := ⟨l, none⟩

/-- Abort before any call. -/
def abort (f : fatal) : outcome := ⟨[], some f⟩

/-- Sequential composition: the second statement runs only if the first
returned. -/
def andThen (a b : outcome) : outcome :=
  match a.err with
  | some _ => a
  | none => ⟨a.calls ++ b.calls, b.err⟩

/-- A sequence of statements run in order. -/
def seq : List outcome → outcome
  | [] => ok []
  | a :: l => andThen a (seq l)

end outcome

/-! ## Direction ids -/

/-- The direction vector written in the comment of `case sid:` in the two
recursion switches (`runner_dosub_pair_stars_density`,
`runner_dosub_subset_stars_density`). -/
def runner_shift_dir : Nat → Int × Int × Int
  | 0 => (1, 1, 1)
  | 1 => (1, 1, 0)
  | 2 => (1, 1, -1)
  | 3 => (1, 0, 1)
  | 4 => (1, 0, 0)
  | 5 => (1, 0, -1)
  | 6 => (1, -1, 1)
  | 7 => (1, -1, 0)
  | 8 => (1, -1, -1)
  | 9 => (0, 1, 1)
  | 10 => (0, 1, 0)
  | 11 => (0, 1, -1)
  | 12 => (0, 0, 1)
  | _ => (0, 0, 0)

/-- The `(a, b)` of the guarded calls
`runner_dosub_pair_stars_density(r, ci->progeny[a], cj->progeny[b], -1, 0)`
under `case sid:`, in program order. -/
def pair_table : Nat → List (Nat × Nat)
  | 0 => [(7, 0)]
  | 1 => [(6, 0), (6, 1), (7, 0), (7, 1)]
  | 2 => [(6, 1)]
  | 3 => [(5, 0), (5, 2), (7, 0), (7, 2)]
  | 4 => [(4, 0), (4, 1), (4, 2), (4, 3), (5, 0), (5, 1), (5, 2), (5, 3),
          (6, 0), (6, 1), (6, 2), (6, 3), (7, 0), (7, 1), (7, 2), (7, 3)]
  | 5 => [(4, 1), (4, 3), (6, 1), (6, 3)]
  | 6 => [(5, 2)]
  | 7 => [(4, 2), (4, 3), (5, 2), (5, 3)]
  | 8 => [(4, 3)]
  | 9 => [(3, 0), (3, 4), (7, 0), (7, 4)]
  | 10 => [(2, 0), (2, 1), (2, 4), (2, 5), (3, 0), (3, 1), (3, 4), (3, 5),
           (6, 0), (6, 1), (6, 4), (6, 5), (7, 0), (7, 1), (7, 4), (7, 5)]
  | 11 => [(2, 1), (2, 5), (6, 1), (6, 5)]
  | 12 => [(1, 0), (1, 2), (1, 4), (1, 6), (3, 0), (3, 2), (3, 4), (3, 6),
           (5, 0), (5, 2), (5, 4), (5, 6), (7, 0), (7, 2), (7, 4), (7, 6)]
  | _ => []

/-- Octant bit of child index `a` on axis `k`: `a = 4*a_0 + 2*a_1 + a_2`. -/
def octant_bit (a : Nat) (k : Fin 3) : Int :=
  match k with
  | 0 => ((a / 4) % 2 : Nat)
  | 1 => ((a / 2) % 2 : Nat)
  | 2 => (a % 2 : Nat)

/-- Component `k` of an integer triple. -/
def dir_comp (d : Int × Int × Int) (k : Fin 3) : Int :=
  match k with
  | 0 => d.1
  | 1 => d.2.1
  | 2 => d.2.2

/-- Geometric adjacency as the specification words it: child `a` of `ci` and
child `b` of `cj`, the cells being offset by `d`, touch when on every axis the
child-grid offset `2*d_k + b_k - a_k` is `-1`, `0` or `1`. -/
def children_adjacent (d : Int × Int × Int) (a b : Nat) : Bool :=
  decide (∀ k : Fin 3, -1 ≤ 2 * dir_comp d k + octant_bit b k - octant_bit a k ∧
    2 * dir_comp d k + octant_bit b k - octant_bit a k ≤ 1)

/-- Brute-force enumeration of the specification: all 8×8 child combinations,
kept when geometrically adjacent. -/
def adjacency_by_enumeration (d : Int × Int × Int) : List (Nat × Nat) :=
  (List.product (List.range 8) (List.range 8)).filter
    fun ab => children_adjacent d ab.1 ab.2

/-! ## Periodic shift and direction classification -/

/-- The `shift` computed at the top of `runner_dosubpair_stars_density`
for the ordered pair `(ci, cj)`. -/
def runner_dosubpair_stars_density_shift (e : engine) (ci cj : cell) : vec3 :=
  fun k =>
    if cj.loc k - ci.loc k < -(e.dim k) / 2 then e.dim k
    else if cj.loc k - ci.loc k > e.dim k / 2 then -(e.dim k)
    else 0

/-- The `shift` computed in `runner_dopair_subset_branch_stars_density`
for the ordered pair `(ci, cj)`. -/
def runner_dopair_subset_branch_stars_density_shift (e : engine) (ci cj : cell) :
    vec3 :=
  fun k =>
    if cj.loc k - ci.loc k < -(e.dim k) / 2 then e.dim k
    else if cj.loc k - ci.loc k > e.dim k / 2 then -(e.dim k)
    else 0

/-- Sign of a coordinate delta. -/
def delta_sign (q : ℚ) : Int := if q < 0 then -1 else if q > 0 then 1 else 0

/-- Negation of an integer triple. -/
def dir_neg (d : Int × Int × Int) : Int × Int × Int := (-d.1, -d.2.1, -d.2.2)

/-- What `space_getsid(s, &ci, &cj, shift)` hands back: the direction id,
whether it swapped the two cell pointers, and the shift vector. -/
structure sid_result where
  sid : Nat
  flip : Bool
  shift : vec3

/-- Modelled from the spec: the choice of the canonical id inside
`space_getsid` (`space.c`, not among the files at hand).  A sign pattern that
is one of the 13 canonical direction vectors (the `case` comments) gets its
id; a pattern that is the mirror image of a canonical direction gets the same
id together with the order to swap the operands.  For the all-zero pattern,
for which the specification names no id, the model answers id 0 without a
swap. -/
def canonical_sid (s : Int × Int × Int) : Nat × Bool :=
  match (List.range 13).find? (fun i => runner_shift_dir i = s) with
  | some i => (i, false)
  | none =>
    match (List.range 13).find? (fun i => runner_shift_dir i = dir_neg s) with
    | some i => (i, true)
    | none => (0, false)

/-- Modelled from the spec: `space_getsid`, which is defined in `space.c`
and not in the files at hand.  Per axis the raw delta `cj->loc - ci->loc` is
corrected by plus or minus the box width when it exceeds half the box, the
correction being recorded in `shift`; the sign pattern of the corrected
deltas selects the canonical id; when the operands are swapped the shift
changes sign. -/
def space_getsid (e : engine) (ci cj : cell) : sid_result :=
  let shift : vec3 := fun k =>
    if cj.loc k - ci.loc k < -(e.dim k) / 2 then e.dim k
    else if cj.loc k - ci.loc k > e.dim k / 2 then -(e.dim k)
    else 0
  let dx : vec3 := fun k => cj.loc k - ci.loc k + shift k
  let c := canonical_sid (delta_sign (dx 0), delta_sign (dx 1), delta_sign (dx 2))
  ⟨c.1, c.2, fun k => if c.2 then -(shift k) else shift k⟩

/-! ## Direct evaluation -/

/-- Embedding of `runner_doself_stars_density` in exact arithmetic: the casts
to `float` and the rounding of the operations are left out
(`runner_doself_stars_density_float` keeps them). -/
def runner_doself_stars_density (e : engine) (c : cell) : List iact :=
  if ¬ e.cell_is_active_stars c then [] else
  c.sparts.flatMap fun si =>
    let hi := si.h
    let hig2 := hi * hi * e.kernel_gamma2
    let six : vec3 := fun k => si.x k - c.loc k
    c.parts.flatMap fun pj =>
      let hj := pj.h
      let pjx : vec3 := fun k => pj.x k - c.loc k
      let dx : vec3 := fun k => six k - pjx k
      let r2 := dx 0 * dx 0 + dx 1 * dx 1 + dx 2 * dx 2
      if r2 > 0 ∧ r2 < hig2 then [⟨r2, dx, hi, hj, si, pj⟩] else []

/-- Embedding of `runner_dosubpair_stars_density` in exact arithmetic: the
stars of `ci` against the gas of `cj`, the casts to `float` and the rounding
of the operations left out (`runner_dosubpair_stars_density_float` keeps
them). -/
def runner_dosubpair_stars_density (e : engine) (ci cj : cell) : List iact :=
  if ¬ e.cell_is_active_stars ci ∧ ¬ e.cell_is_active_stars cj then [] else
  let shift := runner_dosubpair_stars_density_shift e ci cj
  ci.sparts.flatMap fun si =>
    let hi := si.h
    let hig2 := hi * hi * e.kernel_gamma2
    let six : vec3 := fun k => si.x k - (cj.loc k + shift k)
    cj.parts.flatMap fun pj =>
      let hj := pj.h
      let pjx : vec3 := fun k => pj.x k - cj.loc k
      let dx : vec3 := fun k => six k - pjx k
      let r2 := dx 0 * dx 0 + dx 1 * dx 1 + dx 2 * dx 2
      if r2 < hig2 then [⟨r2, dx, hi, hj, si, pj⟩] else []

/-- Embedding of `runner_dopair_stars_density`. -/
def runner_dopair_stars_density (e : engine) (ci cj : cell) : List iact :=
  runner_dosubpair_stars_density e ci cj ++ runner_dosubpair_stars_density e cj ci

/-- Embedding of `runner_doself_branch_stars_density`. -/
def runner_doself_branch_stars_density (e : engine) (c : cell) : outcome :=
  if ¬ e.cell_is_active_stars c then outcome.ok [] else
  if c.h_max_old * e.kernel_gamma > c.dmin then
    outcome.abort fatal.cell_smaller_than_h
  else outcome.ok (runner_doself_stars_density e c)

/-- The test `!(c->sorted & (1 << sid)) || c->dx_max_sort_old >
space_maxreldx * c->dmin` made before a direct pair evaluation. -/
def sort_is_stale (e : engine) (c : cell) (sid : Nat) : Prop :=
  c.sorted &&& (1 <<< sid) = 0 ∨ c.dx_max_sort_old > e.space_maxreldx * c.dmin

instance (e : engine) (c : cell) (sid : Nat) : Decidable (sort_is_stale e c sid) := by
  unfold sort_is_stale; infer_instance

/-- Embedding of `runner_dopair_branch_stars_density`. -/
def runner_dopair_branch_stars_density (e : engine) (ci cj : cell) : outcome :=
  if ¬ e.cell_is_active_stars ci ∧ ¬ e.cell_is_active_stars cj then outcome.ok []
  else if ¬ e.cell_are_part_drifted ci ∨ ¬ e.cell_are_part_drifted cj then
    outcome.abort fatal.undrifted_cells
  else
    let g := space_getsid e ci cj
    let ci' := if g.flip then cj else ci
    let cj' := if g.flip then ci else cj
    if sort_is_stale e ci' g.sid then outcome.abort fatal.unsorted_cells
    else if sort_is_stale e cj' g.sid then outcome.abort fatal.unsorted_cells
    else outcome.ok (runner_dopair_stars_density e ci' cj')

/-! ## Recursive dispatch -/

/-- The child pairs `(a, b)` that `runner_dosub_pair_stars_density` recurses
into for direction `sid`: the entries of the `case sid:` block whose guard
`ci->progeny[a] != NULL && cj->progeny[b] != NULL` holds. -/
def runner_dosub_pair_stars_density_tasks (ci cj : cell) (sid : Nat) :
    List (Nat × Nat) :=
  (pair_table sid).filter fun ab =>
    ci.progeny ab.1 ≠ cell.NULL ∧ cj.progeny ab.2 ≠ cell.NULL

/-- The block `/* Otherwise, compute the pair directly. */` of
`runner_dosub_pair_stars_density`, entered with the cells as `space_getsid`
left them and with its direction id. -/
def runner_dosub_pair_stars_density_direct (e : engine) (ci cj : cell) (sid : Nat) :
    outcome :=
  if e.cell_is_active_stars ci ∨ e.cell_is_active_stars cj then
    if ¬ e.cell_are_part_drifted ci ∨ ¬ e.cell_are_part_drifted cj then
      outcome.abort fatal.undrifted_cells
    else if sort_is_stale e ci sid then outcome.abort fatal.unsorted_cell
    else if sort_is_stale e cj sid then outcome.abort fatal.unsorted_cell
    else runner_dopair_branch_stars_density e ci cj
  else outcome.ok []

/-- Embedding of `runner_dosub_pair_stars_density`.  The argument `sid` is
overwritten by the result of `space_getsid` before it is read; `space_getsid`
may swap the two cell pointers, after which `ci'`, `cj'` stand for `ci`, `cj`. -/
def runner_dosub_pair_stars_density (e : engine) (ci cj : cell) (sid : Int) :
    outcome :=
  if ¬ e.cell_is_active_stars ci ∧ ¬ e.cell_is_active_stars cj then outcome.ok []
  else if h0 : ci.scount = 0 ∨ cj.scount = 0 then outcome.ok []
  else
    let g := space_getsid e ci cj
    let ci' := if g.flip then cj else ci
    let cj' := if g.flip then ci else cj
    let sid := g.sid
    if e.cell_can_recurse_in_pair_stars_task ci' ∧
        e.cell_can_recurse_in_pair_stars_task cj' then
      outcome.seq ((runner_dosub_pair_stars_density_tasks ci' cj' sid).map fun ab =>
        runner_dosub_pair_stars_density e (ci'.progeny ab.1) (cj'.progeny ab.2) (-1))
    else runner_dosub_pair_stars_density_direct e ci' cj' sid
termination_by ci.depth + cj.depth
decreasing_by
  have key : ∀ (c : cell) (k : Nat), c.scount ≠ 0 → (c.progeny k).depth < c.depth := by
    intro c k hc
    cases c with
    | NULL => exact absurd rfl hc
    | node d p0 p1 p2 p3 p4 p5 p6 p7 =>
      have hd : (cell.node d p0 p1 p2 p3 p4 p5 p6 p7).depth =
          1 + max (max (max p0.depth p1.depth) (max p2.depth p3.depth))
            (max (max p4.depth p5.depth) (max p6.depth p7.depth)) := rfl
      rw [hd]
      have h8 : k = 0 ∨ k = 1 ∨ k = 2 ∨ k = 3 ∨ k = 4 ∨ k = 5 ∨ k = 6 ∨ k = 7 ∨
          ∃ m, k = m + 8 := by
        rcases Nat.lt_or_ge k 8 with h | h
        · omega
        · exact Or.inr (Or.inr (Or.inr (Or.inr (Or.inr (Or.inr (Or.inr (Or.inr
            ⟨k - 8, by omega⟩)))))))
      have hlt : ∀ n M : Nat, n ≤ M → n < 1 + M := fun n M h =>
        Nat.lt_of_le_of_lt h (Nat.lt_add_of_pos_left Nat.one_pos)
      rcases h8 with h | h | h | h | h | h | h | h | ⟨m, h⟩ <;> subst h
      · exact hlt _ _ (le_trans (le_trans (le_max_left _ _) (le_max_left _ _))
          (le_max_left _ _))
      · exact hlt _ _ (le_trans (le_trans (le_max_right _ _) (le_max_left _ _))
          (le_max_left _ _))
      · exact hlt _ _ (le_trans (le_trans (le_max_left _ _) (le_max_right _ _))
          (le_max_left _ _))
      · exact hlt _ _ (le_trans (le_trans (le_max_right _ _) (le_max_right _ _))
          (le_max_left _ _))
      · exact hlt _ _ (le_trans (le_trans (le_max_left _ _) (le_max_left _ _))
          (le_max_right _ _))
      · exact hlt _ _ (le_trans (le_trans (le_max_right _ _) (le_max_left _ _))
          (le_max_right _ _))
      · exact hlt _ _ (le_trans (le_trans (le_max_left _ _) (le_max_right _ _))
          (le_max_right _ _))
      · exact hlt _ _ (le_trans (le_trans (le_max_right _ _) (le_max_right _ _))
          (le_max_right _ _))
      · exact hlt _ _ (Nat.zero_le _)
  have a1 := key ci ab.1 (fun h => h0 (Or.inl h))
  have a2 := key ci ab.2 (fun h => h0 (Or.inl h))
  have a3 := key cj ab.1 (fun h => h0 (Or.inr h))
  have a4 := key cj ab.2 (fun h => h0 (Or.inr h))
  split <;> omega

/-- A call made by the recursion branch of `runner_dosub_self_stars_density`:
the self task of `progeny[k]`, or the pair task of `progeny[k]` and
`progeny[j]`. -/
inductive subtask where
  | self (k : Nat)
  | pair (k j : Nat)
deriving DecidableEq

/-- The calls made by the loop over all progeny in
`runner_dosub_self_stars_density`, in program order. -/
def runner_dosub_self_stars_density_tasks (ci : cell) : List subtask :=
  (List.range 8).flatMap fun k =>
    if ci.progeny k ≠ cell.NULL then
      subtask.self k ::
        ((List.range' (k + 1) (8 - (k + 1))).filter
          fun j => ci.progeny j ≠ cell.NULL).map (subtask.pair k)
    else []

/-- Embedding of `runner_dosub_self_stars_density`. -/
def runner_dosub_self_stars_density (e : engine) (ci : cell) : outcome :=
  if h0 : ci.scount = 0 ∨ ¬ e.cell_is_active_stars ci then outcome.ok []
  else if e.cell_can_recurse_in_self_stars_task ci then
    outcome.seq ((runner_dosub_self_stars_density_tasks ci).map fun t =>
      match t with
      | subtask.self k => runner_dosub_self_stars_density e (ci.progeny k)
      | subtask.pair k j =>
        runner_dosub_pair_stars_density e (ci.progeny k) (ci.progeny j) (-1))
  else runner_doself_branch_stars_density e ci
termination_by ci.depth
decreasing_by
  have hc : ci.scount ≠ 0 := fun h => h0 (Or.inl h)
  cases ci with
  | NULL => exact absurd rfl hc
  | node d p0 p1 p2 p3 p4 p5 p6 p7 =>
    have hd : (cell.node d p0 p1 p2 p3 p4 p5 p6 p7).depth =
        1 + max (max (max p0.depth p1.depth) (max p2.depth p3.depth))
          (max (max p4.depth p5.depth) (max p6.depth p7.depth)) := rfl
    rw [hd]
    have h8 : k = 0 ∨ k = 1 ∨ k = 2 ∨ k = 3 ∨ k = 4 ∨ k = 5 ∨ k = 6 ∨ k = 7 ∨
        ∃ m, k = m + 8 := by
      rcases Nat.lt_or_ge k 8 with h | h
      · omega
      · exact Or.inr (Or.inr (Or.inr (Or.inr (Or.inr (Or.inr (Or.inr (Or.inr
          ⟨k - 8, by omega⟩)))))))
    have hlt : ∀ n M : Nat, n ≤ M → n < 1 + M := fun n M h =>
      Nat.lt_of_le_of_lt h (Nat.lt_add_of_pos_left Nat.one_pos)
    rcases h8 with h | h | h | h | h | h | h | h | ⟨m, h⟩ <;> subst h
    · exact hlt _ _ (le_trans (le_trans (le_max_left _ _) (le_max_left _ _))
        (le_max_left _ _))
    · exact hlt _ _ (le_trans (le_trans (le_max_right _ _) (le_max_left _ _))
        (le_max_left _ _))
    · exact hlt _ _ (le_trans (le_trans (le_max_left _ _) (le_max_right _ _))
        (le_max_left _ _))
    · exact hlt _ _ (le_trans (le_trans (le_max_right _ _) (le_max_right _ _))
        (le_max_left _ _))
    · exact hlt _ _ (le_trans (le_trans (le_max_left _ _) (le_max_left _ _))
        (le_max_right _ _))
    · exact hlt _ _ (le_trans (le_trans (le_max_right _ _) (le_max_left _ _))
        (le_max_right _ _))
    · exact hlt _ _ (le_trans (le_trans (le_max_left _ _) (le_max_right _ _))
        (le_max_right _ _))
    · exact hlt _ _ (le_trans (le_trans (le_max_right _ _) (le_max_right _ _))
        (le_max_right _ _))
    · exact hlt _ _ (Nat.zero_le _)

/-! ## Reference notions used in the statements -/

/-- Squared separation of star `si` and gas particle `pj` once the periodic
shift is taken off: the squared length of `x_star - x_gas - shift`. -/
def r2_shifted (shift : vec3) (si : spart) (pj : part) : ℚ :=
  (si.x 0 - pj.x 0 - shift 0) ^ 2 + (si.x 1 - pj.x 1 - shift 1) ^ 2 +
    (si.x 2 - pj.x 2 - shift 2) ^ 2

/-- The zero shift of self mode. -/
def no_shift : vec3 := fun _ => 0

/-- The interaction of star `si` with gas particle `pj` under `shift`, with
the arguments exact arithmetic gives it. -/
def iact_of (shift : vec3) (si : spart) (pj : part) : iact :=
  ⟨r2_shifted shift si pj, fun k => si.x k - pj.x k - shift k, si.h, pj.h, si, pj⟩

/-- Brute-force enumeration: every star of `stars` against every gas particle
of `gas`, in array order, kept when the squared separation under `shift` is
below `h_i^2 * kernel_gamma2`. -/
def brute_force (e : engine) (shift : vec3) (stars : List spart) (gas : List part) :
    List (spart × part) :=
  (List.product stars gas).filter fun sp =>
    decide (r2_shifted shift sp.1 sp.2 < sp.1.h * sp.1.h * e.kernel_gamma2)

/-- The (star, gas) pair of an interaction. -/
def iact.pair (c : iact) : spart × part := (c.si, c.pj)

/-! ## Concrete data -/

/-- A box of side 8 in which every cell is active and drifted, with
`kernel_gamma = 1`; a cell may recurse exactly when its `split` flag is set. -/
def ex_engine : engine :=
  { dim := fun _ => 8, kernel_gamma := 1, kernel_gamma2 := 1, space_maxreldx := 1,
    cell_is_active_stars := fun _ => true,
    cell_are_part_drifted := fun _ => true,
    cell_can_recurse_in_pair_stars_task := fun c => c.data.split,
    cell_can_recurse_in_self_stars_task := fun c => c.data.split }

/-- The same box at a step where no cell is active. -/
def ex_idle_engine : engine :=
  { ex_engine with cell_is_active_stars := fun _ => false }

/-- An unsplit cell of the given origin and edge, sorted in every direction. -/
def ex_leaf (loc : vec3) (w : ℚ) (sparts : List spart) (parts : List part) : cell :=
  cell.node
    { loc := loc, width := fun _ => w, dmin := w, h_max_old := 0, sparts := sparts,
      parts := parts, split := false, sorted := 8191, dx_max_sort_old := 0 }
    cell.NULL cell.NULL cell.NULL cell.NULL cell.NULL cell.NULL cell.NULL cell.NULL

/-- A point. -/
def pt (a b c : ℚ) : vec3 := fun k => match k with
  | 0 => a
  | 1 => b
  | 2 => c

/-- One star of radius 2 at the origin with two gas particles at distance 1. -/
def ex_cell_one_star : cell :=
  ex_leaf (pt 0 0 0) 2 [⟨1, pt 0 0 0, 2⟩] [⟨2, pt 1 0 0, 1⟩, ⟨3, pt 0 1 0, 1⟩]

/-- A star of radius 1 and a gas particle of radius 2 whose squared
separation is 2. -/
def ex_cell_wide_gas : cell :=
  ex_leaf (pt 0 0 0) 2 [⟨1, pt 0 0 0, 1⟩] [⟨2, pt 1 1 0, 2⟩]

/-- The neighbour of `ex_cell_one_star` on the `+x` side. -/
def ex_cell_right : cell :=
  ex_leaf (pt 2 0 0) 2 [⟨4, pt 3 0 0, 1⟩] [⟨5, pt 2 0 0, 1⟩]

/-- A cell whose sort is stale: `dx_max_sort_old` exceeds
`space_maxreldx * dmin`. -/
def ex_cell_stale : cell :=
  cell.node
    { loc := pt 2 0 0, width := fun _ => 2, dmin := 2, h_max_old := 0,
      sparts := [⟨4, pt 3 0 0, 1⟩], parts := [⟨5, pt 2 0 0, 1⟩], split := false,
      sorted := 8191, dx_max_sort_old := 5 }
    cell.NULL cell.NULL cell.NULL cell.NULL cell.NULL cell.NULL cell.NULL cell.NULL

/-- Whether a dispatched call is a self task. -/
def subtask.is_self_task : subtask → Bool
  | subtask.self _ => true
  | subtask.pair _ _ => false

/-- An unsplit cell holding one star and one gas particle. -/
def ex_child (n : Int) : cell :=
  ex_leaf (pt 0 0 0) 1 [⟨n, pt 0 0 0, 1⟩] [⟨n, pt 0 0 0, 1⟩]

/-- A split cell with all eight progeny present. -/
def ex_cell_full : cell :=
  cell.node
    { loc := pt 0 0 0, width := fun _ => 2, dmin := 2, h_max_old := 0,
      sparts := [⟨1, pt 0 0 0, 1⟩], parts := [], split := true,
      sorted := 8191, dx_max_sort_old := 0 }
    (ex_child 0) (ex_child 1) (ex_child 2) (ex_child 3)
    (ex_child 4) (ex_child 5) (ex_child 6) (ex_child 7)

/-- An empty cell whose origin lies `0.6` box widths from the origin along `x`. -/
def ex_cell_far : cell :=
  ex_leaf (pt (24 / 5) 0 0) 2 [] []

/-! ## Geometry of a cell tree -/

/-- The offset `d` has every component in `-1, 0, 1` and is not zero. -/
def in_stencil (d : Int × Int × Int) : Prop :=
  (∀ k : Fin 3, -1 ≤ dir_comp d k ∧ dir_comp d k ≤ 1) ∧ d ≠ (0, 0, 0)

/-- Cells `ci` and `cj` are of equal size, smaller than the box, and `cj`
sits at offset `d` (in cell widths) from `ci` once the periodic shift of the
ordered pair is applied. -/
def neighbours_along (e : engine) (ci cj : cell) (d : Int × Int × Int) : Prop :=
  ∀ k : Fin 3, ci.width k = cj.width k ∧ 0 < ci.width k ∧ ci.width k < e.dim k ∧
    cj.loc k - ci.loc k + runner_dosubpair_stars_density_shift e ci cj k =
      (dir_comp d k : ℚ) * ci.width k

/-- Cells `ci` and `cj` are neighbours in the 3x3x3 stencil. -/
def neighbours (e : engine) (ci cj : cell) : Prop :=
  ∃ d, in_stencil d ∧ neighbours_along e ci cj d

/-- Every star and gas particle of the cell lies inside it. -/
def cell.holds_its_particles (c : cell) : Prop :=
  (∀ s ∈ c.sparts, ∀ k : Fin 3, c.loc k ≤ s.x k ∧ s.x k ≤ c.loc k + c.width k) ∧
  (∀ p ∈ c.parts, ∀ k : Fin 3, c.loc k ≤ p.x k ∧ p.x k ≤ c.loc k + c.width k)

/-- Child `i` of `c` is the octant of `c` with bits `i = 4*i_0 + 2*i_1 + i_2`. -/
def cell.is_octant (c : cell) (i : Nat) : Prop :=
  ∀ k : Fin 3, (c.progeny i).loc k = c.loc k + (octant_bit i k : ℚ) * (c.width k / 2) ∧
    (c.progeny i).width k = c.width k / 2

/-- What holds at a cell that may recurse: the search radius of each of its
stars is smaller than the child size, the non-null progeny are its octants,
and the particle arrays of the progeny, taken in order, make up its own. -/
def cell.splits_into_octants (e : engine) (c : cell) : Prop :=
  (∀ s ∈ c.sparts, ∀ k : Fin 3, s.h * s.h * e.kernel_gamma2 < (c.width k / 2) ^ 2) ∧
  (∀ i, i < 8 → c.progeny i ≠ cell.NULL → c.is_octant i) ∧
  c.sparts = (List.range 8).flatMap (fun i => (c.progeny i).sparts) ∧
  c.parts = (List.range 8).flatMap (fun i => (c.progeny i).parts)

/-- A well-formed cell tree: particles lie in their cells and every cell
that may recurse splits into octants, all the way down. -/
def octree (e : engine) : cell → Prop
  | cell.NULL => True
  | cell.node d p0 p1 p2 p3 p4 p5 p6 p7 =>
    (cell.node d p0 p1 p2 p3 p4 p5 p6 p7).holds_its_particles ∧
    (e.cell_can_recurse_in_pair_stars_task (cell.node d p0 p1 p2 p3 p4 p5 p6 p7) = true →
      (cell.node d p0 p1 p2 p3 p4 p5 p6 p7).splits_into_octants e) ∧
    octree e p0 ∧ octree e p1 ∧ octree e p2 ∧ octree e p3 ∧
    octree e p4 ∧ octree e p5 ∧ octree e p6 ∧ octree e p7

/-- The first cell after `space_getsid` has put the pair in canonical order. -/
def getsid_ci (e : engine) (ci cj : cell) : cell :=
  if (space_getsid e ci cj).flip then cj else ci

/-- The second cell after `space_getsid` has put the pair in canonical order. -/
def getsid_cj (e : engine) (ci cj : cell) : cell :=
  if (space_getsid e ci cj).flip then ci else cj

/-- Every cell pair the recursion of `runner_dosub_pair_stars_density`
reaches from `(ci, cj)` has an active cell and stars on both sides, and every
pair it evaluates directly is drifted and sorted. -/
inductive dispatch_ready (e : engine) : cell → cell → Prop
  | direct (ci cj : cell)
      (hact : e.cell_is_active_stars ci = true ∨ e.cell_is_active_stars cj = true)
      (hsi : ci.scount ≠ 0) (hsj : cj.scount ≠ 0)
      (hrec : ¬ (e.cell_can_recurse_in_pair_stars_task ci = true ∧
        e.cell_can_recurse_in_pair_stars_task cj = true))
      (hdi : e.cell_are_part_drifted ci = true) (hdj : e.cell_are_part_drifted cj = true)
      (hsorti : ¬ sort_is_stale e ci (space_getsid e ci cj).sid)
      (hsortj : ¬ sort_is_stale e cj (space_getsid e ci cj).sid) :
      dispatch_ready e ci cj
  | recurse (ci cj : cell)
      (hact : e.cell_is_active_stars ci = true ∨ e.cell_is_active_stars cj = true)
      (hsi : ci.scount ≠ 0) (hsj : cj.scount ≠ 0)
      (hrec : e.cell_can_recurse_in_pair_stars_task ci = true ∧
        e.cell_can_recurse_in_pair_stars_task cj = true)
      (hsub : ∀ ab ∈ runner_dosub_pair_stars_density_tasks (getsid_ci e ci cj)
          (getsid_cj e ci cj) (space_getsid e ci cj).sid,
        dispatch_ready e ((getsid_ci e ci cj).progeny ab.1)
          ((getsid_cj e ci cj).progeny ab.2)) :
      dispatch_ready e ci cj

/-- Both directions of the brute-force evaluation of the flattened pair:
stars of `ci` against gas of `cj` and stars of `cj` against gas of `ci`, each
under the periodic shift of that ordered pair. -/
def brute_force_pair (e : engine) (ci cj : cell) : List (spart × part) :=
  brute_force e (runner_dosubpair_stars_density_shift e ci cj) ci.sparts cj.parts ++
    brute_force e (runner_dosubpair_stars_density_shift e cj ci) cj.sparts ci.parts

/-- Offset, in child widths, of child `b` of `cj` from child `a` of `ci` when
`cj` is at offset `d` from `ci`: `2*d_k + b_k - a_k` on axis `k`. -/
def child_offset (d : Int × Int × Int) (a b : Nat) : Int × Int × Int :=
  (2 * d.1 + octant_bit b 0 - octant_bit a 0,
   2 * d.2.1 + octant_bit b 1 - octant_bit a 1,
   2 * d.2.2 + octant_bit b 2 - octant_bit a 2)

/-- A property holds at a cell and at every cell below it. -/
def every_cell (P : cell → Prop) : cell → Prop
  | cell.NULL => True
  | cell.node d p0 p1 p2 p3 p4 p5 p6 p7 =>
    P (cell.node d p0 p1 p2 p3 p4 p5 p6 p7) ∧
    every_cell P p0 ∧ every_cell P p1 ∧ every_cell P p2 ∧ every_cell P p3 ∧
    every_cell P p4 ∧ every_cell P p5 ∧ every_cell P p6 ∧ every_cell P p7

/-- A star in octant 4 of the cell at the origin, next to its `+x` face. -/
def ex_star_a : spart := ⟨1, pt (3 / 2) (1 / 2) (1 / 2), 7 / 10⟩
/-- A gas particle in the same octant. -/
def ex_gas_a : part := ⟨2, pt (19 / 10) (1 / 2) (1 / 2), 7 / 10⟩
/-- A star in octant 0 of the neighbouring cell. -/
def ex_star_b : spart := ⟨3, pt (5 / 2) (1 / 2) (1 / 2), 7 / 10⟩
/-- A gas particle in the same octant. -/
def ex_gas_b : part := ⟨4, pt (21 / 10) (1 / 2) (1 / 2), 7 / 10⟩
/-- A star in octant 0 of the cell at the origin, far from the neighbour. -/
def ex_star_far : spart := ⟨10, pt (1 / 2) (1 / 2) (1 / 2), 7 / 10⟩

/-- A split cell of edge 2 at the origin whose particles sit in octant 4. -/
def ex_tree_left : cell :=
  cell.node
    { loc := pt 0 0 0, width := fun _ => 2, dmin := 2, h_max_old := 7 / 10,
      sparts := [ex_star_a], parts := [ex_gas_a], split := true, sorted := 8191,
      dx_max_sort_old := 0 }
    cell.NULL cell.NULL cell.NULL cell.NULL
    (ex_leaf (pt 1 0 0) 1 [ex_star_a] [ex_gas_a]) cell.NULL cell.NULL cell.NULL

/-- Its neighbour on the `+x` side, whose particles sit in octant 0. -/
def ex_tree_right : cell :=
  cell.node
    { loc := pt 2 0 0, width := fun _ => 2, dmin := 2, h_max_old := 7 / 10,
      sparts := [ex_star_b], parts := [ex_gas_b], split := true, sorted := 8191,
      dx_max_sort_old := 0 }
    (ex_leaf (pt 2 0 0) 1 [ex_star_b] [ex_gas_b]) cell.NULL cell.NULL cell.NULL
    cell.NULL cell.NULL cell.NULL cell.NULL

/-- The cell at the origin with one more star, in octant 0. -/
def ex_tree_left_two : cell :=
  cell.node
    { loc := pt 0 0 0, width := fun _ => 2, dmin := 2, h_max_old := 7 / 10,
      sparts := [ex_star_far, ex_star_a], parts := [ex_gas_a], split := true,
      sorted := 8191, dx_max_sort_old := 0 }
    (ex_leaf (pt 0 0 0) 1 [ex_star_far] []) cell.NULL cell.NULL cell.NULL
    (ex_leaf (pt 1 0 0) 1 [ex_star_a] [ex_gas_a]) cell.NULL cell.NULL cell.NULL

/-- A step at which the star with id 10 is the only active star: a cell is
active when it holds that star. -/
def ex_one_active_engine : engine :=
  { ex_engine with
    cell_is_active_stars := fun c => c.sparts.any fun s => decide (s.id = 10) }

/-- An unsplit cell next to `ex_cell_one_star` holding gas but no star. -/
def ex_cell_gas_only : cell :=
  ex_leaf (pt 2 0 0) 2 [] [⟨5, pt 2 0 0, 1⟩]

/-- An unsplit cell at the origin with one star close to its `+x` face and
no gas. -/
def ex_cell_near_face : cell :=
  ex_leaf (pt 0 0 0) 2 [⟨6, pt (3 / 2) 0 0, 1⟩] []

/-- The 13 direction vectors of the switch followed by their negations. -/
def stencil_dirs : List (Int × Int × Int) :=
  (List.range 13).map runner_shift_dir ++
    (List.range 13).map fun i => dir_neg (runner_shift_dir i)

/-! ## Subset evaluation -/

instance : Inhabited spart := ⟨⟨0, fun _ => 0, 0⟩⟩

/-- The star `sparts[i]` of the array handed to the subset functions; an
index past the end of the list yields the all-zero star (the C program would
read outside the array). -/
def spart_at (sparts : List spart) (i : Nat) : spart := sparts.getD i default

/-- Embedding of `runner_dopair_subset_stars_density`; `scount` is
`ind.length`. -/
def runner_dopair_subset_stars_density (e : engine) (_ci : cell) (sparts_i : List spart)
    (ind : List Nat) (cj : cell) (shift : vec3) : List iact :=
  ind.flatMap fun i =>
    let spi := spart_at sparts_i i
    let spix : vec3 := fun k => spi.x k - shift k
    let hi := spi.h
    let hig2 := hi * hi * e.kernel_gamma2
    cj.parts.flatMap fun pj =>
      let dx : vec3 := fun k => spix k - pj.x k
      let r2 := 0 + dx 0 * dx 0 + dx 1 * dx 1 + dx 2 * dx 2
      if r2 < hig2 then [⟨r2, dx, hi, pj.h, spi, pj⟩] else []

/-- Embedding of `runner_doself_subset_stars_density`; `scount` is
`ind.length`. -/
def runner_doself_subset_stars_density (e : engine) (ci : cell) (sparts : List spart)
    (ind : List Nat) : List iact :=
  ind.flatMap fun i =>
    let spi := spart_at sparts i
    let spix : vec3 := fun k => spi.x k - ci.loc k
    let hi := spi.h
    let hig2 := hi * hi * e.kernel_gamma2
    ci.parts.flatMap fun pj =>
      let hj := pj.h
      let pjx : vec3 := fun k => pj.x k - ci.loc k
      let dx : vec3 := fun k => spix k - pjx k
      let r2 := dx 0 * dx 0 + dx 1 * dx 1 + dx 2 * dx 2
      if r2 > 0 ∧ r2 < hig2 then [⟨r2, dx, hi, hj, spi, pj⟩] else []

/-- Embedding of `runner_doself_subset_branch_stars_density`. -/
def runner_doself_subset_branch_stars_density (e : engine) (ci : cell)
    (sparts : List spart) (ind : List Nat) : List iact :=
  runner_doself_subset_stars_density e ci sparts ind

/-- Embedding of `runner_dopair_subset_branch_stars_density`. -/
def runner_dopair_subset_branch_stars_density (e : engine) (ci : cell)
    (sparts_i : List spart) (ind : List Nat) (cj : cell) : List iact :=
  runner_dopair_subset_stars_density e ci sparts_i ind cj
    (runner_dopair_subset_branch_stars_density_shift e ci cj)

/-- The search `/* Find out in which sub-cell of ci the parts are. */` of
`runner_dosub_subset_stars_density`: the first non-null progeny whose star
array holds `sparts[ind[0]]`, or `NULL`.  The address test
`&sparts[ind[0]] >= &p->sparts[0] && &sparts[ind[0]] < &p->sparts[p->scount]`
is membership of that star in the array of `p`, a star being identified by its
`id`. -/
def runner_dosub_subset_stars_density_sub (ci : cell) (sparts : List spart)
    (ind : List Nat) : cell :=
  if ci.data.split then
    match (List.range 8).find? (fun k => decide (ci.progeny k ≠ cell.NULL ∧
        spart_at sparts (ind.headD 0) ∈ (ci.progeny k).sparts)) with
    | some k => ci.progeny k
    | none => cell.NULL
  else cell.NULL

/-- The `(a, b)` of the pairs of guarded calls under `case sid:` in the switch
of `runner_dosub_subset_stars_density`, in program order. -/
def subset_table : Nat → List (Nat × Nat)
  | 0 => [(7, 0)]
  | 1 => [(6, 0), (6, 1), (7, 0), (7, 1)]
  | 2 => [(6, 1)]
  | 3 => [(5, 0), (5, 2), (7, 0), (7, 2)]
  | 4 => [(4, 0), (4, 1), (4, 2), (4, 3), (5, 0), (5, 1), (5, 2), (5, 3),
          (6, 0), (6, 1), (6, 2), (6, 3), (7, 0), (7, 1), (7, 2), (7, 3)]
  | 5 => [(4, 1), (4, 3), (6, 1), (6, 3)]
  | 6 => [(5, 2)]
  | 7 => [(4, 2), (4, 3), (5, 2), (5, 3)]
  | 8 => [(4, 3)]
  | 9 => [(3, 0), (3, 4), (7, 0), (7, 4)]
  | 10 => [(2, 0), (2, 1), (2, 4), (2, 5), (3, 0), (3, 1), (3, 4), (3, 5),
           (6, 0), (6, 1), (6, 4), (6, 5), (7, 0), (7, 1), (7, 4), (7, 5)]
  | 11 => [(2, 1), (2, 5), (6, 1), (6, 5)]
  | 12 => [(1, 0), (1, 2), (1, 4), (1, 6), (3, 0), (3, 2), (3, 4), (3, 6),
           (5, 0), (5, 2), (5, 4), (5, 6), (7, 0), (7, 2), (7, 4), (7, 6)]
  | _ => []

/-- A recursive call made by the switch of `runner_dosub_subset_stars_density`:
`ci_first a b` is the call on `(ci->progeny[a], cj->progeny[b])`, guarded by
`ci->progeny[a] == sub && cj->progeny[b] != NULL`; `cj_first a b` is the call
on `(cj->progeny[b], ci->progeny[a])`, guarded by
`ci->progeny[a] != NULL && cj->progeny[b] == sub`. -/
inductive subset_call where
  | ci_first (a b : Nat)
  | cj_first (a b : Nat)
deriving DecidableEq

/-- The recursive calls made under `case sid:`, in program order.  Equality
of cell pointers is equality of cells. -/
def runner_dosub_subset_stars_density_tasks (ci cj sub : cell) (sid : Nat) :
    List subset_call :=
  (subset_table sid).flatMap fun ab =>
    (if ci.progeny ab.1 = sub ∧ cj.progeny ab.2 ≠ cell.NULL then
      [subset_call.ci_first ab.1 ab.2] else []) ++
    (if ci.progeny ab.1 ≠ cell.NULL ∧ cj.progeny ab.2 = sub then
      [subset_call.cj_first ab.1 ab.2] else [])

/-- The partners `progeny[j]` of the loop over all progeny in the self branch
of `runner_dosub_subset_stars_density`. -/
def runner_dosub_subset_stars_density_self_tasks (ci sub : cell) : List Nat :=
  (List.range 8).filter fun j => ci.progeny j ≠ sub ∧ ci.progeny j ≠ cell.NULL

/-- The two tests `/* Should we even bother? */` of
`runner_dosub_subset_stars_density`. -/
def runner_dosub_subset_stars_density_skip (e : engine) (ci cj : cell) : Prop :=
  (¬ e.cell_is_active_stars ci ∧ (cj = cell.NULL ∨ ¬ e.cell_is_active_stars cj)) ∨
    (ci.scount = 0 ∨ (cj ≠ cell.NULL ∧ cj.scount = 0))

instance (e : engine) (ci cj : cell) :
    Decidable (runner_dosub_subset_stars_density_skip e ci cj) := by
  unfold runner_dosub_subset_stars_density_skip; infer_instance

/-- The block `/* Otherwise, compute the pair directly. */` of
`runner_dosub_subset_stars_density`. -/
def runner_dosub_subset_stars_density_direct (e : engine) (ci : cell)
    (sparts : List spart) (ind : List Nat) (cj : cell) : outcome :=
  if e.cell_is_active_stars ci ∨ e.cell_is_active_stars cj then
    if ¬ e.cell_are_part_drifted cj then outcome.abort fatal.cell_should_be_drifted
    else outcome.ok (runner_dopair_subset_branch_stars_density e ci sparts ind cj)
  else outcome.ok []

/-- Embedding of `runner_dosub_subset_stars_density`; `cj = NULL` is the self
mode.  The argument `sid` is overwritten before it is read.  A null `ci`
(the code passes `sub`, which may be null) makes the function crash on its
first read. -/
def runner_dosub_subset_stars_density (e : engine) (ci : cell) (sparts : List spart)
    (ind : List Nat) (cj : cell) (sid : Int) : outcome :=
  if hnull : ci = cell.NULL then outcome.abort fatal.null_cell
  else if runner_dosub_subset_stars_density_skip e ci cj then outcome.ok []
  else
    let sub := runner_dosub_subset_stars_density_sub ci sparts ind
    if hcj : cj = cell.NULL then
      if e.cell_can_recurse_in_self_stars_task ci then
        outcome.seq (runner_dosub_subset_stars_density e sub sparts ind cell.NULL (-1) ::
          (runner_dosub_subset_stars_density_self_tasks ci sub).map fun j =>
            runner_dosub_subset_stars_density e sub sparts ind (ci.progeny j) (-1))
      else outcome.ok (runner_doself_subset_branch_stars_density e ci sparts ind)
    else
      if e.cell_can_recurse_in_pair_stars_task ci ∧
          e.cell_can_recurse_in_pair_stars_task cj then
        let g := space_getsid e ci cj
        let ci' := if g.flip then cj else ci
        let cj' := if g.flip then ci else cj
        let sid := g.sid
        outcome.seq ((runner_dosub_subset_stars_density_tasks ci' cj' sub sid).map fun t =>
          match t with
          | subset_call.ci_first a b =>
            runner_dosub_subset_stars_density e (ci'.progeny a) sparts ind (cj'.progeny b) (-1)
          | subset_call.cj_first a b =>
            runner_dosub_subset_stars_density e (cj'.progeny b) sparts ind (ci'.progeny a) (-1))
      else runner_dosub_subset_stars_density_direct e ci sparts ind cj
termination_by max ci.depth cj.depth
decreasing_by
  all_goals
    have key : ∀ (c : cell) (k : Nat), c ≠ cell.NULL → (c.progeny k).depth < c.depth := by
      intro c k hc
      cases c with
      | NULL => exact absurd rfl hc
      | node d p0 p1 p2 p3 p4 p5 p6 p7 =>
        have hd : (cell.node d p0 p1 p2 p3 p4 p5 p6 p7).depth =
            1 + max (max (max p0.depth p1.depth) (max p2.depth p3.depth))
              (max (max p4.depth p5.depth) (max p6.depth p7.depth)) := rfl
        rw [hd]
        have h8 : k = 0 ∨ k = 1 ∨ k = 2 ∨ k = 3 ∨ k = 4 ∨ k = 5 ∨ k = 6 ∨ k = 7 ∨
            ∃ m, k = m + 8 := by
          rcases Nat.lt_or_ge k 8 with h | h
          · omega
          · exact Or.inr (Or.inr (Or.inr (Or.inr (Or.inr (Or.inr (Or.inr (Or.inr
              ⟨k - 8, by omega⟩)))))))
        have hlt : ∀ n M : Nat, n ≤ M → n < 1 + M := fun n M h =>
          Nat.lt_of_le_of_lt h (Nat.lt_add_of_pos_left Nat.one_pos)
        rcases h8 with h | h | h | h | h | h | h | h | ⟨m, h⟩ <;> subst h
        · exact hlt _ _ (le_trans (le_trans (le_max_left _ _) (le_max_left _ _))
            (le_max_left _ _))
        · exact hlt _ _ (le_trans (le_trans (le_max_right _ _) (le_max_left _ _))
            (le_max_left _ _))
        · exact hlt _ _ (le_trans (le_trans (le_max_left _ _) (le_max_right _ _))
            (le_max_left _ _))
        · exact hlt _ _ (le_trans (le_trans (le_max_right _ _) (le_max_right _ _))
            (le_max_left _ _))
        · exact hlt _ _ (le_trans (le_trans (le_max_left _ _) (le_max_left _ _))
            (le_max_right _ _))
        · exact hlt _ _ (le_trans (le_trans (le_max_right _ _) (le_max_left _ _))
            (le_max_right _ _))
        · exact hlt _ _ (le_trans (le_trans (le_max_left _ _) (le_max_right _ _))
            (le_max_right _ _))
        · exact hlt _ _ (le_trans (le_trans (le_max_right _ _) (le_max_right _ _))
            (le_max_right _ _))
        · exact hlt _ _ (Nat.zero_le _)
    have key0 : ∀ c : cell, c ≠ cell.NULL → cell.NULL.depth < c.depth := by
      intro c hc
      cases c with
      | NULL => exact absurd rfl hc
      | node d p0 p1 p2 p3 p4 p5 p6 p7 =>
        exact key (cell.node d p0 p1 p2 p3 p4 p5 p6 p7) 8 hc
  · have hsub : (runner_dosub_subset_stars_density_sub ci sparts ind).depth < ci.depth := by
      unfold runner_dosub_subset_stars_density_sub
      split
      · split
        · exact key ci _ hnull
        · exact key0 ci hnull
      · exact key0 ci hnull
    have h0 := key0 ci hnull
    omega
  · have hsub : (runner_dosub_subset_stars_density_sub ci sparts ind).depth < ci.depth := by
      unfold runner_dosub_subset_stars_density_sub
      split
      · split
        · exact key ci _ hnull
        · exact key0 ci hnull
      · exact key0 ci hnull
    have h1 := key ci j hnull
    omega
  · have a1 := key ci a hnull
    have a2 := key ci b hnull
    have a3 := key cj a hcj
    have a4 := key cj b hcj
    split <;> omega
  · have a1 := key ci a hnull
    have a2 := key ci b hnull
    have a3 := key cj a hcj
    have a4 := key cj b hcj
    split <;> omega

/-! ## Constant cooling (`src/cooling/const/cooling.h`) -/

/-- The `struct cooling_data`. -/
structure cooling_data where
  lambda : ℚ
  min_energy : ℚ
  cooling_tstep_mult : ℚ

/-- Embedding of `cooling_cool_part`.  The particle is represented by its
internal energy: `u_old` is what `hydro_get_internal_energy(p, 0.f)` returns
and the result is the value handed to `hydro_set_internal_energy`; the
arguments `phys_const` and `us` are not read. -/
def cooling_cool_part (cooling : cooling_data) (u_old : ℚ) (dt : ℚ) : ℚ :=
  let du_dt := -cooling.lambda
  let u_floor := cooling.min_energy
  if u_old - du_dt * dt > u_floor then u_old + du_dt * dt else u_floor

/-! ## Random numbers (`src/random.h`) -/

/-- The `enum random_number_type`. -/
inductive random_number_type where
  | random_number_star_formation
  | random_number_stellar_feedback
  | random_number_stellar_enrichment
  | random_number_BH_feedback
deriving DecidableEq

/-- The integer value of an enumerator. -/
def random_number_type.val : random_number_type → Int
  | random_number_star_formation => 0
  | random_number_stellar_feedback => 1
  | random_number_stellar_enrichment => 2
  | random_number_BH_feedback => 3

/-- The value of an integer expression stored in a `long long`: two's
complement wrap to 64 bits. -/
def wrap_long_long (n : Int) : Int := (n + 2 ^ 63) % 2 ^ 64 - 2 ^ 63

/-- The constant `seed_range`. -/
def seed_range : Int := 131071

/-- The `unsigned int seed` of `random_unit_interval`: the C remainder of
`id + ti_current + (long long)type` by `seed_range`, converted to 32 bits. -/
def random_seed (id ti_current : Int) (type : random_number_type) : Nat :=
  ((Int.tmod (wrap_long_long (id + ti_current + type.val)) seed_range) % 2 ^ 32).toNat

/-- Embedding of `random_unit_interval`.  The constant `RAND_MAX` and the
library function `rand_r`, as a function of the seed it is handed, are
parameters; `double` is exact. -/
def random_unit_interval (RAND_MAX : Nat) (rand_r : Nat → Nat) (id ti_current : Int)
    (type : random_number_type) : ℚ :=
  let RAND_MAX_inv : ℚ := 1 / (RAND_MAX : ℚ)
  let seed := random_seed id ti_current type
  (rand_r seed : ℚ) / RAND_MAX_inv

/-! ## The lattice scenario -/

/-- The sites of a 3x3x3 lattice, by index on each axis. -/
def lattice_sites : List (Nat × Nat × Nat) :=
  (List.range 3).flatMap fun i => (List.range 3).flatMap fun j =>
    (List.range 3).map fun k => (i, j, k)

/-- Position of a site in the unit cell whose origin is `(o, 0, 0)`: sites
are at `1/6`, `1/2`, `5/6` of the cell on each axis. -/
def lattice_pos (o : ℚ) (s : Nat × Nat × Nat) : vec3 :=
  pt (o + (2 * (s.1 : ℚ) + 1) / 6) ((2 * (s.2.1 : ℚ) + 1) / 6) ((2 * (s.2.2 : ℚ) + 1) / 6)

/-- Number of a site within its cell. -/
def lattice_id (s : Nat × Nat × Nat) : Int := 9 * s.1 + 3 * s.2.1 + s.2.2

/-- The star on site `s`. -/
def lattice_star (o : ℚ) (base : Int) (h : ℚ) (s : Nat × Nat × Nat) : spart :=
  ⟨base + lattice_id s, lattice_pos o s, h⟩

/-- The gas particle on site `s`. -/
def lattice_gas (o : ℚ) (base : Int) (h : ℚ) (s : Nat × Nat × Nat) : part :=
  ⟨base + lattice_id s, lattice_pos o s, h⟩

/-- The unit cell at `(o, 0, 0)` with one star and one gas particle on every
lattice site. -/
def lattice_cell (o : ℚ) (base : Int) (h : ℚ) : cell :=
  ex_leaf (pt o 0 0) 1 (lattice_sites.map (lattice_star o base h))
    (lattice_sites.map (lattice_gas o (base + 27) h))

/-- Distance of two indices. -/
def site_dist (a b : Nat) : Nat := if a ≤ b then b - a else a - b

/-- The cross-cell neighbours of the star on site `s`, computed analytically:
if `s` is on the layer `near` next to the shared face, the sites of the facing
layer `far` of the other cell that are its mirror site or one lattice step
away from it within the layer; none otherwise. -/
def cross_neighbours (near far : Nat) (s : Nat × Nat × Nat) : List (Nat × Nat × Nat) :=
  lattice_sites.filter fun t =>
    decide (s.1 = near ∧ t.1 = far ∧ site_dist s.2.1 t.2.1 + site_dist s.2.2 t.2.2 ≤ 1)

/-- The analytic neighbour count: 3 at a corner, 4 on an edge and 5 at the
centre of the layer `near`, and 0 on the other layers. -/
def cross_neighbour_count (near : Nat) (s : Nat × Nat × Nat) : Nat :=
  if s.1 = near then 1 + (if s.2.1 = 1 then 2 else 1) + (if s.2.2 = 1 then 2 else 1) else 0

/-- The box of `ex_engine` at a step where no cell is drifted. -/
def ex_undrifted_engine : engine :=
  { ex_engine with cell_are_part_drifted := fun _ => false }

/-- Specification side: the arguments of the interaction `c` are the exact
ones for its star and its gas particle under `shift`: the displacement is
`x_star - x_gas - shift`, the squared separation is the sum of the squares of
the three components of that displacement, and the two smoothing lengths are
those of the star and of the gas particle. -/
def iact.exact_arguments (shift : vec3) (c : iact) : Prop :=
  (∀ k, c.dx k = c.si.x k - c.pj.x k - shift k) ∧
    c.r2 = c.dx 0 ^ 2 + c.dx 1 ^ 2 + c.dx 2 ^ 2 ∧
    c.hi = c.si.h ∧ c.hj = c.pj.h

/-! ## Particle input and output (`src/hydro/Gadget2/hydro_io.h`) -/

/-- The data types named by the file. -/
inductive data_type where
  | DOUBLE
  | FLOAT
  | ULONGLONG
deriving DecidableEq

/-- Whether a field must be present in the file that is read. -/
inductive data_importance where
  | COMPULSORY
  | OPTIONAL
deriving DecidableEq

/-- The arguments of one `io_make_input_field(name, type, dimension,
importance, units, parts, field)`. -/
structure io_props where
  name : String
  type : data_type
  dimension : Nat
  importance : data_importance
  units : String
  field : String
deriving DecidableEq

/-- Embedding of `hydro_read_particles`: the fields `list[0]` to `list[7]`
that the final loop hands to `readArray`, in order. -/
def hydro_read_particles : List io_props :=
  [ { name := "Coordinates", type := data_type.DOUBLE, dimension := 3,
      importance := data_importance.COMPULSORY, units := "UNIT_CONV_LENGTH", field := "x" },
    { name := "Velocities", type := data_type.FLOAT, dimension := 3,
      importance := data_importance.COMPULSORY, units := "UNIT_CONV_SPEED", field := "v" },
    { name := "Masses", type := data_type.FLOAT, dimension := 1,
      importance := data_importance.COMPULSORY, units := "UNIT_CONV_MASS", field := "mass" },
    { name := "SmoothingLength", type := data_type.FLOAT, dimension := 1,
      importance := data_importance.COMPULSORY, units := "UNIT_CONV_LENGTH", field := "h" },
    { name := "InternalEnergy", type := data_type.FLOAT, dimension := 1,
      importance := data_importance.COMPULSORY, units := "UNIT_CONV_ENERGY",
      field := "entropy" },
    { name := "ParticleIDs", type := data_type.ULONGLONG, dimension := 1,
      importance := data_importance.COMPULSORY, units := "UNIT_CONV_NO_UNITS",
      field := "id" },
    { name := "Accelerations", type := data_type.FLOAT, dimension := 3,
      importance := data_importance.OPTIONAL, units := "UNIT_CONV_ACCELERATION",
      field := "a_hydro" },
    { name := "Density", type := data_type.FLOAT, dimension := 1,
      importance := data_importance.OPTIONAL, units := "UNIT_CONV_DENSITY",
      field := "rho" } ]

/-- Embedding of `hydro_write_particles`: the names of the arrays handed to
`writeArray`, in order, for `N` particles.  The body of the function holds no
statement: every `writeArray` call in it is inside a comment. -/
def hydro_write_particles (_N : Int) : List String := []

/-! ## Recursion with a bound on the depth of the call stack -/

/-- The cell of `ex_cell_one_star` with the search radius of its star cut
down to `1/2`. -/
def ex_cell_short_star : cell :=
  ex_leaf (pt 0 0 0) 2 [⟨1, pt 0 0 0, 1 / 2⟩] [⟨2, pt 1 0 0, 1⟩, ⟨3, pt 0 1 0, 1⟩]

/-- A sequence of calls run in order, each with a bounded call stack: `none`
when one of them needs more stack than it was given. -/
def outcome.seq_bounded : List (Option outcome) → Option outcome
  | [] => some (outcome.ok [])
  | none :: _ => none
  | some a :: l => (outcome.seq_bounded l).map (outcome.andThen a)

/-- The function `runner_dosub_pair_stars_density` run with room for `n`
nested calls of itself on the stack: `none` when the recursion needs more. -/
def runner_dosub_pair_stars_density_bounded (e : engine) : Nat → cell → cell → Option outcome
  | 0, _, _ => none
  | n + 1, ci, cj =>
    if ¬ e.cell_is_active_stars ci ∧ ¬ e.cell_is_active_stars cj then some (outcome.ok [])
    else if ci.scount = 0 ∨ cj.scount = 0 then some (outcome.ok [])
    else
      let g := space_getsid e ci cj
      let ci' := if g.flip then cj else ci
      let cj' := if g.flip then ci else cj
      let sid := g.sid
      if e.cell_can_recurse_in_pair_stars_task ci' ∧
          e.cell_can_recurse_in_pair_stars_task cj' then
        outcome.seq_bounded ((runner_dosub_pair_stars_density_tasks ci' cj' sid).map fun ab =>
          runner_dosub_pair_stars_density_bounded e n (ci'.progeny ab.1) (cj'.progeny ab.2))
      else some (runner_dosub_pair_stars_density_direct e ci' cj' sid)

/-- The function `runner_dosub_self_stars_density` run with room for `n`
nested calls on the stack. -/
def runner_dosub_self_stars_density_bounded (e : engine) : Nat → cell → Option outcome
  | 0, _ => none
  | n + 1, ci =>
    if ci.scount = 0 ∨ ¬ e.cell_is_active_stars ci then some (outcome.ok [])
    else if e.cell_can_recurse_in_self_stars_task ci then
      outcome.seq_bounded ((runner_dosub_self_stars_density_tasks ci).map fun t =>
        match t with
        | subtask.self k => runner_dosub_self_stars_density_bounded e n (ci.progeny k)
        | subtask.pair k j =>
          runner_dosub_pair_stars_density_bounded e n (ci.progeny k) (ci.progeny j))
    else some (runner_doself_branch_stars_density e ci)

/-- The function `runner_dosub_subset_stars_density` run with room for `n`
nested calls on the stack. -/
def runner_dosub_subset_stars_density_bounded (e : engine) :
    Nat → cell → List spart → List Nat → cell → Option outcome
  | 0, _, _, _, _ => none
  | n + 1, ci, sparts, ind, cj =>
    if ci = cell.NULL then some (outcome.abort fatal.null_cell)
    else if runner_dosub_subset_stars_density_skip e ci cj then some (outcome.ok [])
    else
      let sub := runner_dosub_subset_stars_density_sub ci sparts ind
      if cj = cell.NULL then
        if e.cell_can_recurse_in_self_stars_task ci then
          outcome.seq_bounded
            (runner_dosub_subset_stars_density_bounded e n sub sparts ind cell.NULL ::
              (runner_dosub_subset_stars_density_self_tasks ci sub).map fun j =>
                runner_dosub_subset_stars_density_bounded e n sub sparts ind (ci.progeny j))
        else some (outcome.ok (runner_doself_subset_branch_stars_density e ci sparts ind))
      else
        if e.cell_can_recurse_in_pair_stars_task ci ∧
            e.cell_can_recurse_in_pair_stars_task cj then
          let g := space_getsid e ci cj
          let ci' := if g.flip then cj else ci
          let cj' := if g.flip then ci else cj
          let sid := g.sid
          outcome.seq_bounded
            ((runner_dosub_subset_stars_density_tasks ci' cj' sub sid).map fun t =>
              match t with
              | subset_call.ci_first a b =>
                runner_dosub_subset_stars_density_bounded e n (ci'.progeny a) sparts ind
                  (cj'.progeny b)
              | subset_call.cj_first a b =>
                runner_dosub_subset_stars_density_bounded e n (cj'.progeny b) sparts ind
                  (ci'.progeny a))
        else some (runner_dosub_subset_stars_density_direct e ci sparts ind cj)

/-! ## The two loops in single precision -/

/-- The rounding of the two floating-point formats of the program: `f32 q` is
the `float`, and `f64 q` the `double`, that a cast or an arithmetic operation
yields when its exact result is `q`.  Overflow, NaN and intermediate results
kept in a wider format are not modelled. -/
structure rounding where
  f32 : ℚ → ℚ
  f64 : ℚ → ℚ

/-- Exact arithmetic: no operation rounds. -/
def exact_rounding : rounding := ⟨id, id⟩

/-- The integer nearest to `q`, the even one of the two when `q` lies half-way
between them. -/
def round_half_even (q : ℚ) : Int :=
  let f := Int.floor q
  if q - f < 1 / 2 then f
  else if q - f > 1 / 2 then f + 1
  else if f % 2 = 0 then f else f + 1

/-- The binary exponent of a non-zero `q`: the `ex` with
`2 ^ ex ≤ |q| < 2 ^ (ex + 1)`. -/
def binary_exponent (q : ℚ) : Int := Int.log 2 |q|

/-- Rounding to the nearest binary floating-point number with `p` significant
bits, ties to even (the default rounding mode of IEEE 754).  The exponent
range is unbounded: overflow and subnormal numbers are not modelled. -/
def binary_round (p : Nat) (q : ℚ) : ℚ :=
  if q = 0 then 0 else
  let ulp : ℚ := 2 ^ (binary_exponent q - ((p : Int) - 1))
  (round_half_even (q / ulp) : ℚ) * ulp

/-- The rounding of IEEE 754 arithmetic: `float` is binary32, with 24
significant bits, and `double` is binary64, with 53. -/
def ieee_rounding : rounding := ⟨binary_round 24, binary_round 53⟩

/-- The value of `hi * hi * kernel_gamma2`, two `float` multiplications. -/
def float_hig2 (rd : rounding) (e : engine) (hi : ℚ) : ℚ :=
  rd.f32 (rd.f32 (hi * hi) * e.kernel_gamma2)

/-- The value of `dx[0] * dx[0] + dx[1] * dx[1] + dx[2] * dx[2]`, three `float`
multiplications and two `float` additions, left to right. -/
def float_r2 (rd : rounding) (dx : vec3) : ℚ :=
  rd.f32 (rd.f32 (rd.f32 (dx 0 * dx 0) + rd.f32 (dx 1 * dx 1)) + rd.f32 (dx 2 * dx 2))

/-- The `dx` that `runner_doself_stars_density` computes for star `si` and gas
particle `pj`: `six[k] = (float)(si->x[k] - c->loc[k])`,
`pjx[k] = (float)(pj->x[k] - c->loc[k])`, `dx[k] = six[k] - pjx[k]`. -/
def runner_doself_stars_density_dx (rd : rounding) (c : cell) (si : spart) (pj : part) :
    vec3 :=
  fun k => rd.f32 (rd.f32 (rd.f64 (si.x k - c.loc k)) - rd.f32 (rd.f64 (pj.x k - c.loc k)))

/-- The arguments `runner_doself_stars_density` hands to the interaction for
star `si` and gas particle `pj`. -/
def runner_doself_stars_density_call (rd : rounding) (c : cell) (si : spart) (pj : part) :
    iact :=
  ⟨float_r2 rd (runner_doself_stars_density_dx rd c si pj),
    runner_doself_stars_density_dx rd c si pj, si.h, pj.h, si, pj⟩

/-- Embedding of `runner_doself_stars_density` with its casts to `float` and
the rounding of every `double` and `float` operation. -/
def runner_doself_stars_density_float (rd : rounding) (e : engine) (c : cell) : List iact :=
  if ¬ e.cell_is_active_stars c then [] else
  c.sparts.flatMap fun si =>
    let hi := si.h
    let hig2 := rd.f32 (rd.f32 (hi * hi) * e.kernel_gamma2)
    let six : vec3 := fun k => rd.f32 (rd.f64 (si.x k - c.loc k))
    c.parts.flatMap fun pj =>
      let hj := pj.h
      let pjx : vec3 := fun k => rd.f32 (rd.f64 (pj.x k - c.loc k))
      let dx : vec3 := fun k => rd.f32 (six k - pjx k)
      let r2 := rd.f32 (rd.f32 (rd.f32 (dx 0 * dx 0) + rd.f32 (dx 1 * dx 1)) +
        rd.f32 (dx 2 * dx 2))
      if r2 > 0 ∧ r2 < hig2 then [⟨r2, dx, hi, hj, si, pj⟩] else []

/-- The `shift` computed at the top of `runner_dosubpair_stars_density` in
`double`: the subtraction `cj->loc[k] - ci->loc[k]` and the division by 2
round, the negation of `dim[k]` does not. -/
def runner_dosubpair_stars_density_shift_float (rd : rounding) (e : engine) (ci cj : cell) :
    vec3 :=
  fun k =>
    if rd.f64 (cj.loc k - ci.loc k) < rd.f64 (-(e.dim k) / 2) then e.dim k
    else if rd.f64 (cj.loc k - ci.loc k) > rd.f64 (e.dim k / 2) then -(e.dim k)
    else 0

/-- The `dx` that `runner_dosubpair_stars_density` computes for star `si` of
`ci` and gas particle `pj` of `cj`:
`six[k] = (float)(si->x[k] - (cj->loc[k] + shift[k]))`,
`pjx[k] = (float)(pj->x[k] - cj->loc[k])`, `dx[k] = six[k] - pjx[k]`. -/
def runner_dosubpair_stars_density_dx (rd : rounding) (e : engine) (ci cj : cell)
    (si : spart) (pj : part) : vec3 :=
  fun k => rd.f32
    (rd.f32 (rd.f64 (si.x k -
        rd.f64 (cj.loc k + runner_dosubpair_stars_density_shift_float rd e ci cj k))) -
      rd.f32 (rd.f64 (pj.x k - cj.loc k)))

/-- The arguments `runner_dosubpair_stars_density` hands to the interaction
for star `si` of `ci` and gas particle `pj` of `cj`. -/
def runner_dosubpair_stars_density_call (rd : rounding) (e : engine) (ci cj : cell)
    (si : spart) (pj : part) : iact :=
  ⟨float_r2 rd (runner_dosubpair_stars_density_dx rd e ci cj si pj),
    runner_dosubpair_stars_density_dx rd e ci cj si pj, si.h, pj.h, si, pj⟩

/-- Embedding of `runner_dosubpair_stars_density` with its casts to `float`
and the rounding of every `double` and `float` operation: the stars of `ci`
against the gas of `cj`. -/
def runner_dosubpair_stars_density_float (rd : rounding) (e : engine) (ci cj : cell) :
    List iact :=
  if ¬ e.cell_is_active_stars ci ∧ ¬ e.cell_is_active_stars cj then [] else
  let shift := runner_dosubpair_stars_density_shift_float rd e ci cj
  ci.sparts.flatMap fun si =>
    let hi := si.h
    let hig2 := rd.f32 (rd.f32 (hi * hi) * e.kernel_gamma2)
    let six : vec3 := fun k => rd.f32 (rd.f64 (si.x k - rd.f64 (cj.loc k + shift k)))
    cj.parts.flatMap fun pj =>
      let hj := pj.h
      let pjx : vec3 := fun k => rd.f32 (rd.f64 (pj.x k - cj.loc k))
      let dx : vec3 := fun k => rd.f32 (six k - pjx k)
      let r2 := rd.f32 (rd.f32 (rd.f32 (dx 0 * dx 0) + rd.f32 (dx 1 * dx 1)) +
        rd.f32 (dx 2 * dx 2))
      if r2 < hig2 then [⟨r2, dx, hi, hj, si, pj⟩] else []

/-- Embedding of `runner_dopair_stars_density` over the single-precision
loop. -/
def runner_dopair_stars_density_float (rd : rounding) (e : engine) (ci cj : cell) :
    List iact :=
  runner_dosubpair_stars_density_float rd e ci cj ++
    runner_dosubpair_stars_density_float rd e cj ci

/-- Brute-force enumeration for the ordered cell pair `(ci, cj)`: every star
of `ci` against every gas particle of `cj`, in array order, kept when the `r2`
computed for them is below the `hig2` computed for the star. -/
def brute_force_float (rd : rounding) (e : engine) (ci cj : cell) : List (spart × part) :=
  (List.product ci.sparts cj.parts).filter fun sp =>
    decide (float_r2 rd (runner_dosubpair_stars_density_dx rd e ci cj sp.1 sp.2) <
      float_hig2 rd e sp.1.h)

/-- A cell of edge 2 at the origin whose star and gas particle are `2 ^ -30`
apart: their offsets from the cell origin have the same `float`. -/
def ex_cell_close_pair : cell :=
  ex_leaf (pt 0 0 0) 2 [⟨1, pt 1 0 0, 1⟩] [⟨2, pt (1 + 1 / 2 ^ 30) 0 0, 1⟩]

/-- A cell of edge 2 at the origin with one star of radius 1 on its upper `x`
face. -/
def ex_cell_face_star : cell :=
  ex_leaf (pt 0 0 0) 2 [⟨1, pt 2 0 0, 1⟩] []

/-- The neighbour of `ex_cell_face_star` along `x`, with one gas particle at
distance `1 - 2 ^ -30` from that star. -/
def ex_cell_face_gas : cell :=
  ex_leaf (pt 2 0 0) 2 [] [⟨2, pt (3 - 1 / 2 ^ 30) 0 0, 1⟩]

/-! ## Calls of `random_unit_interval` in sequence -/

/-- What calls of `random_unit_interval` leave behind them: the storage of
the automatic variable `seed`, which holds the value `rand_r` last wrote
through the pointer it was handed. -/
structure random_memory where
  seed : Nat
deriving DecidableEq

/-- One call of `random_unit_interval` run on the memory `m`; `rand_r` maps
the value of `seed` it finds to the number it returns and the value it stores
back.  The declaration `unsigned int seed = ...` writes the variable before
`rand_r` reads it.  The `static const` variables `seed_range` and
`RAND_MAX_inv` are never written and are not part of the memory. -/
def random_unit_interval_call (RAND_MAX : Nat) (rand_r : Nat → Nat × Nat)
    (m : random_memory) (id ti_current : Int) (type : random_number_type) :
    ℚ × random_memory :=
  let RAND_MAX_inv : ℚ := 1 / (RAND_MAX : ℚ)
  let m1 : random_memory := { m with seed := random_seed id ti_current type }
  let drawn := rand_r m1.seed
  let m2 : random_memory := { m1 with seed := drawn.2 }
  ((drawn.1 : ℚ) / RAND_MAX_inv, m2)

/-- Calls of `random_unit_interval` run one after the other from the memory
`m`: the numbers returned, in order, and the memory left. -/
def random_unit_interval_calls (RAND_MAX : Nat) (rand_r : Nat → Nat × Nat) :
    random_memory → List (Int × Int × random_number_type) → List ℚ × random_memory
  | m, [] => ([], m)
  | m, a :: l =>
    let r := random_unit_interval_call RAND_MAX rand_r m a.1 a.2.1 a.2.2
    let rest := random_unit_interval_calls RAND_MAX rand_r r.2 l
    (r.1 :: rest.1, rest.2)

/-! ## Auxiliary lemmas -/

theorem pair_table_eq_enumeration :
    ∀ sid, sid < 13 → pair_table sid = adjacency_by_enumeration (runner_shift_dir sid) := by
  decide


theorem flatMap_ite_eq_filter_map {α β γ : Type} (S : List α) (P : List β)
    (p : α → β → Prop) [∀ a b, Decidable (p a b)] (g : α → β → γ) :
    (S.flatMap fun a => P.flatMap fun b => if p a b then [g a b] else []) =
      ((List.product S P).filter fun ab => decide (p ab.1 ab.2)).map fun ab => g ab.1 ab.2 := by
  have inner : ∀ (a : α) (Q : List β),
      (Q.flatMap fun b => if p a b then [g a b] else []) =
        (((Q.map (Prod.mk a)).filter fun ab => decide (p ab.1 ab.2)).map
          fun ab => g ab.1 ab.2) := by
    intro a Q
    induction Q with
    | nil => rfl
    | cons b Q ih =>
      rw [List.flatMap_cons, ih, List.map_cons]
      by_cases hp : p a b
      · simp [List.filter_cons, hp]
      · simp [List.filter_cons, hp]
  induction S with
  | nil => rfl
  | cons a S ih =>
    have hp : List.product (a :: S) P = P.map (Prod.mk a) ++ List.product S P := rfl
    rw [List.flatMap_cons, ih, inner, hp, List.filter_append, List.map_append]

theorem tasks_self_mem (ci : cell) (k : Nat) :
    subtask.self k ∈ runner_dosub_self_stars_density_tasks ci ↔
      k < 8 ∧ ci.progeny k ≠ cell.NULL := by
  unfold runner_dosub_self_stars_density_tasks
  simp only [List.mem_flatMap, List.mem_range]
  constructor
  · rintro ⟨k', hk', h⟩
    split_ifs at h with hp
    · simp at h
      subst h
      exact ⟨hk', hp⟩
    · simp at h
  · rintro ⟨h1, h2⟩
    exact ⟨k, h1, by simp [h2]⟩

theorem tasks_pair_mem (ci : cell) (k j : Nat) :
    subtask.pair k j ∈ runner_dosub_self_stars_density_tasks ci ↔
      k < j ∧ j < 8 ∧ ci.progeny k ≠ cell.NULL ∧ ci.progeny j ≠ cell.NULL := by
  unfold runner_dosub_self_stars_density_tasks
  simp only [List.mem_flatMap, List.mem_range]
  constructor
  · rintro ⟨k', hk', h⟩
    split_ifs at h with hp
    · simp [List.mem_range'] at h
      obtain ⟨⟨⟨h1, h2⟩, h3⟩, h4⟩ := h
      subst h4
      refine ⟨by omega, by omega, hp, h3⟩
    · simp at h
  · rintro ⟨h1, h2, h3, h4⟩
    refine ⟨k, by omega, ?_⟩
    simp [h3, List.mem_range', h4]
    exact ⟨j - (k + 1), by omega, by omega⟩

theorem tasks_nodup (ci : cell) : (runner_dosub_self_stars_density_tasks ci).Nodup := by
  unfold runner_dosub_self_stars_density_tasks
  rw [List.nodup_flatMap]
  constructor
  · intro k _
    split_ifs with hp
    · rw [List.nodup_cons]
      constructor
      · simp
      · apply List.Nodup.map
        · intro a b h; injection h
        · exact (List.nodup_range' _ _).filter _
    · exact List.nodup_nil
  · apply (List.nodup_range 8).pairwise_of_forall_ne
    intro a _ b _ hab
    intro t hta htb
    dsimp only at hta htb
    split_ifs at hta htb <;> simp at hta htb
    · rcases hta with rfl | ⟨j, _, rfl⟩ <;> rcases htb with h | ⟨j', _, h⟩ <;> simp_all
theorem doself_eq (e : engine) (c : cell) (h : e.cell_is_active_stars c = true) :
    runner_doself_stars_density e c =
      ((List.product c.sparts c.parts).filter fun sp =>
        decide (r2_shifted no_shift sp.1 sp.2 > 0 ∧
          r2_shifted no_shift sp.1 sp.2 < sp.1.h * sp.1.h * e.kernel_gamma2)).map
        fun sp => iact_of no_shift sp.1 sp.2 := by
  unfold runner_doself_stars_density
  rw [if_neg (by simp [h])]
  refine Eq.trans ?_ (flatMap_ite_eq_filter_map c.sparts c.parts
    (fun si pj => r2_shifted no_shift si pj > 0 ∧
      r2_shifted no_shift si pj < si.h * si.h * e.kernel_gamma2)
    (fun si pj => iact_of no_shift si pj))
  dsimp only
  have hr : ∀ (si : spart) (pj : part),
      (si.x 0 - c.loc 0 - (pj.x 0 - c.loc 0)) * (si.x 0 - c.loc 0 - (pj.x 0 - c.loc 0)) +
        (si.x 1 - c.loc 1 - (pj.x 1 - c.loc 1)) * (si.x 1 - c.loc 1 - (pj.x 1 - c.loc 1)) +
        (si.x 2 - c.loc 2 - (pj.x 2 - c.loc 2)) * (si.x 2 - c.loc 2 - (pj.x 2 - c.loc 2)) =
      r2_shifted no_shift si pj := by
    intro si pj; unfold r2_shifted no_shift; ring
  have hd : ∀ (si : spart) (pj : part),
      (fun k => si.x k - c.loc k - (pj.x k - c.loc k)) =
        fun k => si.x k - pj.x k - no_shift k := by
    intro si pj; funext k; unfold no_shift; ring
  simp only [hr, hd, iact_of]

theorem dosubpair_eq (e : engine) (ci cj : cell)
    (h : e.cell_is_active_stars ci = true ∨ e.cell_is_active_stars cj = true) :
    runner_dosubpair_stars_density e ci cj =
      (brute_force e (runner_dosubpair_stars_density_shift e ci cj) ci.sparts cj.parts).map
        fun sp => iact_of (runner_dosubpair_stars_density_shift e ci cj) sp.1 sp.2 := by
  unfold runner_dosubpair_stars_density brute_force
  rw [if_neg (by rcases h with h | h <;> simp [h])]
  refine Eq.trans ?_ (flatMap_ite_eq_filter_map ci.sparts cj.parts
    (fun si pj => r2_shifted (runner_dosubpair_stars_density_shift e ci cj) si pj <
      si.h * si.h * e.kernel_gamma2)
    (fun si pj => iact_of (runner_dosubpair_stars_density_shift e ci cj) si pj))
  dsimp only
  have hr : ∀ (sh : vec3) (si : spart) (pj : part),
      (si.x 0 - (cj.loc 0 + sh 0) - (pj.x 0 - cj.loc 0)) *
          (si.x 0 - (cj.loc 0 + sh 0) - (pj.x 0 - cj.loc 0)) +
        (si.x 1 - (cj.loc 1 + sh 1) - (pj.x 1 - cj.loc 1)) *
          (si.x 1 - (cj.loc 1 + sh 1) - (pj.x 1 - cj.loc 1)) +
        (si.x 2 - (cj.loc 2 + sh 2) - (pj.x 2 - cj.loc 2)) *
          (si.x 2 - (cj.loc 2 + sh 2) - (pj.x 2 - cj.loc 2)) =
      r2_shifted sh si pj := by
    intro sh si pj; unfold r2_shifted; ring
  have hd : ∀ (sh : vec3) (si : spart) (pj : part),
      (fun k => si.x k - (cj.loc k + sh k) - (pj.x k - cj.loc k)) =
        fun k => si.x k - pj.x k - sh k := by
    intro sh si pj; funext k; ring
  simp only [hr, hd, iact_of]

theorem canonical_sid_stencil :
    ∀ x ∈ ([-1, 0, 1] : List Int), ∀ y ∈ ([-1, 0, 1] : List Int),
      ∀ z ∈ ([-1, 0, 1] : List Int), (x, y, z) ≠ ((0, 0, 0) : Int × Int × Int) →
        (canonical_sid (x, y, z)).1 < 13 ∧
          runner_shift_dir (canonical_sid (x, y, z)).1 =
            (if (canonical_sid (x, y, z)).2 then dir_neg (x, y, z) else (x, y, z)) := by
  decide

theorem canonical_sid_of_dir :
    ∀ i, i < 13 → canonical_sid (runner_shift_dir i) = (i, false) := by
  decide

theorem in_stencil_cases {d : Int × Int × Int} (h : in_stencil d) :
    d.1 ∈ ([-1, 0, 1] : List Int) ∧ d.2.1 ∈ ([-1, 0, 1] : List Int) ∧
      d.2.2 ∈ ([-1, 0, 1] : List Int) := by
  obtain ⟨hb, _⟩ := h
  have h0 := hb 0
  have h1 := hb 1
  have h2 := hb 2
  simp only [dir_comp] at h0 h1 h2
  refine ⟨?_, ?_, ?_⟩ <;> simp only [List.mem_cons, List.mem_singleton, List.not_mem_nil,
    or_false] <;> omega

theorem canonical_sid_in_stencil {d : Int × Int × Int} (h : in_stencil d) :
    (canonical_sid d).1 < 13 ∧
      runner_shift_dir (canonical_sid d).1 = (if (canonical_sid d).2 then dir_neg d else d) := by
  obtain ⟨hx, hy, hz⟩ := in_stencil_cases h
  obtain ⟨x, y, z⟩ := d
  exact canonical_sid_stencil x hx y hy z hz h.2

theorem dir_comp_neg (d : Int × Int × Int) (k : Fin 3) :
    dir_comp (dir_neg d) k = -dir_comp d k := by
  fin_cases k <;> rfl

theorem in_stencil_neg {d : Int × Int × Int} (h : in_stencil d) : in_stencil (dir_neg d) := by
  obtain ⟨hb, hne⟩ := h
  refine ⟨fun k => ?_, ?_⟩
  · rw [dir_comp_neg]; have := hb k; omega
  · intro h0
    apply hne
    obtain ⟨x, y, z⟩ := d
    simp only [dir_neg, Prod.mk.injEq, neg_eq_zero] at h0
    simp [h0.1, h0.2.1, h0.2.2]

theorem delta_sign_mul {d : Int} {w : ℚ} (hd : -1 ≤ d ∧ d ≤ 1) (hw : 0 < w) :
    delta_sign ((d : ℚ) * w) = d := by
  obtain ⟨h1, h2⟩ := hd
  unfold delta_sign
  interval_cases d
  · have : ((-1 : Int) : ℚ) * w < 0 := by push_cast; linarith
    rw [if_pos this]
  · simp
  · have h3 : ¬ ((1 : Int) : ℚ) * w < 0 := by push_cast; linarith
    have h4 : ((1 : Int) : ℚ) * w > 0 := by push_cast; linarith
    rw [if_neg h3, if_pos h4]

theorem shift_neg (e : engine) (ci cj : cell) (k : Fin 3) (hdim : 0 < e.dim k) :
    runner_dosubpair_stars_density_shift e cj ci k =
      -runner_dosubpair_stars_density_shift e ci cj k := by
  unfold runner_dosubpair_stars_density_shift
  split_ifs <;> linarith

theorem neighbours_along_swap {e : engine} {ci cj : cell} {d : Int × Int × Int}
    (h : neighbours_along e ci cj d) : neighbours_along e cj ci (dir_neg d) := by
  intro k
  obtain ⟨hw, hpos, hlt, hoff⟩ := h k
  refine ⟨hw.symm, hw ▸ hpos, hw ▸ hlt, ?_⟩
  rw [shift_neg e ci cj k (lt_trans hpos hlt), dir_comp_neg, ← hw]
  push_cast
  linarith

theorem space_getsid_of_neighbours {e : engine} {ci cj : cell} {d : Int × Int × Int}
    (hd : in_stencil d) (h : neighbours_along e ci cj d) :
    (space_getsid e ci cj).sid = (canonical_sid d).1 ∧
      (space_getsid e ci cj).flip = (canonical_sid d).2 := by
  have key : ∀ k : Fin 3,
      delta_sign (cj.loc k - ci.loc k + runner_dosubpair_stars_density_shift e ci cj k) =
        dir_comp d k := by
    intro k
    obtain ⟨_, hpos, _, hoff⟩ := h k
    rw [hoff]
    exact delta_sign_mul (hd.1 k) hpos
  have hs : (delta_sign (cj.loc 0 - ci.loc 0 + runner_dosubpair_stars_density_shift e ci cj 0),
      delta_sign (cj.loc 1 - ci.loc 1 + runner_dosubpair_stars_density_shift e ci cj 1),
      delta_sign (cj.loc 2 - ci.loc 2 + runner_dosubpair_stars_density_shift e ci cj 2)) = d := by
    rw [key 0, key 1, key 2]
    rfl
  have hg : space_getsid e ci cj =
      ⟨(canonical_sid d).1, (canonical_sid d).2,
        fun k => if (canonical_sid d).2 then -(runner_dosubpair_stars_density_shift e ci cj k)
          else runner_dosubpair_stars_density_shift e ci cj k⟩ := by
    rw [← hs]
    rfl
  rw [hg]
  exact ⟨rfl, rfl⟩

theorem neighbours_canonical {e : engine} {ci cj : cell} (h : neighbours e ci cj) :
    (space_getsid e ci cj).sid < 13 ∧
      neighbours_along e (getsid_ci e ci cj) (getsid_cj e ci cj)
        (runner_shift_dir (space_getsid e ci cj).sid) := by
  obtain ⟨d, hd, hn⟩ := h
  obtain ⟨hsid, hflip⟩ := space_getsid_of_neighbours hd hn
  obtain ⟨hlt, hdir⟩ := canonical_sid_in_stencil hd
  unfold getsid_ci getsid_cj
  rw [hsid, hflip]
  refine ⟨hlt, ?_⟩
  rw [hdir]
  cases hc : (canonical_sid d).2
  · simpa using hn
  · simpa using neighbours_along_swap hn

theorem space_getsid_canonical {e : engine} {ci cj : cell} {i : Nat} (hi : i < 13)
    (h : neighbours_along e ci cj (runner_shift_dir i)) :
    (space_getsid e ci cj).sid = i ∧ (space_getsid e ci cj).flip = false := by
  have hst : in_stencil (runner_shift_dir i) := by
    have : ∀ j, j < 13 → (∀ k : Fin 3, -1 ≤ dir_comp (runner_shift_dir j) k ∧
        dir_comp (runner_shift_dir j) k ≤ 1) ∧ runner_shift_dir j ≠ (0, 0, 0) := by decide
    exact this i hi
  have := space_getsid_of_neighbours hst h
  rw [canonical_sid_of_dir i hi] at this
  exact this

theorem octant_bit_cases (a : Nat) (k : Fin 3) : octant_bit a k = 0 ∨ octant_bit a k = 1 := by
  unfold octant_bit
  fin_cases k <;> simp only [] <;> omega

theorem dir_comp_child_offset (d : Int × Int × Int) (a b : Nat) (k : Fin 3) :
    dir_comp (child_offset d a b) k = 2 * dir_comp d k + octant_bit b k - octant_bit a k := by
  fin_cases k <;> rfl

theorem children_adjacent_iff (d : Int × Int × Int) (a b : Nat) :
    children_adjacent d a b = true ↔
      ∀ k : Fin 3, -1 ≤ 2 * dir_comp d k + octant_bit b k - octant_bit a k ∧
        2 * dir_comp d k + octant_bit b k - octant_bit a k ≤ 1 := by
  unfold children_adjacent
  rw [decide_eq_true_iff]

theorem children_adjacent_swap (d : Int × Int × Int) (a b : Nat) :
    children_adjacent (dir_neg d) b a = true ↔ children_adjacent d a b = true := by
  rw [children_adjacent_iff, children_adjacent_iff]
  constructor <;> intro h k <;> have := h k <;> rw [dir_comp_neg] at * <;> omega

theorem in_stencil_child_offset {d : Int × Int × Int} {a b : Nat} (hd : in_stencil d)
    (hadj : children_adjacent d a b = true) : in_stencil (child_offset d a b) := by
  rw [children_adjacent_iff] at hadj
  refine ⟨fun k => ?_, ?_⟩
  · rw [dir_comp_child_offset]; exact hadj k
  · intro h0
    have hk : ∀ k : Fin 3, dir_comp (child_offset d a b) k = 0 := by
      intro k; rw [h0]; fin_cases k <;> rfl
    apply hd.2
    have e0 := hk 0
    have e1 := hk 1
    have e2 := hk 2
    rw [dir_comp_child_offset] at e0 e1 e2
    have b0 := hd.1 0
    have b1 := hd.1 1
    have b2 := hd.1 2
    have a0 := octant_bit_cases a 0
    have a1 := octant_bit_cases a 1
    have a2 := octant_bit_cases a 2
    have c0 := octant_bit_cases b 0
    have c1 := octant_bit_cases b 1
    have c2 := octant_bit_cases b 2
    obtain ⟨x, y, z⟩ := d
    simp only [dir_comp] at e0 e1 e2 b0 b1 b2
    have hx : x = 0 := by omega
    have hy : y = 0 := by omega
    have hz : z = 0 := by omega
    rw [hx, hy, hz]

/-- Along one axis: the shift of an adjacent child pair is the shift of the
parent pair. -/
theorem axis_child_shift {W w D S δ α β : ℚ}
    (hw : 0 < w) (hW : w < W)
    (hS : S = if D < -W / 2 then W else if D > W / 2 then -W else 0)
    (hD : D + S = δ * w)
    (hδ : δ = -1 ∨ δ = 0 ∨ δ = 1) (hα : α = 0 ∨ α = 1) (hβ : β = 0 ∨ β = 1)
    (hadj : -1 ≤ 2 * δ + β - α ∧ 2 * δ + β - α ≤ 1) :
    (if D + (β - α) * (w / 2) < -W / 2 then W
      else if D + (β - α) * (w / 2) > W / 2 then -W else 0) = S := by
  rcases hδ with rfl | rfl | rfl <;> rcases hα with rfl | rfl <;> rcases hβ with rfl | rfl <;>
    first
      | (exfalso; linarith [hadj.1, hadj.2])
      | (rw [hS] at hD ⊢
         split_ifs at hD ⊢ <;> first | rfl | (exfalso; linarith))

theorem neighbours_along_children {e : engine} {X Y : cell} {d : Int × Int × Int} {a b : Nat}
    (hd : in_stencil d) (hn : neighbours_along e X Y d)
    (ha : X.is_octant a) (hb : Y.is_octant b) (hadj : children_adjacent d a b = true) :
    neighbours_along e (X.progeny a) (Y.progeny b) (child_offset d a b) ∧
      ∀ k, runner_dosubpair_stars_density_shift e (X.progeny a) (Y.progeny b) k =
        runner_dosubpair_stars_density_shift e X Y k := by
  rw [children_adjacent_iff] at hadj
  have hshift : ∀ k, runner_dosubpair_stars_density_shift e (X.progeny a) (Y.progeny b) k =
      runner_dosubpair_stars_density_shift e X Y k := by
    intro k
    obtain ⟨hw, hpos, hlt, hoff⟩ := hn k
    obtain ⟨hla, hwa⟩ := ha k
    obtain ⟨hlb, hwb⟩ := hb k
    have hdk := hd.1 k
    have hδ : (dir_comp d k : ℚ) = -1 ∨ (dir_comp d k : ℚ) = 0 ∨ (dir_comp d k : ℚ) = 1 := by
      have : dir_comp d k = -1 ∨ dir_comp d k = 0 ∨ dir_comp d k = 1 := by omega
      rcases this with h | h | h <;> rw [h] <;> simp
    have hα : (octant_bit a k : ℚ) = 0 ∨ (octant_bit a k : ℚ) = 1 := by
      rcases octant_bit_cases a k with h | h <;> rw [h] <;> simp
    have hβ : (octant_bit b k : ℚ) = 0 ∨ (octant_bit b k : ℚ) = 1 := by
      rcases octant_bit_cases b k with h | h <;> rw [h] <;> simp
    have hadjq : -1 ≤ 2 * (dir_comp d k : ℚ) + (octant_bit b k : ℚ) - (octant_bit a k : ℚ) ∧
        2 * (dir_comp d k : ℚ) + (octant_bit b k : ℚ) - (octant_bit a k : ℚ) ≤ 1 := by
      have := hadj k
      constructor
      · exact_mod_cast this.1
      · exact_mod_cast this.2
    have key := axis_child_shift (W := e.dim k) (w := X.width k) (D := Y.loc k - X.loc k)
      (S := runner_dosubpair_stars_density_shift e X Y k) hpos hlt rfl hoff hδ hα hβ hadjq
    rw [← key]
    have hD : (Y.progeny b).loc k - (X.progeny a).loc k =
        Y.loc k - X.loc k + ((octant_bit b k : ℚ) - (octant_bit a k : ℚ)) * (X.width k / 2) := by
      rw [hla, hlb, ← hw]; ring
    show (if (Y.progeny b).loc k - (X.progeny a).loc k < -(e.dim k) / 2 then e.dim k
      else if (Y.progeny b).loc k - (X.progeny a).loc k > e.dim k / 2 then -(e.dim k)
      else 0) = _
    rw [hD]
  refine ⟨fun k => ?_, hshift⟩
  obtain ⟨hw, hpos, hlt, hoff⟩ := hn k
  obtain ⟨hla, hwa⟩ := ha k
  obtain ⟨hlb, hwb⟩ := hb k
  refine ⟨by rw [hwa, hwb, hw], by rw [hwa]; linarith, by rw [hwa]; linarith, ?_⟩
  rw [hshift k, dir_comp_child_offset, hla, hlb, hwa, ← hw]
  push_cast
  linear_combination hoff

/-- Along one axis: two points in child boxes whose separation is below half
a cell width sit in adjacent children. -/
theorem axis_adjacent_of_close {w L M S δ α β x y : ℚ}
    (hw : 0 < w) (hD : M - L + S = δ * w)
    (hδ : δ = -1 ∨ δ = 0 ∨ δ = 1) (hα : α = 0 ∨ α = 1) (hβ : β = 0 ∨ β = 1)
    (hx : L + α * (w / 2) ≤ x ∧ x ≤ L + α * (w / 2) + w / 2)
    (hy : M + β * (w / 2) ≤ y ∧ y ≤ M + β * (w / 2) + w / 2)
    (hclose : (x - y - S) ^ 2 < (w / 2) ^ 2) :
    -1 ≤ 2 * δ + β - α ∧ 2 * δ + β - α ≤ 1 := by
  have habs := abs_lt_of_sq_lt_sq hclose (by linarith)
  rw [abs_lt] at habs
  obtain ⟨h1, h2⟩ := habs
  obtain ⟨hx1, hx2⟩ := hx
  obtain ⟨hy1, hy2⟩ := hy
  rcases hδ with rfl | rfl | rfl <;> rcases hα with rfl | rfl <;> rcases hβ with rfl | rfl <;>
    first
      | (exfalso; linarith)
      | (constructor <;> norm_num)

theorem sq_le_r2_shifted (sh : vec3) (s : spart) (p : part) (k : Fin 3) :
    (s.x k - p.x k - sh k) ^ 2 ≤ r2_shifted sh s p := by
  unfold r2_shifted
  have hk : k = 0 ∨ k = 1 ∨ k = 2 := by fin_cases k <;> simp
  rcases hk with rfl | rfl | rfl <;>
    nlinarith [sq_nonneg (s.x 0 - p.x 0 - sh 0), sq_nonneg (s.x 1 - p.x 1 - sh 1),
      sq_nonneg (s.x 2 - p.x 2 - sh 2)]

theorem adjacent_of_in_range {e : engine} {X Y : cell} {d : Int × Int × Int} {a b : Nat}
    {s : spart} {p : part}
    (hd : in_stencil d) (hn : neighbours_along e X Y d)
    (ha : X.is_octant a) (hb : Y.is_octant b)
    (hs : ∀ k : Fin 3, (X.progeny a).loc k ≤ s.x k ∧
      s.x k ≤ (X.progeny a).loc k + (X.progeny a).width k)
    (hp : ∀ k : Fin 3, (Y.progeny b).loc k ≤ p.x k ∧
      p.x k ≤ (Y.progeny b).loc k + (Y.progeny b).width k)
    (hrad : ∀ k : Fin 3, s.h * s.h * e.kernel_gamma2 < (X.width k / 2) ^ 2)
    (hr : r2_shifted (runner_dosubpair_stars_density_shift e X Y) s p <
      s.h * s.h * e.kernel_gamma2) :
    children_adjacent d a b = true := by
  rw [children_adjacent_iff]
  intro k
  obtain ⟨hw, hpos, hlt, hoff⟩ := hn k
  obtain ⟨hla, hwa⟩ := ha k
  obtain ⟨hlb, hwb⟩ := hb k
  have hdk := hd.1 k
  have hδ : (dir_comp d k : ℚ) = -1 ∨ (dir_comp d k : ℚ) = 0 ∨ (dir_comp d k : ℚ) = 1 := by
    have : dir_comp d k = -1 ∨ dir_comp d k = 0 ∨ dir_comp d k = 1 := by omega
    rcases this with h | h | h <;> rw [h] <;> simp
  have hα : (octant_bit a k : ℚ) = 0 ∨ (octant_bit a k : ℚ) = 1 := by
    rcases octant_bit_cases a k with h | h <;> rw [h] <;> simp
  have hβ : (octant_bit b k : ℚ) = 0 ∨ (octant_bit b k : ℚ) = 1 := by
    rcases octant_bit_cases b k with h | h <;> rw [h] <;> simp
  have hsk := hs k
  have hpk := hp k
  rw [hla, hwa] at hsk
  rw [hlb, hwb, ← hw] at hpk
  have hclose : (s.x k - p.x k - runner_dosubpair_stars_density_shift e X Y k) ^ 2 <
      (X.width k / 2) ^ 2 :=
    lt_of_le_of_lt (sq_le_r2_shifted _ s p k) (lt_trans hr (hrad k))
  have key := axis_adjacent_of_close hpos hoff hδ hα hβ hsk hpk hclose
  constructor
  · exact_mod_cast key.1
  · exact_mod_cast key.2

theorem seq_of_no_abort (l : List outcome) (h : ∀ o ∈ l, o.err = none) :
    (outcome.seq l).err = none ∧ (outcome.seq l).calls = l.flatMap outcome.calls := by
  induction l with
  | nil => exact ⟨rfl, rfl⟩
  | cons a l ih =>
    have ha := h a (List.mem_cons_self _ _)
    obtain ⟨h1, h2⟩ := ih (fun o ho => h o (List.mem_cons_of_mem _ ho))
    unfold outcome.seq outcome.andThen
    rw [ha]
    exact ⟨h1, by rw [List.flatMap_cons]; exact congrArg _ h2⟩

theorem cell.ne_NULL_of_mem_sparts {c : cell} {s : spart} (h : s ∈ c.sparts) :
    c ≠ cell.NULL := by
  rintro rfl; simp [cell.sparts, cell.data, default] at h

theorem cell.ne_NULL_of_mem_parts {c : cell} {p : part} (h : p ∈ c.parts) :
    c ≠ cell.NULL := by
  rintro rfl; simp [cell.parts, cell.data, default] at h

theorem octree_progeny {e : engine} {c : cell} (h : octree e c) (i : Nat) :
    octree e (c.progeny i) := by
  cases c with
  | NULL => simp [cell.progeny, octree]
  | node d p0 p1 p2 p3 p4 p5 p6 p7 =>
    obtain ⟨_, _, h0, h1, h2, h3, h4, h5, h6, h7⟩ := h
    have h8 : i = 0 ∨ i = 1 ∨ i = 2 ∨ i = 3 ∨ i = 4 ∨ i = 5 ∨ i = 6 ∨ i = 7 ∨
        ∃ m, i = m + 8 := by
      rcases Nat.lt_or_ge i 8 with h | h
      · omega
      · exact Or.inr (Or.inr (Or.inr (Or.inr (Or.inr (Or.inr (Or.inr (Or.inr
          ⟨i - 8, by omega⟩)))))))
    rcases h8 with h | h | h | h | h | h | h | h | ⟨m, h⟩ <;> subst h <;>
      first
        | assumption
        | simp [cell.progeny, octree]

theorem octree_holds {e : engine} {c : cell} (h : octree e c) : c.holds_its_particles := by
  cases c with
  | NULL => constructor <;> intro s hs <;> simp [cell.sparts, cell.parts, cell.data, default] at hs
  | node d p0 p1 p2 p3 p4 p5 p6 p7 => exact h.1

theorem octree_splits {e : engine} {c : cell} (h : octree e c)
    (hc : e.cell_can_recurse_in_pair_stars_task c = true) (hne : c ≠ cell.NULL) :
    c.splits_into_octants e := by
  cases c with
  | NULL => exact absurd rfl hne
  | node d p0 p1 p2 p3 p4 p5 p6 p7 => exact h.2.1 hc

theorem mem_brute_force {e : engine} {sh : vec3} {S : List spart} {P : List part}
    {s : spart} {p : part} :
    (s, p) ∈ brute_force e sh S P ↔
      s ∈ S ∧ p ∈ P ∧ r2_shifted sh s p < s.h * s.h * e.kernel_gamma2 := by
  simp [brute_force, List.mem_filter, and_assoc]

theorem mem_brute_force_pair {e : engine} {ci cj : cell} {s : spart} {p : part} :
    (s, p) ∈ brute_force_pair e ci cj ↔
      (s ∈ ci.sparts ∧ p ∈ cj.parts ∧
        r2_shifted (runner_dosubpair_stars_density_shift e ci cj) s p <
          s.h * s.h * e.kernel_gamma2) ∨
      (s ∈ cj.sparts ∧ p ∈ ci.parts ∧
        r2_shifted (runner_dosubpair_stars_density_shift e cj ci) s p <
          s.h * s.h * e.kernel_gamma2) := by
  unfold brute_force_pair
  rw [List.mem_append, mem_brute_force, mem_brute_force]

theorem dopair_pairs (e : engine) (ci cj : cell)
    (hact : e.cell_is_active_stars ci = true ∨ e.cell_is_active_stars cj = true) :
    (runner_dopair_stars_density e ci cj).map iact.pair = brute_force_pair e ci cj := by
  unfold runner_dopair_stars_density brute_force_pair
  rw [dosubpair_eq e ci cj hact, dosubpair_eq e cj ci hact.symm, List.map_append,
    List.map_map, List.map_map]
  have : ∀ sh : vec3, (iact.pair ∘ fun sp : spart × part => iact_of sh sp.1 sp.2) = id := by
    intro sh; funext sp; rfl
  rw [this, this, List.map_id, List.map_id]

theorem r2_shifted_congr {sh sh' : vec3} (h : ∀ k, sh k = sh' k) (s : spart) (p : part) :
    r2_shifted sh s p = r2_shifted sh' s p := by
  unfold r2_shifted; rw [h 0, h 1, h 2]

theorem in_stencil_dir : ∀ i, i < 13 → in_stencil (runner_shift_dir i) := by
  unfold in_stencil
  decide

theorem pair_table_mem {sid : Nat} (hsid : sid < 13) (a b : Nat) :
    (a, b) ∈ pair_table sid ↔
      a < 8 ∧ b < 8 ∧ children_adjacent (runner_shift_dir sid) a b = true := by
  rw [pair_table_eq_enumeration sid hsid]
  unfold adjacency_by_enumeration
  have hm : (a, b) ∈ (List.range 8).product (List.range 8) ↔
      a ∈ List.range 8 ∧ b ∈ List.range 8 := List.mem_product
  rw [List.mem_filter, hm, List.mem_range, List.mem_range, and_assoc]

theorem mem_tasks {ci cj : cell} {sid : Nat} {ab : Nat × Nat} :
    ab ∈ runner_dosub_pair_stars_density_tasks ci cj sid ↔
      ab ∈ pair_table sid ∧ ci.progeny ab.1 ≠ cell.NULL ∧ cj.progeny ab.2 ≠ cell.NULL := by
  unfold runner_dosub_pair_stars_density_tasks
  rw [List.mem_filter, decide_eq_true_iff]

theorem getsid_cells (e : engine) (ci cj : cell) :
    (getsid_ci e ci cj = ci ∧ getsid_cj e ci cj = cj) ∨
      (getsid_ci e ci cj = cj ∧ getsid_cj e ci cj = ci) := by
  unfold getsid_ci getsid_cj
  cases (space_getsid e ci cj).flip
  · exact Or.inl ⟨rfl, rfl⟩
  · exact Or.inr ⟨rfl, rfl⟩

theorem dosub_pair_recurse_eq (e : engine) (ci cj : cell) (sid : Int)
    (hact : e.cell_is_active_stars ci = true ∨ e.cell_is_active_stars cj = true)
    (hsi : ci.scount ≠ 0) (hsj : cj.scount ≠ 0)
    (hrec : e.cell_can_recurse_in_pair_stars_task ci = true ∧
      e.cell_can_recurse_in_pair_stars_task cj = true) :
    runner_dosub_pair_stars_density e ci cj sid =
      outcome.seq ((runner_dosub_pair_stars_density_tasks (getsid_ci e ci cj)
          (getsid_cj e ci cj) (space_getsid e ci cj).sid).map fun ab =>
        runner_dosub_pair_stars_density e ((getsid_ci e ci cj).progeny ab.1)
          ((getsid_cj e ci cj).progeny ab.2) (-1)) := by
  rw [runner_dosub_pair_stars_density]
  rw [if_neg (by rcases hact with h | h <;> simp [h])]
  rw [dif_neg (by simp [hsi, hsj])]
  have hc : e.cell_can_recurse_in_pair_stars_task (getsid_ci e ci cj) = true ∧
      e.cell_can_recurse_in_pair_stars_task (getsid_cj e ci cj) = true := by
    rcases getsid_cells e ci cj with ⟨h1, h2⟩ | ⟨h1, h2⟩ <;> rw [h1, h2]
    · exact hrec
    · exact hrec.symm
  unfold getsid_ci getsid_cj at *
  dsimp only
  rw [if_pos hc]

theorem dosub_pair_direct_eq (e : engine) (ci cj : cell) (sid : Int)
    (hact : e.cell_is_active_stars ci = true ∨ e.cell_is_active_stars cj = true)
    (hsi : ci.scount ≠ 0) (hsj : cj.scount ≠ 0)
    (hrec : ¬ (e.cell_can_recurse_in_pair_stars_task ci = true ∧
      e.cell_can_recurse_in_pair_stars_task cj = true))
    (hdi : e.cell_are_part_drifted ci = true) (hdj : e.cell_are_part_drifted cj = true)
    (hsorti : ¬ sort_is_stale e ci (space_getsid e ci cj).sid)
    (hsortj : ¬ sort_is_stale e cj (space_getsid e ci cj).sid) :
    runner_dosub_pair_stars_density e ci cj sid =
      runner_dopair_branch_stars_density e (getsid_ci e ci cj) (getsid_cj e ci cj) := by
  rw [runner_dosub_pair_stars_density]
  rw [if_neg (by rcases hact with h | h <;> simp [h])]
  rw [dif_neg (by simp [hsi, hsj])]
  have hc : ¬ (e.cell_can_recurse_in_pair_stars_task (getsid_ci e ci cj) = true ∧
      e.cell_can_recurse_in_pair_stars_task (getsid_cj e ci cj) = true) := by
    rcases getsid_cells e ci cj with ⟨h1, h2⟩ | ⟨h1, h2⟩ <;> rw [h1, h2]
    · exact hrec
    · exact fun h => hrec h.symm
  have ha : e.cell_is_active_stars (getsid_ci e ci cj) = true ∨
      e.cell_is_active_stars (getsid_cj e ci cj) = true := by
    rcases getsid_cells e ci cj with ⟨h1, h2⟩ | ⟨h1, h2⟩ <;> rw [h1, h2]
    · exact hact
    · exact hact.symm
  have hd : ¬ (¬ e.cell_are_part_drifted (getsid_ci e ci cj) = true ∨
      ¬ e.cell_are_part_drifted (getsid_cj e ci cj) = true) := by
    rcases getsid_cells e ci cj with ⟨h1, h2⟩ | ⟨h1, h2⟩ <;> rw [h1, h2] <;> simp [hdi, hdj]
  have hs1 : ¬ sort_is_stale e (getsid_ci e ci cj) (space_getsid e ci cj).sid := by
    rcases getsid_cells e ci cj with ⟨h1, h2⟩ | ⟨h1, h2⟩ <;> rw [h1] <;> assumption
  have hs2 : ¬ sort_is_stale e (getsid_cj e ci cj) (space_getsid e ci cj).sid := by
    rcases getsid_cells e ci cj with ⟨h1, h2⟩ | ⟨h1, h2⟩ <;> rw [h2] <;> assumption
  unfold getsid_ci getsid_cj at *
  dsimp only
  rw [if_neg hc]
  unfold runner_dosub_pair_stars_density_direct
  rw [if_pos ha, if_neg hd, if_neg hs1, if_neg hs2]

theorem dopair_branch_canonical_eq (e : engine) (X Y : cell) (i : Nat) (hi : i < 13)
    (hn : neighbours_along e X Y (runner_shift_dir i))
    (hact : e.cell_is_active_stars X = true ∨ e.cell_is_active_stars Y = true)
    (hdi : e.cell_are_part_drifted X = true) (hdj : e.cell_are_part_drifted Y = true)
    (hsorti : ¬ sort_is_stale e X i) (hsortj : ¬ sort_is_stale e Y i) :
    runner_dopair_branch_stars_density e X Y = outcome.ok (runner_dopair_stars_density e X Y) := by
  obtain ⟨hsid, hflip⟩ := space_getsid_canonical hi hn
  unfold runner_dopair_branch_stars_density
  rw [if_neg (by rcases hact with h | h <;> simp [h])]
  rw [if_neg (by simp [hdi, hdj])]
  dsimp only
  rw [hsid, hflip]
  simp only [Bool.false_eq_true, if_false]
  rw [if_neg hsorti, if_neg hsortj]

theorem mem_brute_force_pair_comm {e : engine} {ci cj : cell} {s : spart} {p : part} :
    (s, p) ∈ brute_force_pair e ci cj ↔ (s, p) ∈ brute_force_pair e cj ci := by
  rw [mem_brute_force_pair, mem_brute_force_pair, or_comm]

theorem mem_brute_force_pair_getsid {e : engine} {ci cj : cell} {s : spart} {p : part} :
    (s, p) ∈ brute_force_pair e (getsid_ci e ci cj) (getsid_cj e ci cj) ↔
      (s, p) ∈ brute_force_pair e ci cj := by
  rcases getsid_cells e ci cj with ⟨h1, h2⟩ | ⟨h1, h2⟩ <;> rw [h1, h2]
  exact mem_brute_force_pair_comm

theorem neighbours_of_swap {e : engine} {ci cj : cell} (h : neighbours e ci cj) :
    neighbours e cj ci := by
  obtain ⟨d, hd, hn⟩ := h
  exact ⟨dir_neg d, in_stencil_neg hd, neighbours_along_swap hn⟩

theorem mem_sparts_of_progeny {e : engine} {c : cell} (h : c.splits_into_octants e)
    (s : spart) : s ∈ c.sparts ↔ ∃ i, i < 8 ∧ s ∈ (c.progeny i).sparts := by
  rw [h.2.2.1, List.mem_flatMap]
  simp only [List.mem_range]

theorem mem_parts_of_progeny {e : engine} {c : cell} (h : c.splits_into_octants e)
    (p : part) : p ∈ c.parts ↔ ∃ i, i < 8 ∧ p ∈ (c.progeny i).parts := by
  rw [h.2.2.2, List.mem_flatMap]
  simp only [List.mem_range]

/-- The brute-force pairs of an adjacent child pair are brute-force pairs of
the parent pair, and every brute-force pair of the parent pair belongs to an
adjacent child pair. -/
theorem brute_force_pair_children {e : engine} {X Y : cell} {i : Nat} (hi : i < 13)
    (hn : neighbours_along e X Y (runner_shift_dir i))
    (hX : octree e X) (hY : octree e Y)
    (sX : X.splits_into_octants e) (sY : Y.splits_into_octants e)
    (s : spart) (p : part) :
    (s, p) ∈ brute_force_pair e X Y ↔
      ∃ ab ∈ runner_dosub_pair_stars_density_tasks X Y i,
        (s, p) ∈ brute_force_pair e (X.progeny ab.1) (Y.progeny ab.2) := by
  have hd := in_stencil_dir i hi
  have hdim : ∀ k, 0 < e.dim k := fun k => lt_trans (hn k).2.1 (hn k).2.2.1
  have hchild : ∀ a b, a < 8 → b < 8 → X.progeny a ≠ cell.NULL → Y.progeny b ≠ cell.NULL →
      children_adjacent (runner_shift_dir i) a b = true →
      (∀ k, runner_dosubpair_stars_density_shift e (X.progeny a) (Y.progeny b) k =
        runner_dosubpair_stars_density_shift e X Y k) ∧
      (∀ k, runner_dosubpair_stars_density_shift e (Y.progeny b) (X.progeny a) k =
        runner_dosubpair_stars_density_shift e Y X k) := by
    intro a b ha hb hna hnb hadj
    have h1 := (neighbours_along_children hd hn (sX.2.1 a ha hna) (sY.2.1 b hb hnb) hadj).2
    refine ⟨h1, fun k => ?_⟩
    rw [shift_neg e (X.progeny a) (Y.progeny b) k (hdim k), h1 k, shift_neg e X Y k (hdim k)]
  constructor
  · intro h
    rw [mem_brute_force_pair] at h
    rcases h with ⟨hs, hp, hr⟩ | ⟨hs, hp, hr⟩
    · obtain ⟨a, ha, hsa⟩ := (mem_sparts_of_progeny sX s).mp hs
      obtain ⟨b, hb, hpb⟩ := (mem_parts_of_progeny sY p).mp hp
      have hna := cell.ne_NULL_of_mem_sparts hsa
      have hnb := cell.ne_NULL_of_mem_parts hpb
      have hadj : children_adjacent (runner_shift_dir i) a b = true :=
        adjacent_of_in_range hd hn (sX.2.1 a ha hna) (sY.2.1 b hb hnb)
          ((octree_holds (octree_progeny hX a)).1 s hsa)
          ((octree_holds (octree_progeny hY b)).2 p hpb) (sX.1 s hs) hr
      refine ⟨(a, b), mem_tasks.mpr ⟨(pair_table_mem hi a b).mpr ⟨ha, hb, hadj⟩, hna, hnb⟩, ?_⟩
      rw [mem_brute_force_pair]
      left
      refine ⟨hsa, hpb, ?_⟩
      rw [r2_shifted_congr (hchild a b ha hb hna hnb hadj).1]
      exact hr
    · obtain ⟨b, hb, hsb⟩ := (mem_sparts_of_progeny sY s).mp hs
      obtain ⟨a, ha, hpa⟩ := (mem_parts_of_progeny sX p).mp hp
      have hnb := cell.ne_NULL_of_mem_sparts hsb
      have hna := cell.ne_NULL_of_mem_parts hpa
      have hadj' : children_adjacent (dir_neg (runner_shift_dir i)) b a = true :=
        adjacent_of_in_range (in_stencil_neg hd) (neighbours_along_swap hn)
          (sY.2.1 b hb hnb) (sX.2.1 a ha hna)
          ((octree_holds (octree_progeny hY b)).1 s hsb)
          ((octree_holds (octree_progeny hX a)).2 p hpa) (sY.1 s hs) hr
      have hadj := (children_adjacent_swap _ a b).mp hadj'
      refine ⟨(a, b), mem_tasks.mpr ⟨(pair_table_mem hi a b).mpr ⟨ha, hb, hadj⟩, hna, hnb⟩, ?_⟩
      rw [mem_brute_force_pair]
      right
      refine ⟨hsb, hpa, ?_⟩
      rw [r2_shifted_congr (hchild a b ha hb hna hnb hadj).2]
      exact hr
  · rintro ⟨⟨a, b⟩, hab, h⟩
    obtain ⟨htab, hna, hnb⟩ := mem_tasks.mp hab
    obtain ⟨ha, hb, hadj⟩ := (pair_table_mem hi a b).mp htab
    have hsh := hchild a b ha hb hna hnb hadj
    rw [mem_brute_force_pair] at h ⊢
    rcases h with ⟨hs, hp, hr⟩ | ⟨hs, hp, hr⟩
    · left
      refine ⟨(mem_sparts_of_progeny sX s).mpr ⟨a, ha, hs⟩,
        (mem_parts_of_progeny sY p).mpr ⟨b, hb, hp⟩, ?_⟩
      rw [← r2_shifted_congr hsh.1]
      exact hr
    · right
      refine ⟨(mem_sparts_of_progeny sY s).mpr ⟨b, hb, hs⟩,
        (mem_parts_of_progeny sX p).mpr ⟨a, ha, hp⟩, ?_⟩
      rw [← r2_shifted_congr hsh.2]
      exact hr

theorem octree_getsid {e : engine} {ci cj : cell} (hi : octree e ci) (hj : octree e cj) :
    octree e (getsid_ci e ci cj) ∧ octree e (getsid_cj e ci cj) := by
  rcases getsid_cells e ci cj with ⟨h1, h2⟩ | ⟨h1, h2⟩ <;> rw [h1, h2]
  · exact ⟨hi, hj⟩
  · exact ⟨hj, hi⟩

/-! ## The example trees -/

theorem fin3_cases (k : Fin 3) : k = 0 ∨ k = 1 ∨ k = 2 := by
  fin_cases k <;> simp

theorem ex_neighbours_along (e : engine) (he : e.dim = fun _ => 8) (L R : cell)
    (hL : L.loc = pt 0 0 0 ∧ L.width = fun _ => 2)
    (hR : R.loc = pt 2 0 0 ∧ R.width = fun _ => 2) :
    neighbours_along e L R (runner_shift_dir 4) := by
  intro k
  rcases fin3_cases k with rfl | rfl | rfl <;>
    norm_num [hL.1, hL.2, hR.1, hR.2, he, pt, runner_dosubpair_stars_density_shift,
      runner_shift_dir, dir_comp]

theorem ex_children_neighbours_along (e : engine) (he : e.dim = fun _ => 8) (L R : cell)
    (hL : L.loc = pt 1 0 0 ∧ L.width = fun _ => 1)
    (hR : R.loc = pt 2 0 0 ∧ R.width = fun _ => 1) :
    neighbours_along e L R (runner_shift_dir 4) := by
  intro k
  rcases fin3_cases k with rfl | rfl | rfl <;>
    norm_num [hL.1, hL.2, hR.1, hR.2, he, pt, runner_dosubpair_stars_density_shift,
      runner_shift_dir, dir_comp]

theorem ex_octree_leaf (e : engine) (he : e.cell_can_recurse_in_pair_stars_task =
      fun c => c.data.split) (loc : vec3) (w : ℚ) (S : List spart) (P : List part)
    (hS : ∀ s ∈ S, ∀ k : Fin 3, loc k ≤ s.x k ∧ s.x k ≤ loc k + w)
    (hP : ∀ p ∈ P, ∀ k : Fin 3, loc k ≤ p.x k ∧ p.x k ≤ loc k + w) :
    octree e (ex_leaf loc w S P) := by
  unfold ex_leaf
  simp only [octree, and_true]
  refine ⟨⟨hS, hP⟩, ?_⟩
  intro h
  rw [he] at h
  simp [cell.data] at h

theorem ex_star_a_in_octant (k : Fin 3) :
    pt 1 0 0 k ≤ ex_star_a.x k ∧ ex_star_a.x k ≤ pt 1 0 0 k + 1 := by
  rcases fin3_cases k with rfl | rfl | rfl <;> norm_num [pt, ex_star_a]

theorem ex_gas_a_in_octant (k : Fin 3) :
    pt 1 0 0 k ≤ ex_gas_a.x k ∧ ex_gas_a.x k ≤ pt 1 0 0 k + 1 := by
  rcases fin3_cases k with rfl | rfl | rfl <;> norm_num [pt, ex_gas_a]

theorem ex_star_b_in_octant (k : Fin 3) :
    pt 2 0 0 k ≤ ex_star_b.x k ∧ ex_star_b.x k ≤ pt 2 0 0 k + 1 := by
  rcases fin3_cases k with rfl | rfl | rfl <;> norm_num [pt, ex_star_b]

theorem ex_gas_b_in_octant (k : Fin 3) :
    pt 2 0 0 k ≤ ex_gas_b.x k ∧ ex_gas_b.x k ≤ pt 2 0 0 k + 1 := by
  rcases fin3_cases k with rfl | rfl | rfl <;> norm_num [pt, ex_gas_b]

theorem ex_star_far_in_octant (k : Fin 3) :
    pt 0 0 0 k ≤ ex_star_far.x k ∧ ex_star_far.x k ≤ pt 0 0 0 k + 1 := by
  rcases fin3_cases k with rfl | rfl | rfl <;> norm_num [pt, ex_star_far]

theorem ex_octree_left (e : engine)
    (hc : e.cell_can_recurse_in_pair_stars_task = fun c => c.data.split)
    (hg : e.kernel_gamma2 = 1) : octree e ex_tree_left := by
  refine ⟨⟨?_, ?_⟩, fun _ => ⟨?_, ?_, ?_, ?_⟩, trivial, trivial, trivial, trivial, ?_,
    trivial, trivial, trivial⟩
  · intro s hs k
    simp [cell.sparts, cell.data] at hs
    subst hs
    rcases fin3_cases k with rfl | rfl | rfl <;>
      norm_num [cell.loc, cell.width, cell.data, pt, ex_star_a]
  · intro p hp k
    simp [cell.parts, cell.data] at hp
    subst hp
    rcases fin3_cases k with rfl | rfl | rfl <;>
      norm_num [cell.loc, cell.width, cell.data, pt, ex_gas_a]
  · intro s hs k
    simp [cell.sparts, cell.data] at hs
    subst hs
    norm_num [cell.width, cell.data, ex_star_a, hg]
  · intro i hi hne k
    interval_cases i <;> first | exact absurd rfl hne | skip
    show pt 1 0 0 k = pt 0 0 0 k + (octant_bit 4 k : ℚ) * ((2 : ℚ) / 2) ∧ (1 : ℚ) = (2 : ℚ) / 2
    rcases fin3_cases k with rfl | rfl | rfl <;> norm_num [pt, octant_bit]
  · rfl
  · rfl
  · refine ex_octree_leaf e hc (pt 1 0 0) 1 [ex_star_a] [ex_gas_a] ?_ ?_
    · intro s hs k
      simp at hs
      subst hs
      exact ex_star_a_in_octant k
    · intro p hp k
      simp at hp
      subst hp
      exact ex_gas_a_in_octant k

theorem ex_octree_right (e : engine)
    (hc : e.cell_can_recurse_in_pair_stars_task = fun c => c.data.split)
    (hg : e.kernel_gamma2 = 1) : octree e ex_tree_right := by
  refine ⟨⟨?_, ?_⟩, fun _ => ⟨?_, ?_, ?_, ?_⟩, ?_, trivial, trivial, trivial, trivial,
    trivial, trivial, trivial⟩
  · intro s hs k
    simp [cell.sparts, cell.data] at hs
    subst hs
    rcases fin3_cases k with rfl | rfl | rfl <;>
      norm_num [cell.loc, cell.width, cell.data, pt, ex_star_b]
  · intro p hp k
    simp [cell.parts, cell.data] at hp
    subst hp
    rcases fin3_cases k with rfl | rfl | rfl <;>
      norm_num [cell.loc, cell.width, cell.data, pt, ex_gas_b]
  · intro s hs k
    simp [cell.sparts, cell.data] at hs
    subst hs
    norm_num [cell.width, cell.data, ex_star_b, hg]
  · intro i hi hne k
    interval_cases i <;> first | exact absurd rfl hne | skip
    show pt 2 0 0 k = pt 2 0 0 k + (octant_bit 0 k : ℚ) * ((2 : ℚ) / 2) ∧ (1 : ℚ) = (2 : ℚ) / 2
    rcases fin3_cases k with rfl | rfl | rfl <;> norm_num [pt, octant_bit]
  · rfl
  · rfl
  · refine ex_octree_leaf e hc (pt 2 0 0) 1 [ex_star_b] [ex_gas_b] ?_ ?_
    · intro s hs k
      simp at hs
      subst hs
      exact ex_star_b_in_octant k
    · intro p hp k
      simp at hp
      subst hp
      exact ex_gas_b_in_octant k

theorem ex_octree_left_two (e : engine)
    (hc : e.cell_can_recurse_in_pair_stars_task = fun c => c.data.split)
    (hg : e.kernel_gamma2 = 1) : octree e ex_tree_left_two := by
  refine ⟨⟨?_, ?_⟩, fun _ => ⟨?_, ?_, ?_, ?_⟩, ?_, trivial, trivial, trivial, ?_,
    trivial, trivial, trivial⟩
  · intro s hs k
    simp [cell.sparts, cell.data] at hs
    rcases hs with rfl | rfl <;> rcases fin3_cases k with rfl | rfl | rfl <;>
      norm_num [cell.loc, cell.width, cell.data, pt, ex_star_a, ex_star_far]
  · intro p hp k
    simp [cell.parts, cell.data] at hp
    subst hp
    rcases fin3_cases k with rfl | rfl | rfl <;>
      norm_num [cell.loc, cell.width, cell.data, pt, ex_gas_a]
  · intro s hs k
    simp [cell.sparts, cell.data] at hs
    rcases hs with rfl | rfl <;>
      norm_num [cell.width, cell.data, ex_star_a, ex_star_far, hg]
  · intro i hi hne k
    interval_cases i <;> first | exact absurd rfl hne | skip
    · show pt 0 0 0 k = pt 0 0 0 k + (octant_bit 0 k : ℚ) * ((2 : ℚ) / 2) ∧
        (1 : ℚ) = (2 : ℚ) / 2
      rcases fin3_cases k with rfl | rfl | rfl <;> norm_num [pt, octant_bit]
    · show pt 1 0 0 k = pt 0 0 0 k + (octant_bit 4 k : ℚ) * ((2 : ℚ) / 2) ∧
        (1 : ℚ) = (2 : ℚ) / 2
      rcases fin3_cases k with rfl | rfl | rfl <;> norm_num [pt, octant_bit]
  · rfl
  · rfl
  · refine ex_octree_leaf e hc (pt 0 0 0) 1 [ex_star_far] [] ?_ ?_
    · intro s hs k
      simp at hs
      subst hs
      exact ex_star_far_in_octant k
    · intro p hp k
      simp at hp
  · refine ex_octree_leaf e hc (pt 1 0 0) 1 [ex_star_a] [ex_gas_a] ?_ ?_
    · intro s hs k
      simp at hs
      subst hs
      exact ex_star_a_in_octant k
    · intro p hp k
      simp at hp
      subst hp
      exact ex_gas_a_in_octant k

theorem ex_not_stale (e : engine) (he : e.space_maxreldx = 1) (c : cell)
    (hc : c.sorted = 8191 ∧ c.dx_max_sort_old = 0 ∧ 0 ≤ c.dmin) :
    ¬ sort_is_stale e c 4 := by
  unfold sort_is_stale
  rw [hc.1, hc.2.1, he]
  rintro (h | h)
  · revert h; decide
  · linarith [hc.2.2]

theorem ex_dispatch_ready : dispatch_ready ex_engine ex_tree_left ex_tree_right := by
  have hg := space_getsid_canonical (i := 4) (by decide)
    (ex_neighbours_along ex_engine rfl ex_tree_left ex_tree_right ⟨rfl, rfl⟩ ⟨rfl, rfl⟩)
  have hi : getsid_ci ex_engine ex_tree_left ex_tree_right = ex_tree_left := by
    unfold getsid_ci; rw [hg.2]; rfl
  have hj : getsid_cj ex_engine ex_tree_left ex_tree_right = ex_tree_right := by
    unfold getsid_cj; rw [hg.2]; rfl
  refine dispatch_ready.recurse _ _ (Or.inl rfl) (by decide) (by decide) ⟨rfl, rfl⟩ ?_
  rw [hi, hj, hg.1]
  intro ab hab
  have htasks : runner_dosub_pair_stars_density_tasks ex_tree_left ex_tree_right 4 =
      [(4, 0)] := by decide
  rw [htasks, List.mem_singleton] at hab
  subst hab
  have hc := space_getsid_canonical (i := 4) (by decide)
    (ex_children_neighbours_along ex_engine rfl (ex_tree_left.progeny 4)
      (ex_tree_right.progeny 0) ⟨rfl, rfl⟩ ⟨rfl, rfl⟩)
  refine dispatch_ready.direct _ _ (Or.inl rfl) (by decide) (by decide) ?_ rfl rfl ?_ ?_
  · rintro ⟨h, _⟩
    revert h
    decide
  · rw [hc.1]
    exact ex_not_stale ex_engine rfl _ ⟨rfl, rfl, by norm_num [cell.dmin, cell.data,
      cell.progeny, ex_tree_left, ex_leaf]⟩
  · rw [hc.1]
    exact ex_not_stale ex_engine rfl _ ⟨rfl, rfl, by norm_num [cell.dmin, cell.data,
      cell.progeny, ex_tree_right, ex_leaf]⟩

/-! ## Lemmas on subset evaluation -/

theorem flatMap_ite_singleton {β γ : Type} (P : List β) (p : β → Prop) [DecidablePred p]
    (g : β → γ) :
    (P.flatMap fun b => if p b then [g b] else []) = (P.filter fun b => decide (p b)).map g := by
  induction P with
  | nil => rfl
  | cons b Q ih =>
    rw [List.flatMap_cons, ih]
    by_cases hp : p b
    · simp [List.filter_cons, hp]
    · simp [List.filter_cons, hp]

theorem doself_subset_eq (e : engine) (ci : cell) (sparts : List spart) (ind : List Nat) :
    runner_doself_subset_stars_density e ci sparts ind =
      ind.flatMap fun i =>
        (ci.parts.filter fun pj =>
          decide (r2_shifted no_shift (spart_at sparts i) pj > 0 ∧
            r2_shifted no_shift (spart_at sparts i) pj <
              (spart_at sparts i).h * (spart_at sparts i).h * e.kernel_gamma2)).map
          (iact_of no_shift (spart_at sparts i)) := by
  unfold runner_doself_subset_stars_density
  congr 1
  funext i
  refine Eq.trans ?_ (flatMap_ite_singleton ci.parts
    (fun pj => r2_shifted no_shift (spart_at sparts i) pj > 0 ∧
      r2_shifted no_shift (spart_at sparts i) pj <
        (spart_at sparts i).h * (spart_at sparts i).h * e.kernel_gamma2)
    (iact_of no_shift (spart_at sparts i)))
  dsimp only
  have hr : ∀ (si : spart) (pj : part),
      (si.x 0 - ci.loc 0 - (pj.x 0 - ci.loc 0)) * (si.x 0 - ci.loc 0 - (pj.x 0 - ci.loc 0)) +
        (si.x 1 - ci.loc 1 - (pj.x 1 - ci.loc 1)) * (si.x 1 - ci.loc 1 - (pj.x 1 - ci.loc 1)) +
        (si.x 2 - ci.loc 2 - (pj.x 2 - ci.loc 2)) * (si.x 2 - ci.loc 2 - (pj.x 2 - ci.loc 2)) =
      r2_shifted no_shift si pj := by
    intro si pj; unfold r2_shifted no_shift; ring
  have hd : ∀ (si : spart) (pj : part),
      (fun k => si.x k - ci.loc k - (pj.x k - ci.loc k)) =
        fun k => si.x k - pj.x k - no_shift k := by
    intro si pj; funext k; unfold no_shift; ring
  simp only [hr, hd, iact_of]

theorem dopair_subset_eq (e : engine) (ci : cell) (sparts : List spart) (ind : List Nat)
    (cj : cell) (shift : vec3) :
    runner_dopair_subset_stars_density e ci sparts ind cj shift =
      ind.flatMap fun i =>
        (cj.parts.filter fun pj =>
          decide (r2_shifted shift (spart_at sparts i) pj <
              (spart_at sparts i).h * (spart_at sparts i).h * e.kernel_gamma2)).map
          (iact_of shift (spart_at sparts i)) := by
  unfold runner_dopair_subset_stars_density
  congr 1
  funext i
  refine Eq.trans ?_ (flatMap_ite_singleton cj.parts
    (fun pj => r2_shifted shift (spart_at sparts i) pj <
        (spart_at sparts i).h * (spart_at sparts i).h * e.kernel_gamma2)
    (iact_of shift (spart_at sparts i)))
  dsimp only
  have hr : ∀ (si : spart) (pj : part),
      0 + (si.x 0 - shift 0 - pj.x 0) * (si.x 0 - shift 0 - pj.x 0) +
        (si.x 1 - shift 1 - pj.x 1) * (si.x 1 - shift 1 - pj.x 1) +
        (si.x 2 - shift 2 - pj.x 2) * (si.x 2 - shift 2 - pj.x 2) =
      r2_shifted shift si pj := by
    intro si pj; unfold r2_shifted; ring
  have hd : ∀ (si : spart) (pj : part),
      (fun k => si.x k - shift k - pj.x k) =
        fun k => si.x k - pj.x k - shift k := by
    intro si pj; funext k; ring
  simp only [hr, hd, iact_of]

/-! ## Lemmas on the subset recursion -/

theorem pair_table_nodup (sid : Nat) : (pair_table sid).Nodup := by
  rcases Nat.lt_or_ge sid 13 with h | h
  · have : ∀ s, s < 13 → (pair_table s).Nodup := by decide
    exact this sid h
  · obtain ⟨m, rfl⟩ : ∃ m, sid = m + 13 := ⟨sid - 13, by omega⟩
    exact List.nodup_nil

theorem subset_table_eq (sid : Nat) : subset_table sid = pair_table sid := by
  rcases Nat.lt_or_ge sid 13 with h | h
  · have : ∀ s, s < 13 → subset_table s = pair_table s := by decide
    exact this sid h
  · obtain ⟨m, rfl⟩ : ∃ m, sid = m + 13 := ⟨sid - 13, by omega⟩
    rfl

theorem pair_table_lt (sid : Nat) (ab : Nat × Nat) (h : ab ∈ pair_table sid) :
    ab.1 < 8 ∧ ab.2 < 8 := by
  rcases Nat.lt_or_ge sid 13 with hs | hs
  · have : ∀ s, s < 13 → ∀ ab ∈ pair_table s, ab.1 < 8 ∧ ab.2 < 8 := by decide
    exact this sid hs ab h
  · obtain ⟨m, rfl⟩ : ∃ m, sid = m + 13 := ⟨sid - 13, by omega⟩
    exact absurd h (List.not_mem_nil _)

theorem subset_tasks_holder_first (ci cj sub : cell) (sid a0 : Nat)
    (hsub : ci.progeny a0 = sub) (hnn : sub ≠ cell.NULL)
    (hown : ∀ a, a < 8 → ci.progeny a = sub → a = a0)
    (hother : ∀ b, b < 8 → cj.progeny b ≠ sub) :
    runner_dosub_subset_stars_density_tasks ci cj sub sid =
      ((runner_dosub_pair_stars_density_tasks ci cj sid).filter
        fun ab => decide (ab.1 = a0)).map fun ab => subset_call.ci_first ab.1 ab.2 := by
  unfold runner_dosub_subset_stars_density_tasks runner_dosub_pair_stars_density_tasks
  rw [subset_table_eq]
  have hl := pair_table_lt sid
  generalize pair_table sid = l at hl
  induction l with
  | nil => rfl
  | cons ab l ih =>
    have hab := hl ab (List.mem_cons_self _ _)
    rw [List.flatMap_cons, ih (fun x hx => hl x (List.mem_cons_of_mem _ hx))]
    have h2 : ¬ (ci.progeny ab.1 ≠ cell.NULL ∧ cj.progeny ab.2 = sub) :=
      fun h => hother ab.2 hab.2 h.2
    rw [if_neg h2, List.append_nil]
    by_cases h1 : ci.progeny ab.1 = sub ∧ cj.progeny ab.2 ≠ cell.NULL
    · have ha : ab.1 = a0 := hown ab.1 hab.1 h1.1
      have hn : ci.progeny ab.1 ≠ cell.NULL := by rw [h1.1]; exact hnn
      rw [if_pos h1]
      simp [List.filter_cons, ha, hn, h1.2, hsub, hnn]
    · rw [if_neg h1]
      by_cases ha : ab.1 = a0
      · have hs : ci.progeny ab.1 = sub := by rw [ha]; exact hsub
        have hc : cj.progeny ab.2 = cell.NULL := by
          by_contra hc; exact h1 ⟨hs, hc⟩
        simp [List.filter_cons, hc]
      · by_cases hn : ci.progeny ab.1 ≠ cell.NULL ∧ cj.progeny ab.2 ≠ cell.NULL
        · simp [List.filter_cons, hn, ha]
        · simp [List.filter_cons, hn]

theorem subset_tasks_holder_second (ci cj sub : cell) (sid b0 : Nat)
    (hsub : cj.progeny b0 = sub) (hnn : sub ≠ cell.NULL)
    (hown : ∀ b, b < 8 → cj.progeny b = sub → b = b0)
    (hother : ∀ a, a < 8 → ci.progeny a ≠ sub) :
    runner_dosub_subset_stars_density_tasks ci cj sub sid =
      ((runner_dosub_pair_stars_density_tasks ci cj sid).filter
        fun ab => decide (ab.2 = b0)).map fun ab => subset_call.cj_first ab.1 ab.2 := by
  unfold runner_dosub_subset_stars_density_tasks runner_dosub_pair_stars_density_tasks
  rw [subset_table_eq]
  have hl := pair_table_lt sid
  generalize pair_table sid = l at hl
  induction l with
  | nil => rfl
  | cons ab l ih =>
    have hab := hl ab (List.mem_cons_self _ _)
    rw [List.flatMap_cons, ih (fun x hx => hl x (List.mem_cons_of_mem _ hx))]
    have h1 : ¬ (ci.progeny ab.1 = sub ∧ cj.progeny ab.2 ≠ cell.NULL) :=
      fun h => hother ab.1 hab.1 h.1
    rw [if_neg h1, List.nil_append]
    by_cases h2 : ci.progeny ab.1 ≠ cell.NULL ∧ cj.progeny ab.2 = sub
    · have hb : ab.2 = b0 := hown ab.2 hab.2 h2.2
      have hn : cj.progeny ab.2 ≠ cell.NULL := by rw [h2.2]; exact hnn
      rw [if_pos h2]
      simp [List.filter_cons, hb, hn, h2.1, hsub, hnn]
    · rw [if_neg h2]
      by_cases hb : ab.2 = b0
      · have hs : cj.progeny ab.2 = sub := by rw [hb]; exact hsub
        have hc : ci.progeny ab.1 = cell.NULL := by
          by_contra hc; exact h2 ⟨hc, hs⟩
        simp [List.filter_cons, hc]
      · by_cases hn : ci.progeny ab.1 ≠ cell.NULL ∧ cj.progeny ab.2 ≠ cell.NULL
        · simp [List.filter_cons, hn, hb]
        · simp [List.filter_cons, hn]

theorem dosub_subset_recurse_eq (e : engine) (ci cj : cell) (sparts : List spart)
    (ind : List Nat) (sid : Int)
    (hci : ci ≠ cell.NULL) (hcj : cj ≠ cell.NULL)
    (hskip : ¬ runner_dosub_subset_stars_density_skip e ci cj)
    (hrec : e.cell_can_recurse_in_pair_stars_task ci = true ∧
      e.cell_can_recurse_in_pair_stars_task cj = true) :
    runner_dosub_subset_stars_density e ci sparts ind cj sid =
      outcome.seq ((runner_dosub_subset_stars_density_tasks (getsid_ci e ci cj)
          (getsid_cj e ci cj) (runner_dosub_subset_stars_density_sub ci sparts ind)
          (space_getsid e ci cj).sid).map fun t =>
        match t with
        | subset_call.ci_first a b =>
          runner_dosub_subset_stars_density e ((getsid_ci e ci cj).progeny a) sparts ind
            ((getsid_cj e ci cj).progeny b) (-1)
        | subset_call.cj_first a b =>
          runner_dosub_subset_stars_density e ((getsid_cj e ci cj).progeny b) sparts ind
            ((getsid_ci e ci cj).progeny a) (-1)) := by
  rw [runner_dosub_subset_stars_density]
  rw [dif_neg hci, if_neg hskip]
  dsimp only
  rw [dif_neg hcj, if_pos hrec]
  rfl

/-! ## Lemmas on the lattice scenario -/

theorem dosubpair_flat (e : engine) (ci cj : cell)
    (h : e.cell_is_active_stars ci = true ∨ e.cell_is_active_stars cj = true) :
    runner_dosubpair_stars_density e ci cj =
      ci.sparts.flatMap fun si =>
        (cj.parts.filter fun pj =>
          decide (r2_shifted (runner_dosubpair_stars_density_shift e ci cj) si pj <
            si.h * si.h * e.kernel_gamma2)).map
          (iact_of (runner_dosubpair_stars_density_shift e ci cj) si) := by
  unfold runner_dosubpair_stars_density
  rw [if_neg (by rcases h with h | h <;> simp [h])]
  dsimp only
  congr 1
  funext si
  refine Eq.trans ?_ (flatMap_ite_singleton cj.parts
    (fun pj => r2_shifted (runner_dosubpair_stars_density_shift e ci cj) si pj <
      si.h * si.h * e.kernel_gamma2)
    (iact_of (runner_dosubpair_stars_density_shift e ci cj) si))
  have hr : ∀ (sh : vec3) (si : spart) (pj : part),
      (si.x 0 - (cj.loc 0 + sh 0) - (pj.x 0 - cj.loc 0)) *
          (si.x 0 - (cj.loc 0 + sh 0) - (pj.x 0 - cj.loc 0)) +
        (si.x 1 - (cj.loc 1 + sh 1) - (pj.x 1 - cj.loc 1)) *
          (si.x 1 - (cj.loc 1 + sh 1) - (pj.x 1 - cj.loc 1)) +
        (si.x 2 - (cj.loc 2 + sh 2) - (pj.x 2 - cj.loc 2)) *
          (si.x 2 - (cj.loc 2 + sh 2) - (pj.x 2 - cj.loc 2)) =
      r2_shifted sh si pj := by
    intro sh si pj; unfold r2_shifted; ring
  have hd : ∀ (sh : vec3) (si : spart) (pj : part),
      (fun k => si.x k - (cj.loc k + sh k) - (pj.x k - cj.loc k)) =
        fun k => si.x k - pj.x k - sh k := by
    intro sh si pj; funext k; ring
  simp only [hr, hd, iact_of]

theorem lattice_shift_zero (e : engine) (hdim : ∀ k, 2 ≤ e.dim k) (o1 o2 : ℚ)
    (ho : -1 ≤ o2 - o1 ∧ o2 - o1 ≤ 1) (b1 b2 : Int) (h : ℚ) :
    runner_dosubpair_stars_density_shift e (lattice_cell o1 b1 h) (lattice_cell o2 b2 h) =
      no_shift := by
  funext k
  have h1 : (lattice_cell o1 b1 h).loc = pt o1 0 0 := rfl
  have h2 : (lattice_cell o2 b2 h).loc = pt o2 0 0 := rfl
  unfold runner_dosubpair_stars_density_shift no_shift
  rw [h1, h2]
  have hk := hdim k
  rcases fin3_cases k with rfl | rfl | rfl
  · have e1 : pt o2 0 0 0 - pt o1 0 0 0 = o2 - o1 := rfl
    rw [e1, if_neg (by linarith), if_neg (by linarith)]
  · have e1 : pt o2 0 0 1 - pt o1 0 0 1 = 0 - 0 := rfl
    rw [e1, if_neg (by linarith), if_neg (by linarith)]
  · have e1 : pt o2 0 0 2 - pt o1 0 0 2 = 0 - 0 := rfl
    rw [e1, if_neg (by linarith), if_neg (by linarith)]

theorem lattice_r2 (o1 o2 : ℚ) (off : Int) (ho : 3 * (o1 - o2) = off) (b1 b2 : Int) (h : ℚ)
    (s t : Nat × Nat × Nat) :
    r2_shifted no_shift (lattice_star o1 b1 h s) (lattice_gas o2 b2 h t) =
      ((((s.1 : Int) - t.1 + off) ^ 2 + ((s.2.1 : Int) - t.2.1) ^ 2 +
        ((s.2.2 : Int) - t.2.2) ^ 2 : Int) : ℚ) / 9 := by
  have hx : ∀ (o : ℚ) (u : Nat × Nat × Nat), lattice_pos o u 0 = o + (2 * (u.1 : ℚ) + 1) / 6 :=
    fun _ _ => rfl
  have hy : ∀ (o : ℚ) (u : Nat × Nat × Nat), lattice_pos o u 1 = (2 * (u.2.1 : ℚ) + 1) / 6 :=
    fun _ _ => rfl
  have hz : ∀ (o : ℚ) (u : Nat × Nat × Nat), lattice_pos o u 2 = (2 * (u.2.2 : ℚ) + 1) / 6 :=
    fun _ _ => rfl
  have hs : ∀ k, (lattice_star o1 b1 h s).x k = lattice_pos o1 s k := fun _ => rfl
  have ht : ∀ k, (lattice_gas o2 b2 h t).x k = lattice_pos o2 t k := fun _ => rfl
  unfold r2_shifted no_shift
  rw [hs, hs, hs, ht, ht, ht, hx, hx, hy, hy, hz, hz]
  have ho' : o1 = o2 + (off : ℚ) / 3 := by linarith
  rw [ho']
  push_cast
  ring

set_option maxRecDepth 100000 in
theorem lattice_in_range_left :
    ∀ s ∈ lattice_sites, ∀ t ∈ lattice_sites,
      decide (4 * (((s.1 : Int) - t.1 + (-3)) ^ 2 + ((s.2.1 : Int) - t.2.1) ^ 2 +
        ((s.2.2 : Int) - t.2.2) ^ 2) < 9) =
      decide (s.1 = 2 ∧ t.1 = 0 ∧ site_dist s.2.1 t.2.1 + site_dist s.2.2 t.2.2 ≤ 1) := by
  decide

set_option maxRecDepth 100000 in
theorem lattice_in_range_right :
    ∀ s ∈ lattice_sites, ∀ t ∈ lattice_sites,
      decide (4 * (((s.1 : Int) - t.1 + 3) ^ 2 + ((s.2.1 : Int) - t.2.1) ^ 2 +
        ((s.2.2 : Int) - t.2.2) ^ 2) < 9) =
      decide (s.1 = 0 ∧ t.1 = 2 ∧ site_dist s.2.1 t.2.1 + site_dist s.2.2 t.2.2 ≤ 1) := by
  decide

set_option maxRecDepth 100000 in
theorem cross_neighbours_length :
    (∀ s ∈ lattice_sites, (cross_neighbours 2 0 s).length = cross_neighbour_count 2 s) ∧
      (∀ s ∈ lattice_sites, (cross_neighbours 0 2 s).length = cross_neighbour_count 0 s) := by
  decide

set_option maxRecDepth 100000 in
theorem cross_neighbours_total :
    (lattice_sites.map (List.length ∘ fun s => cross_neighbours 2 0 s)).sum = 33 ∧
      (lattice_sites.map (List.length ∘ fun s => cross_neighbours 0 2 s)).sum = 33 := by
  decide

set_option maxRecDepth 100000 in
theorem lattice_id_injective :
    ∀ s ∈ lattice_sites, ∀ t ∈ lattice_sites, lattice_id s = lattice_id t → s = t := by
  decide

set_option maxRecDepth 100000 in
theorem lattice_id_range : ∀ s ∈ lattice_sites, 0 ≤ lattice_id s ∧ lattice_id s < 27 := by
  decide

theorem lattice_sites_nodup : lattice_sites.Nodup := by decide

theorem filter_flatMap_single {σ β : Type} (l : List σ) (F : σ → List β) (p : β → Bool)
    (s0 : σ) (hnd : l.Nodup) (hs0 : s0 ∈ l) (hin : ∀ c ∈ F s0, p c = true)
    (hout : ∀ s ∈ l, s ≠ s0 → ∀ c ∈ F s, p c = false) :
    (l.flatMap F).filter p = F s0 := by
  induction l with
  | nil => exact absurd hs0 (List.not_mem_nil _)
  | cons a l ih =>
    rw [List.flatMap_cons, List.filter_append]
    rw [List.nodup_cons] at hnd
    by_cases ha : a = s0
    · subst ha
      have h1 : (F a).filter p = F a := List.filter_eq_self.mpr hin
      have h2 : (l.flatMap F).filter p = [] := by
        rw [List.filter_eq_nil_iff]
        intro c hc
        obtain ⟨s, hs, hcs⟩ := List.mem_flatMap.mp hc
        have hne : s ≠ a := fun h => hnd.1 (h ▸ hs)
        rw [hout s (List.mem_cons_of_mem _ hs) hne c hcs]
        simp
      rw [h1, h2, List.append_nil]
    · have h1 : (F a).filter p = [] := by
        rw [List.filter_eq_nil_iff]
        intro c hc
        rw [hout a (List.mem_cons_self _ _) ha c hc]
        simp
      have hs0' : s0 ∈ l := by
        rcases List.mem_cons.mp hs0 with h | h
        · exact absurd h.symm ha
        · exact h
      rw [h1, List.nil_append]
      exact ih hnd.2 hs0' (fun s hs => hout s (List.mem_cons_of_mem _ hs))

theorem lattice_dosubpair (e : engine) (h : ℚ) (hdim : ∀ k, 2 ≤ e.dim k)
    (hg2 : e.kernel_gamma2 = e.kernel_gamma ^ 2) (hh : h * e.kernel_gamma = 3 / 2 * (1 / 3))
    (o1 o2 : ℚ) (off : Int) (ho : 3 * (o1 - o2) = off)
    (ho' : -1 ≤ o2 - o1 ∧ o2 - o1 ≤ 1) (b1 b2 : Int) (near far : Nat)
    (hact : e.cell_is_active_stars (lattice_cell o1 b1 h) = true ∨
      e.cell_is_active_stars (lattice_cell o2 b2 h) = true)
    (hrange : ∀ s ∈ lattice_sites, ∀ t ∈ lattice_sites,
      decide (4 * (((s.1 : Int) - t.1 + off) ^ 2 + ((s.2.1 : Int) - t.2.1) ^ 2 +
        ((s.2.2 : Int) - t.2.2) ^ 2) < 9) =
      decide (s.1 = near ∧ t.1 = far ∧ site_dist s.2.1 t.2.1 + site_dist s.2.2 t.2.2 ≤ 1)) :
    runner_dosubpair_stars_density e (lattice_cell o1 b1 h) (lattice_cell o2 b2 h) =
      lattice_sites.flatMap fun s =>
        (cross_neighbours near far s).map fun t =>
          iact_of no_shift (lattice_star o1 b1 h s) (lattice_gas o2 (b2 + 27) h t) := by
  rw [dosubpair_flat e _ _ hact, lattice_shift_zero e hdim o1 o2 ho' b1 b2 h]
  have hs : (lattice_cell o1 b1 h).sparts = lattice_sites.map (lattice_star o1 b1 h) := rfl
  have hp : (lattice_cell o2 b2 h).parts = lattice_sites.map (lattice_gas o2 (b2 + 27) h) := rfl
  rw [hs, hp, List.flatMap_map]
  apply List.flatMap_congr
  intro s hs
  rw [List.filter_map, List.map_map]
  unfold cross_neighbours
  congr 1
  apply List.filter_congr
  intro t ht
  have hsh : (lattice_star o1 b1 h s).h = h := rfl
  show decide (r2_shifted no_shift (lattice_star o1 b1 h s) (lattice_gas o2 (b2 + 27) h t) <
    (lattice_star o1 b1 h s).h * (lattice_star o1 b1 h s).h * e.kernel_gamma2) = _
  rw [← hrange s hs t ht, lattice_r2 o1 o2 off ho b1 (b2 + 27) h s t, hsh, hg2]
  have hq : h * h * e.kernel_gamma ^ 2 = 1 / 4 := by
    have : h * h * e.kernel_gamma ^ 2 = (h * e.kernel_gamma) ^ 2 := by ring
    rw [this, hh]; norm_num
  rw [hq, decide_eq_decide]
  constructor
  · intro hlt
    have : (((4 * (((s.1 : Int) - t.1 + off) ^ 2 + ((s.2.1 : Int) - t.2.1) ^ 2 +
        ((s.2.2 : Int) - t.2.2) ^ 2) : Int)) : ℚ) < ((9 : Int) : ℚ) := by
      push_cast
      push_cast at hlt
      linarith
    exact Int.cast_lt.mp this
  · intro hlt
    have : (((4 * (((s.1 : Int) - t.1 + off) ^ 2 + ((s.2.1 : Int) - t.2.1) ^ 2 +
        ((s.2.2 : Int) - t.2.2) ^ 2) : Int)) : ℚ) < ((9 : Int) : ℚ) := Int.cast_lt.mpr hlt
    push_cast at this
    push_cast
    linarith

theorem lattice_star_injective (o : ℚ) (b : Int) (h : ℚ) (s t : Nat × Nat × Nat)
    (hs : s ∈ lattice_sites) (ht : t ∈ lattice_sites)
    (heq : lattice_star o b h s = lattice_star o b h t) : s = t := by
  have h1 : b + lattice_id s = b + lattice_id t := congrArg spart.id heq
  exact lattice_id_injective s hs t ht (by omega)

theorem lattice_star_other_cell (o1 o2 : ℚ) (b1 b2 : Int) (h : ℚ) (s t : Nat × Nat × Nat)
    (hb : b1 + 27 ≤ b2 ∨ b2 + 27 ≤ b1)
    (hs : s ∈ lattice_sites) (ht : t ∈ lattice_sites) :
    lattice_star o1 b1 h s ≠ lattice_star o2 b2 h t := by
  intro heq
  have h1 : b1 + lattice_id s = b2 + lattice_id t := congrArg spart.id heq
  have h2 := lattice_id_range s hs
  have h3 := lattice_id_range t ht
  omega

theorem lattice_calls_length (near far : Nat) (g : Nat × Nat × Nat → Nat × Nat × Nat → iact) :
    (lattice_sites.flatMap fun s => (cross_neighbours near far s).map (g s)).length =
      (lattice_sites.map (List.length ∘ fun s => cross_neighbours near far s)).sum := by
  rw [List.length_flatMap]
  congr 2
  funext s
  simp

theorem lattice_calls_of_star (o : ℚ) (b : Int) (h : ℚ) (near far : Nat)
    (g : Nat × Nat × Nat → part) (s0 : Nat × Nat × Nat) (hs0 : s0 ∈ lattice_sites) :
    ((lattice_sites.flatMap fun s => (cross_neighbours near far s).map fun t =>
        iact_of no_shift (lattice_star o b h s) (g t)).filter
      fun c => decide (c.si = lattice_star o b h s0)) =
      (cross_neighbours near far s0).map fun t =>
        iact_of no_shift (lattice_star o b h s0) (g t) := by
  refine filter_flatMap_single lattice_sites _ _ s0 lattice_sites_nodup hs0 ?_ ?_
  · intro c hc
    obtain ⟨t, _, rfl⟩ := List.mem_map.mp hc
    exact decide_eq_true rfl
  · intro s hs hne c hc
    obtain ⟨t, _, rfl⟩ := List.mem_map.mp hc
    exact decide_eq_false fun heq => hne (lattice_star_injective o b h s s0 hs hs0 heq)

theorem lattice_calls_not_of_star (o : ℚ) (b : Int) (h : ℚ) (near far : Nat)
    (g : Nat × Nat × Nat → part) (p : spart → Prop) [DecidablePred p]
    (hp : ∀ s ∈ lattice_sites, ¬ p (lattice_star o b h s)) :
    ((lattice_sites.flatMap fun s => (cross_neighbours near far s).map fun t =>
        iact_of no_shift (lattice_star o b h s) (g t)).filter
      fun c => decide (p c.si)) = [] := by
  rw [List.filter_eq_nil_iff]
  intro c hc
  obtain ⟨s, hs, hcs⟩ := List.mem_flatMap.mp hc
  obtain ⟨t, _, rfl⟩ := List.mem_map.mp hcs
  simpa using hp s hs

theorem lattice_calls_all_of_star (o : ℚ) (b : Int) (h : ℚ) (near far : Nat)
    (g : Nat × Nat × Nat → part) (p : spart → Prop) [DecidablePred p]
    (hp : ∀ s ∈ lattice_sites, p (lattice_star o b h s)) :
    ((lattice_sites.flatMap fun s => (cross_neighbours near far s).map fun t =>
        iact_of no_shift (lattice_star o b h s) (g t)).filter
      fun c => decide (p c.si)) =
      lattice_sites.flatMap fun s => (cross_neighbours near far s).map fun t =>
        iact_of no_shift (lattice_star o b h s) (g t) := by
  rw [List.filter_eq_self]
  intro c hc
  obtain ⟨s, hs, hcs⟩ := List.mem_flatMap.mp hc
  obtain ⟨t, _, rfl⟩ := List.mem_map.mp hcs
  simpa using hp s hs

/-! ## Lemmas on the random seed -/

theorem tmod_of_nonneg (x : Int) (h : 0 ≤ x) : Int.tmod x 131071 = x % 131071 :=
  Int.tmod_eq_emod h (by decide)

theorem tmod_of_neg (x : Int) (h : x < 0) : Int.tmod x 131071 = -((-x) % 131071) := by
  have h1 : Int.tmod (-x) 131071 = (-x) % 131071 := Int.tmod_eq_emod (by omega) (by decide)
  have h2 : Int.tmod x 131071 = -Int.tmod (-x) 131071 := by
    rw [Int.tmod_def, Int.tmod_def, Int.neg_tdiv]
    ring
  rw [h2, h1]

theorem seed_of_sum_ne (x y : Int) (hxy : x < y) (hy : y ≤ x + 3) :
    ((Int.tmod x 131071) % 4294967296).toNat ≠ ((Int.tmod y 131071) % 4294967296).toNat := by
  rcases lt_or_le x 0 with hx | hx <;> rcases lt_or_le y 0 with hy0 | hy0
  · rw [tmod_of_neg x hx, tmod_of_neg y hy0]; omega
  · rw [tmod_of_neg x hx, tmod_of_nonneg y hy0]; omega
  · omega
  · rw [tmod_of_nonneg x hx, tmod_of_nonneg y hy0]; omega

theorem wrap_long_long_of_range (n : Int) (h1 : -9223372036854775808 ≤ n)
    (h2 : n < 9223372036854775808) : wrap_long_long n = n := by
  unfold wrap_long_long
  norm_num
  omega

theorem random_seed_of_range (id ti : Int) (type : random_number_type)
    (h1 : -9223372036854775808 ≤ id + ti + type.val)
    (h2 : id + ti + type.val < 9223372036854775808) :
    random_seed id ti type =
      ((Int.tmod (id + ti + type.val) 131071) % 4294967296).toNat := by
  unfold random_seed seed_range
  rw [wrap_long_long_of_range _ h1 h2]
  norm_num

/-! ## Lemmas on the full index list -/

theorem map_spart_at_range (l : List spart) :
    (List.range l.length).map (spart_at l) = l := by
  apply List.ext_getElem
  · simp
  · intro i h1 h2
    simp [spart_at, List.getElem?_eq_getElem h2]

theorem flatMap_range_spart_at {β : Type} (l : List spart) (F : spart → List β) :
    ((List.range l.length).flatMap fun i => F (spart_at l i)) = l.flatMap F := by
  have h := List.flatMap_map (spart_at l) F (List.range l.length)
  rw [map_spart_at_range] at h
  exact h.symm

theorem doself_flat (e : engine) (c : cell) (h : e.cell_is_active_stars c = true) :
    runner_doself_stars_density e c =
      c.sparts.flatMap fun si =>
        (c.parts.filter fun pj =>
          decide (r2_shifted no_shift si pj > 0 ∧
            r2_shifted no_shift si pj < si.h * si.h * e.kernel_gamma2)).map
          (iact_of no_shift si) := by
  unfold runner_doself_stars_density
  rw [if_neg (by simp [h])]
  dsimp only
  congr 1
  funext si
  refine Eq.trans ?_ (flatMap_ite_singleton c.parts
    (fun pj => r2_shifted no_shift si pj > 0 ∧
      r2_shifted no_shift si pj < si.h * si.h * e.kernel_gamma2)
    (iact_of no_shift si))
  have hr : ∀ (si : spart) (pj : part),
      (si.x 0 - c.loc 0 - (pj.x 0 - c.loc 0)) * (si.x 0 - c.loc 0 - (pj.x 0 - c.loc 0)) +
        (si.x 1 - c.loc 1 - (pj.x 1 - c.loc 1)) * (si.x 1 - c.loc 1 - (pj.x 1 - c.loc 1)) +
        (si.x 2 - c.loc 2 - (pj.x 2 - c.loc 2)) * (si.x 2 - c.loc 2 - (pj.x 2 - c.loc 2)) =
      r2_shifted no_shift si pj := by
    intro si pj; unfold r2_shifted no_shift; ring
  have hd : ∀ (si : spart) (pj : part),
      (fun k => si.x k - c.loc k - (pj.x k - c.loc k)) =
        fun k => si.x k - pj.x k - no_shift k := by
    intro si pj; funext k; unfold no_shift; ring
  simp only [hr, hd, iact_of]

/-! ## Lemmas on the progeny search -/

theorem subset_sub_spec (ci : cell) (sparts : List spart) (ind : List Nat)
    (hsplit : ci.data.split = true)
    (hex : ∃ a, a < 8 ∧ ci.progeny a ≠ cell.NULL ∧
      spart_at sparts (ind.headD 0) ∈ (ci.progeny a).sparts) :
    ∃ k, k < 8 ∧ runner_dosub_subset_stars_density_sub ci sparts ind = ci.progeny k ∧
      ci.progeny k ≠ cell.NULL ∧ spart_at sparts (ind.headD 0) ∈ (ci.progeny k).sparts := by
  unfold runner_dosub_subset_stars_density_sub
  rw [if_pos hsplit]
  split
  · next k hk =>
    have hp := List.find?_some hk
    have hm := List.mem_of_find?_eq_some hk
    simp only [decide_eq_true_eq] at hp
    exact ⟨k, List.mem_range.mp hm, rfl, hp.1, hp.2⟩
  · next hk =>
    exfalso
    rw [List.find?_eq_none] at hk
    obtain ⟨a, ha, h1, h2⟩ := hex
    exact hk a (List.mem_range.mpr ha) (by simp only [decide_eq_true_eq]; exact ⟨h1, h2⟩)

theorem dosub_subset_self_recurse_eq (e : engine) (ci : cell) (sparts : List spart)
    (ind : List Nat) (sid : Int) (hci : ci ≠ cell.NULL)
    (hskip : ¬ runner_dosub_subset_stars_density_skip e ci cell.NULL)
    (hrec : e.cell_can_recurse_in_self_stars_task ci = true) :
    runner_dosub_subset_stars_density e ci sparts ind cell.NULL sid =
      outcome.seq
        (runner_dosub_subset_stars_density e
            (runner_dosub_subset_stars_density_sub ci sparts ind) sparts ind cell.NULL (-1) ::
          (runner_dosub_subset_stars_density_self_tasks ci
            (runner_dosub_subset_stars_density_sub ci sparts ind)).map fun j =>
            runner_dosub_subset_stars_density e
              (runner_dosub_subset_stars_density_sub ci sparts ind) sparts ind
              (ci.progeny j) (-1)) := by
  rw [runner_dosub_subset_stars_density]
  rw [dif_neg hci, if_neg hskip]
  dsimp only
  rw [dif_pos rfl, if_pos hrec]

theorem mem_subset_tasks (ci cj sub : cell) (sid : Nat) (t : subset_call)
    (ht : t ∈ runner_dosub_subset_stars_density_tasks ci cj sub sid) :
    match t with
    | subset_call.ci_first a b => ci.progeny a = sub ∧ cj.progeny b ≠ cell.NULL
    | subset_call.cj_first a b => ci.progeny a ≠ cell.NULL ∧ cj.progeny b = sub := by
  unfold runner_dosub_subset_stars_density_tasks at ht
  obtain ⟨ab, _, hab⟩ := List.mem_flatMap.mp ht
  rcases List.mem_append.mp hab with h | h
  · split_ifs at h with hg
    · rw [List.mem_singleton] at h
      subst h
      exact hg
    · exact absurd h (List.not_mem_nil _)
  · split_ifs at h with hg
    · rw [List.mem_singleton] at h
      subst h
      exact hg
    · exact absurd h (List.not_mem_nil _)

theorem self_tasks_eq (ci : cell) (a0 : Nat)
    (hown : ∀ a, a < 8 → ci.progeny a = ci.progeny a0 → a = a0) :
    runner_dosub_subset_stars_density_self_tasks ci (ci.progeny a0) =
      (List.range 8).filter fun j => decide (j ≠ a0 ∧ ci.progeny j ≠ cell.NULL) := by
  unfold runner_dosub_subset_stars_density_self_tasks
  apply List.filter_congr
  intro j hj
  have hj8 := List.mem_range.mp hj
  have : ci.progeny j ≠ ci.progeny a0 ↔ j ≠ a0 :=
    ⟨fun h heq => h (heq ▸ rfl), fun h heq => h (hown j hj8 heq)⟩
  simp only [this]

/-! ## Lemmas on the calls of the two loops -/

theorem r2_shifted_nonneg (sh : vec3) (s : spart) (p : part) : 0 ≤ r2_shifted sh s p := by
  unfold r2_shifted
  positivity

theorem r2_shifted_same_position (sh : vec3) (s s' : spart) (p : part) (h : s.x = s'.x) :
    r2_shifted sh s p = r2_shifted sh s' p := by
  unfold r2_shifted
  rw [h]

theorem doself_of_mem (e : engine) (c : cell) (call : iact)
    (h : call ∈ runner_doself_stars_density e c) :
    ∃ s ∈ c.sparts, ∃ p ∈ c.parts,
      (0 < r2_shifted no_shift s p ∧ r2_shifted no_shift s p < s.h * s.h * e.kernel_gamma2) ∧
      call = iact_of no_shift s p := by
  by_cases hact : e.cell_is_active_stars c = true
  · rw [doself_flat e c hact, List.mem_flatMap] at h
    obtain ⟨s, hs, h⟩ := h
    obtain ⟨p, hp, rfl⟩ := List.mem_map.mp h
    have hp' := List.mem_filter.mp hp
    exact ⟨s, hs, p, hp'.1, by simpa using hp'.2, rfl⟩
  · unfold runner_doself_stars_density at h
    rw [if_pos hact] at h
    exact absurd h (List.not_mem_nil _)

theorem doself_mem_of (e : engine) (c : cell) (hact : e.cell_is_active_stars c = true)
    (s : spart) (hs : s ∈ c.sparts) (p : part) (hp : p ∈ c.parts)
    (h : 0 < r2_shifted no_shift s p ∧ r2_shifted no_shift s p < s.h * s.h * e.kernel_gamma2) :
    iact_of no_shift s p ∈ runner_doself_stars_density e c := by
  rw [doself_flat e c hact, List.mem_flatMap]
  exact ⟨s, hs, List.mem_map.mpr ⟨p, List.mem_filter.mpr ⟨hp, by simpa using h⟩, rfl⟩⟩

theorem dosubpair_of_mem (e : engine) (ci cj : cell) (call : iact)
    (h : call ∈ runner_dosubpair_stars_density e ci cj) :
    ∃ s ∈ ci.sparts, ∃ p ∈ cj.parts,
      r2_shifted (runner_dosubpair_stars_density_shift e ci cj) s p <
        s.h * s.h * e.kernel_gamma2 ∧
      call = iact_of (runner_dosubpair_stars_density_shift e ci cj) s p := by
  by_cases hact : e.cell_is_active_stars ci = true ∨ e.cell_is_active_stars cj = true
  · rw [dosubpair_flat e ci cj hact, List.mem_flatMap] at h
    obtain ⟨s, hs, h⟩ := h
    obtain ⟨p, hp, rfl⟩ := List.mem_map.mp h
    have hp' := List.mem_filter.mp hp
    exact ⟨s, hs, p, hp'.1, by simpa using hp'.2, rfl⟩
  · unfold runner_dosubpair_stars_density at h
    rw [if_pos (not_or.mp hact)] at h
    exact absurd h (List.not_mem_nil _)

theorem dosubpair_mem_of (e : engine) (ci cj : cell)
    (hact : e.cell_is_active_stars ci = true ∨ e.cell_is_active_stars cj = true)
    (s : spart) (hs : s ∈ ci.sparts) (p : part) (hp : p ∈ cj.parts)
    (h : r2_shifted (runner_dosubpair_stars_density_shift e ci cj) s p <
      s.h * s.h * e.kernel_gamma2) :
    iact_of (runner_dosubpair_stars_density_shift e ci cj) s p ∈
      runner_dosubpair_stars_density e ci cj := by
  rw [dosubpair_flat e ci cj hact, List.mem_flatMap]
  exact ⟨s, hs, List.mem_map.mpr ⟨p, List.mem_filter.mpr ⟨hp, by simpa using h⟩, rfl⟩⟩

theorem shift_of_same_loc (e : engine) (ci ci' cj : cell) (h : ci.loc = ci'.loc) :
    runner_dosubpair_stars_density_shift e ci cj =
      runner_dosubpair_stars_density_shift e ci' cj := by
  unfold runner_dosubpair_stars_density_shift
  rw [h]

theorem radius_mono (e : engine) (hg : 0 ≤ e.kernel_gamma2) (h1 h2 : ℚ) (h0 : 0 ≤ h1)
    (h12 : h1 ≤ h2) : h1 * h1 * e.kernel_gamma2 ≤ h2 * h2 * e.kernel_gamma2 :=
  mul_le_mul_of_nonneg_right (mul_self_le_mul_self h0 h12) hg

/-! ## Lemmas on the depth of the recursion -/

theorem cell.depth_progeny_lt (c : cell) (k : Nat) (hc : c ≠ cell.NULL) :
    (c.progeny k).depth < c.depth := by
  cases c with
  | NULL => exact absurd rfl hc
  | node d p0 p1 p2 p3 p4 p5 p6 p7 =>
    have hd : (cell.node d p0 p1 p2 p3 p4 p5 p6 p7).depth =
        1 + max (max (max p0.depth p1.depth) (max p2.depth p3.depth))
          (max (max p4.depth p5.depth) (max p6.depth p7.depth)) := rfl
    rw [hd]
    have h8 : k = 0 ∨ k = 1 ∨ k = 2 ∨ k = 3 ∨ k = 4 ∨ k = 5 ∨ k = 6 ∨ k = 7 ∨
        ∃ m, k = m + 8 := by
      rcases Nat.lt_or_ge k 8 with h | h
      · omega
      · exact Or.inr (Or.inr (Or.inr (Or.inr (Or.inr (Or.inr (Or.inr (Or.inr
          ⟨k - 8, by omega⟩)))))))
    have hlt : ∀ n M : Nat, n ≤ M → n < 1 + M := fun n M h =>
      Nat.lt_of_le_of_lt h (Nat.lt_add_of_pos_left Nat.one_pos)
    rcases h8 with h | h | h | h | h | h | h | h | ⟨m, h⟩ <;> subst h
    · exact hlt _ _ (le_trans (le_trans (le_max_left _ _) (le_max_left _ _))
        (le_max_left _ _))
    · exact hlt _ _ (le_trans (le_trans (le_max_right _ _) (le_max_left _ _))
        (le_max_left _ _))
    · exact hlt _ _ (le_trans (le_trans (le_max_left _ _) (le_max_right _ _))
        (le_max_left _ _))
    · exact hlt _ _ (le_trans (le_trans (le_max_right _ _) (le_max_right _ _))
        (le_max_left _ _))
    · exact hlt _ _ (le_trans (le_trans (le_max_left _ _) (le_max_left _ _))
        (le_max_right _ _))
    · exact hlt _ _ (le_trans (le_trans (le_max_right _ _) (le_max_left _ _))
        (le_max_right _ _))
    · exact hlt _ _ (le_trans (le_trans (le_max_left _ _) (le_max_right _ _))
        (le_max_right _ _))
    · exact hlt _ _ (le_trans (le_trans (le_max_right _ _) (le_max_right _ _))
        (le_max_right _ _))
    · exact hlt _ _ (Nat.zero_le _)

theorem cell.depth_pos (c : cell) (hc : c ≠ cell.NULL) : 0 < c.depth :=
  lt_of_le_of_lt (Nat.zero_le _) (cell.depth_progeny_lt c 0 hc)

theorem cell.ne_NULL_of_scount (c : cell) (h : c.scount ≠ 0) : c ≠ cell.NULL := by
  intro hc
  rw [hc] at h
  exact h rfl

theorem subset_sub_cases (ci : cell) (sparts : List spart) (ind : List Nat) :
    runner_dosub_subset_stars_density_sub ci sparts ind = cell.NULL ∨
      ∃ k, runner_dosub_subset_stars_density_sub ci sparts ind = ci.progeny k := by
  unfold runner_dosub_subset_stars_density_sub
  split
  · split
    · next k _ => exact Or.inr ⟨k, rfl⟩
    · exact Or.inl rfl
  · exact Or.inl rfl

theorem subset_sub_depth_lt (ci : cell) (sparts : List spart) (ind : List Nat)
    (hc : ci ≠ cell.NULL) :
    (runner_dosub_subset_stars_density_sub ci sparts ind).depth < ci.depth := by
  rcases subset_sub_cases ci sparts ind with h | ⟨k, h⟩ <;> rw [h]
  · exact cell.depth_pos ci hc
  · exact cell.depth_progeny_lt ci k hc

theorem seq_bounded_map {α : Type} (l : List α) (f : α → Option outcome) (g : α → outcome)
    (h : ∀ x ∈ l, f x = some (g x)) :
    outcome.seq_bounded (l.map f) = some (outcome.seq (l.map g)) := by
  induction l with
  | nil => rfl
  | cons a l ih =>
    rw [List.map_cons, List.map_cons, h a (List.mem_cons_self _ _)]
    show (outcome.seq_bounded (l.map f)).map (outcome.andThen (g a)) = _
    rw [ih (fun x hx => h x (List.mem_cons_of_mem _ hx))]
    rfl

/-! ## Lemmas on the loops in single precision -/

theorem doself_float_eq (rd : rounding) (e : engine) (c : cell)
    (h : e.cell_is_active_stars c = true) :
    runner_doself_stars_density_float rd e c =
      ((List.product c.sparts c.parts).filter fun sp =>
        decide (float_r2 rd (runner_doself_stars_density_dx rd c sp.1 sp.2) > 0 ∧
          float_r2 rd (runner_doself_stars_density_dx rd c sp.1 sp.2) <
            float_hig2 rd e sp.1.h)).map
        fun sp => runner_doself_stars_density_call rd c sp.1 sp.2 := by
  unfold runner_doself_stars_density_float
  rw [if_neg (by simp [h])]
  exact flatMap_ite_eq_filter_map c.sparts c.parts
    (fun si pj => float_r2 rd (runner_doself_stars_density_dx rd c si pj) > 0 ∧
      float_r2 rd (runner_doself_stars_density_dx rd c si pj) < float_hig2 rd e si.h)
    (fun si pj => runner_doself_stars_density_call rd c si pj)

theorem doself_float_inactive (rd : rounding) (e : engine) (c : cell)
    (h : ¬ e.cell_is_active_stars c = true) :
    runner_doself_stars_density_float rd e c = [] := by
  unfold runner_doself_stars_density_float
  rw [if_pos h]

theorem dosubpair_float_eq (rd : rounding) (e : engine) (ci cj : cell)
    (h : e.cell_is_active_stars ci = true ∨ e.cell_is_active_stars cj = true) :
    runner_dosubpair_stars_density_float rd e ci cj =
      (brute_force_float rd e ci cj).map
        fun sp => runner_dosubpair_stars_density_call rd e ci cj sp.1 sp.2 := by
  unfold runner_dosubpair_stars_density_float brute_force_float
  rw [if_neg (by rcases h with h | h <;> simp [h])]
  exact flatMap_ite_eq_filter_map ci.sparts cj.parts
    (fun si pj => float_r2 rd (runner_dosubpair_stars_density_dx rd e ci cj si pj) <
      float_hig2 rd e si.h)
    (fun si pj => runner_dosubpair_stars_density_call rd e ci cj si pj)

theorem mem_brute_force_float (rd : rounding) (e : engine) (ci cj : cell) (si : spart)
    (pj : part) :
    (si, pj) ∈ brute_force_float rd e ci cj ↔
      si ∈ ci.sparts ∧ pj ∈ cj.parts ∧
        float_r2 rd (runner_dosubpair_stars_density_dx rd e ci cj si pj) <
          float_hig2 rd e si.h := by
  simp [brute_force_float, List.mem_filter, and_assoc]

theorem shift_float_exact (e : engine) (ci cj : cell) :
    runner_dosubpair_stars_density_shift_float exact_rounding e ci cj =
      runner_dosubpair_stars_density_shift e ci cj := rfl

theorem doself_float_exact (e : engine) (c : cell) :
    runner_doself_stars_density_float exact_rounding e c =
      runner_doself_stars_density e c := rfl

theorem dosubpair_float_exact (e : engine) (ci cj : cell) :
    runner_dosubpair_stars_density_float exact_rounding e ci cj =
      runner_dosubpair_stars_density e ci cj := rfl

theorem dopair_float_exact (e : engine) (ci cj : cell) :
    runner_dopair_stars_density_float exact_rounding e ci cj =
      runner_dopair_stars_density e ci cj := rfl

theorem float_r2_of_equal_casts (rd : rounding) (hz : rd.f32 0 = 0) (c : cell) (si : spart)
    (pj : part)
    (h : ∀ k, rd.f32 (rd.f64 (si.x k - c.loc k)) = rd.f32 (rd.f64 (pj.x k - c.loc k))) :
    float_r2 rd (runner_doself_stars_density_dx rd c si pj) = 0 := by
  have hd : ∀ k, runner_doself_stars_density_dx rd c si pj k = 0 := by
    intro k
    unfold runner_doself_stars_density_dx
    rw [h k, sub_self, hz]
  unfold float_r2
  rw [hd 0, hd 1, hd 2]
  simp [hz]

theorem doself_float_call_iff (rd : rounding) (e : engine) (c : cell)
    (hact : e.cell_is_active_stars c = true) (si : spart) (pj : part) :
    (∃ call ∈ runner_doself_stars_density_float rd e c, call.si = si ∧ call.pj = pj) ↔
      si ∈ c.sparts ∧ pj ∈ c.parts ∧
        0 < float_r2 rd (runner_doself_stars_density_dx rd c si pj) ∧
        float_r2 rd (runner_doself_stars_density_dx rd c si pj) < float_hig2 rd e si.h := by
  rw [doself_float_eq rd e c hact]
  constructor
  · rintro ⟨call, hc, h1, h2⟩
    rw [List.mem_map] at hc
    obtain ⟨sp, hsp, rfl⟩ := hc
    rw [List.mem_filter] at hsp
    have hm := List.mem_product.mp hsp.1
    have hd := of_decide_eq_true hsp.2
    simp only [runner_doself_stars_density_call] at h1 h2
    subst h1; subst h2
    exact ⟨hm.1, hm.2, hd.1, hd.2⟩
  · rintro ⟨h1, h2, h3, h4⟩
    refine ⟨runner_doself_stars_density_call rd c si pj, ?_, rfl, rfl⟩
    rw [List.mem_map]
    refine ⟨(si, pj), ?_, rfl⟩
    rw [List.mem_filter]
    exact ⟨List.mem_product.mpr ⟨h1, h2⟩, decide_eq_true ⟨h3, h4⟩⟩

/-! ## Lemmas on rounding to nearest, ties to even -/

theorem binary_exponent_eq (q : ℚ) (ex : Int) (hlo : (2 : ℚ) ^ ex ≤ |q|)
    (hhi : |q| < (2 : ℚ) ^ (ex + 1)) : binary_exponent q = ex := by
  unfold binary_exponent
  have hpos : 0 < |q| := lt_of_lt_of_le (by positivity) hlo
  have h1 : ex ≤ Int.log 2 |q| :=
    (Int.zpow_le_iff_le_log (b := 2) (by norm_num) hpos (x := ex)).mp (by exact_mod_cast hlo)
  have h2 : Int.log 2 |q| < ex + 1 :=
    (Int.lt_zpow_iff_log_lt (b := 2) (by norm_num) hpos (x := ex + 1)).mp
      (by exact_mod_cast hhi)
  omega

theorem round_half_even_of_lt (q : ℚ) (f : Int) (h1 : (f : ℚ) ≤ q) (h2 : q - f < 1 / 2) :
    round_half_even q = f := by
  have hf : Int.floor q = f := Int.floor_eq_iff.mpr ⟨h1, by linarith⟩
  unfold round_half_even
  simp only [hf]
  rw [if_pos h2]

theorem round_half_even_of_gt (q : ℚ) (f : Int) (h1 : q < (f : ℚ) + 1) (h2 : q - f > 1 / 2) :
    round_half_even q = f + 1 := by
  have hf : Int.floor q = f := Int.floor_eq_iff.mpr ⟨by linarith, h1⟩
  unfold round_half_even
  simp only [hf]
  rw [if_neg (by linarith), if_pos h2]

theorem binary_round_eq (p : Nat) (q : ℚ) (ex m : Int) (hlo : (2 : ℚ) ^ ex ≤ |q|)
    (hhi : |q| < (2 : ℚ) ^ (ex + 1))
    (hm : round_half_even (q / 2 ^ (ex - ((p : Int) - 1))) = m) :
    binary_round p q = (m : ℚ) * 2 ^ (ex - ((p : Int) - 1)) := by
  have hpos : 0 < |q| := lt_of_lt_of_le (by positivity) hlo
  have hq : q ≠ 0 := abs_pos.mp hpos
  unfold binary_round
  rw [if_neg hq]
  simp only [binary_exponent_eq q ex hlo hhi, hm]

theorem binary_round_zero (p : Nat) : binary_round p 0 = 0 := by
  simp [binary_round]

theorem binary_round_of_representable (p : Nat) (q : ℚ) (ex m : Int)
    (hlo : (2 : ℚ) ^ ex ≤ |q|) (hhi : |q| < (2 : ℚ) ^ (ex + 1))
    (hq : q = (m : ℚ) * 2 ^ (ex - ((p : Int) - 1))) : binary_round p q = q := by
  have hu : (2 : ℚ) ^ (ex - ((p : Int) - 1)) ≠ 0 := by positivity
  have hm : round_half_even (q / 2 ^ (ex - ((p : Int) - 1))) = m := by
    apply round_half_even_of_lt
    · rw [hq, mul_div_assoc, div_self hu, mul_one]
    · rw [hq, mul_div_assoc, div_self hu, mul_one, sub_self]
      norm_num
  rw [binary_round_eq p q ex m hlo hhi hm, ← hq]

theorem float_one : binary_round 24 1 = 1 :=
  binary_round_of_representable 24 1 0 (2 ^ 23) (by norm_num) (by norm_num) (by norm_num)

theorem float_neg_one : binary_round 24 (-1) = -1 :=
  binary_round_of_representable 24 (-1) 0 (-2 ^ 23) (by norm_num) (by norm_num) (by norm_num)

theorem float_two : binary_round 24 2 = 2 :=
  binary_round_of_representable 24 2 1 (2 ^ 23) (by norm_num) (by norm_num) (by norm_num)

theorem double_one : binary_round 53 1 = 1 :=
  binary_round_of_representable 53 1 0 (2 ^ 52) (by norm_num) (by norm_num) (by norm_num)

theorem double_two : binary_round 53 2 = 2 :=
  binary_round_of_representable 53 2 1 (2 ^ 52) (by norm_num) (by norm_num) (by norm_num)

theorem double_four : binary_round 53 4 = 4 :=
  binary_round_of_representable 53 4 2 (2 ^ 52) (by norm_num) (by norm_num) (by norm_num)

theorem double_neg_four : binary_round 53 (-4) = -4 :=
  binary_round_of_representable 53 (-4) 2 (-2 ^ 52) (by norm_num) (by norm_num) (by norm_num)

theorem double_above_one :
    binary_round 53 (1073741825 / 1073741824) = 1073741825 / 1073741824 :=
  binary_round_of_representable 53 _ 0 (2 ^ 52 + 2 ^ 22) (by norm_num [abs_of_pos])
    (by norm_num [abs_of_pos]) (by norm_num)

theorem double_below_one :
    binary_round 53 (1073741823 / 1073741824) = 1073741823 / 1073741824 :=
  binary_round_of_representable 53 _ (-1) (2 ^ 53 - 2 ^ 23) (by norm_num [abs_of_pos])
    (by norm_num [abs_of_pos]) (by norm_num)

theorem float_above_one : binary_round 24 (1073741825 / 1073741824) = 1 := by
  rw [binary_round_eq 24 _ 0 (2 ^ 23) (by norm_num [abs_of_pos]) (by norm_num [abs_of_pos])
    (round_half_even_of_lt _ _ (by norm_num) (by norm_num))]
  norm_num

theorem float_below_one : binary_round 24 (1073741823 / 1073741824) = 1 := by
  rw [binary_round_eq 24 _ (-1) (2 ^ 24) (by norm_num [abs_of_pos]) (by norm_num [abs_of_pos])
    (round_half_even_of_gt _ (2 ^ 24 - 1) (by norm_num) (by norm_num))]
  norm_num

theorem float_four : binary_round 24 4 = 4 :=
  binary_round_of_representable 24 4 2 (2 ^ 23) (by norm_num) (by norm_num) (by norm_num)

/-! ## The loops under IEEE rounding at concrete cells -/

theorem ieee_f32_zero : ieee_rounding.f32 0 = 0 := binary_round_zero 24

theorem float_hig2_one : float_hig2 ieee_rounding ex_engine 1 = 1 := by
  norm_num [float_hig2, ieee_rounding, ex_engine, float_one]

theorem float_hig2_two : float_hig2 ieee_rounding ex_engine 2 = 4 := by
  norm_num [float_hig2, ieee_rounding, ex_engine, float_four]

/-- In `ex_cell_close_pair` the star and the gas particle have the same
`float` offset from the cell origin on every axis. -/
theorem close_pair_equal_casts (k : Fin 3) :
    ieee_rounding.f32 (ieee_rounding.f64
        ((⟨1, pt 1 0 0, 1⟩ : spart).x k - ex_cell_close_pair.loc k)) =
      ieee_rounding.f32 (ieee_rounding.f64
        ((⟨2, pt (1 + 1 / 2 ^ 30) 0 0, 1⟩ : part).x k - ex_cell_close_pair.loc k)) := by
  fin_cases k <;>
  norm_num [ieee_rounding, pt, ex_cell_close_pair, ex_leaf, cell.loc, cell.data,
    binary_round_zero, float_one, double_one, double_above_one, float_above_one]

/-- In exact arithmetic the pair of `ex_cell_close_pair` is handed to the
interaction: its squared separation is `2 ^ -60`. -/
theorem close_pair_exact_call :
    (runner_doself_stars_density ex_engine ex_cell_close_pair).map iact.pair =
      [(⟨1, pt 1 0 0, 1⟩, ⟨2, pt (1 + 1 / 2 ^ 30) 0 0, 1⟩)] := by
  norm_num [runner_doself_stars_density, ex_engine, ex_cell_close_pair, ex_leaf, cell.sparts,
    cell.parts, cell.loc, cell.data, pt, iact.pair]

/-- The `r2` computed for the pair of `ex_cell_wide_gas`. -/
theorem wide_gas_float_r2 :
    float_r2 ieee_rounding (runner_doself_stars_density_dx ieee_rounding ex_cell_wide_gas
      ⟨1, pt 0 0 0, 1⟩ ⟨2, pt 1 1 0, 2⟩) = 2 := by
  norm_num [float_r2, runner_doself_stars_density_dx, ieee_rounding, pt, ex_cell_wide_gas,
    ex_leaf, cell.loc, cell.data, binary_round_zero, float_one, double_one, float_neg_one,
    float_two]

/-- The `r2` computed for the star of `ex_cell_face_star` and the gas particle
of `ex_cell_face_gas`, at distance `1 - 2 ^ -30`: it is `1`. -/
theorem face_pair_float_r2 :
    float_r2 ieee_rounding (runner_dosubpair_stars_density_dx ieee_rounding ex_engine
      ex_cell_face_star ex_cell_face_gas ⟨1, pt 2 0 0, 1⟩ ⟨2, pt (3 - 1 / 2 ^ 30) 0 0, 1⟩) =
      1 := by
  norm_num [float_r2, runner_dosubpair_stars_density_dx,
    runner_dosubpair_stars_density_shift_float, ieee_rounding, pt, ex_cell_face_star,
    ex_cell_face_gas, ex_engine, ex_leaf, cell.loc, cell.data, binary_round_zero, float_one,
    double_one, float_neg_one, float_two, double_two, double_four, double_neg_four,
    double_below_one, float_below_one]

/-- In exact arithmetic the pair of `ex_cell_face_star` and `ex_cell_face_gas`
is handed to the interaction: its squared separation is below 1. -/
theorem face_pair_exact_call :
    (runner_dopair_stars_density ex_engine ex_cell_face_star ex_cell_face_gas).map
        iact.pair =
      [(⟨1, pt 2 0 0, 1⟩, ⟨2, pt (3 - 1 / 2 ^ 30) 0 0, 1⟩)] := by
  norm_num [runner_dopair_stars_density, runner_dosubpair_stars_density,
    runner_dosubpair_stars_density_shift, ex_engine, ex_cell_face_star, ex_cell_face_gas,
    ex_leaf, cell.sparts, cell.parts, cell.loc, cell.data, pt, iact.pair]

/-- Under IEEE rounding the same pair is not: the computed `r2` equals the
computed `hig2`. -/
theorem face_pair_float_no_call :
    runner_dopair_stars_density_float ieee_rounding ex_engine ex_cell_face_star
      ex_cell_face_gas = [] := by
  have h1 : brute_force_float ieee_rounding ex_engine ex_cell_face_star ex_cell_face_gas =
      [] := by
    rw [List.eq_nil_iff_forall_not_mem]
    rintro ⟨si, pj⟩ h
    obtain ⟨hs, hp, hlt⟩ :=
      (mem_brute_force_float ieee_rounding ex_engine ex_cell_face_star ex_cell_face_gas
        si pj).mp h
    have hs2 : si = ⟨1, pt 2 0 0, 1⟩ := List.mem_singleton.mp hs
    have hp2 : pj = ⟨2, pt (3 - 1 / 2 ^ 30) 0 0, 1⟩ := List.mem_singleton.mp hp
    subst hs2
    subst hp2
    have hlt2 : float_r2 ieee_rounding (runner_dosubpair_stars_density_dx ieee_rounding
        ex_engine ex_cell_face_star ex_cell_face_gas ⟨1, pt 2 0 0, 1⟩
        ⟨2, pt (3 - 1 / 2 ^ 30) 0 0, 1⟩) < float_hig2 ieee_rounding ex_engine 1 := hlt
    rw [face_pair_float_r2, float_hig2_one] at hlt2
    exact lt_irrefl _ hlt2
  have h2 : brute_force_float ieee_rounding ex_engine ex_cell_face_gas ex_cell_face_star =
      [] := by
    simp [brute_force_float, ex_cell_face_gas, ex_leaf, cell.sparts, cell.data, List.product]
  unfold runner_dopair_stars_density_float
  rw [dosubpair_float_eq ieee_rounding ex_engine _ _ (Or.inl rfl),
    dosubpair_float_eq ieee_rounding ex_engine _ _ (Or.inl rfl), h1, h2]
  rfl

/-! ## The claims -/

/-- Claim C1, amended: in exact arithmetic (the casts to `float` and the
rounding of the operations left out, as in the embedding
`runner_dosubpair_stars_density` of the direct evaluation), for neighbouring
cells `ci`, `cj` of a well-formed cell tree (particles inside their cells, every cell that may recurse split
into octants with the search radius of its stars below the child size) such
that every cell pair the recursion reaches has an active cell and stars on
both sides and every pair it evaluates directly is drifted and sorted,
`runner_dosub_pair_stars_density` returns without an error and the set of
(star, gas) pairs it invokes the interaction on is the set obtained by
brute-forcing the stars of `ci` against the gas of `cj` and the stars of `cj`
against the gas of `ci` under the periodic shift of the pair. -/
theorem dosub_pair_recursion_equivalence (e : engine) (ci cj : cell) (sid : Int)
    (hn : neighbours e ci cj) (hi : octree e ci) (hj : octree e cj)
    (hr : dispatch_ready e ci cj) :
    (runner_dosub_pair_stars_density e ci cj sid).err = none ∧
    ∀ s p, (s, p) ∈ (runner_dosub_pair_stars_density e ci cj sid).calls.map iact.pair ↔
      (s, p) ∈ brute_force_pair e ci cj := by
  revert sid hn hi hj
  induction hr with
  | direct ci cj hact hsi hsj hrec hdi hdj hsorti hsortj =>
    intro sid hn hi hj
    obtain ⟨hlt, hcan⟩ := neighbours_canonical hn
    have hact' : e.cell_is_active_stars (getsid_ci e ci cj) = true ∨
        e.cell_is_active_stars (getsid_cj e ci cj) = true := by
      rcases getsid_cells e ci cj with ⟨h1, h2⟩ | ⟨h1, h2⟩ <;> rw [h1, h2]
      · exact hact
      · exact hact.symm
    have hd1 : e.cell_are_part_drifted (getsid_ci e ci cj) = true := by
      rcases getsid_cells e ci cj with ⟨h1, h2⟩ | ⟨h1, h2⟩ <;> rw [h1] <;> assumption
    have hd2 : e.cell_are_part_drifted (getsid_cj e ci cj) = true := by
      rcases getsid_cells e ci cj with ⟨h1, h2⟩ | ⟨h1, h2⟩ <;> rw [h2] <;> assumption
    have hs1 : ¬ sort_is_stale e (getsid_ci e ci cj) (space_getsid e ci cj).sid := by
      rcases getsid_cells e ci cj with ⟨h1, h2⟩ | ⟨h1, h2⟩ <;> rw [h1] <;> assumption
    have hs2 : ¬ sort_is_stale e (getsid_cj e ci cj) (space_getsid e ci cj).sid := by
      rcases getsid_cells e ci cj with ⟨h1, h2⟩ | ⟨h1, h2⟩ <;> rw [h2] <;> assumption
    rw [dosub_pair_direct_eq e ci cj sid hact hsi hsj hrec hdi hdj hsorti hsortj,
      dopair_branch_canonical_eq e _ _ _ hlt hcan hact' hd1 hd2 hs1 hs2]
    refine ⟨rfl, fun s p => ?_⟩
    show (s, p) ∈ (runner_dopair_stars_density e _ _).map iact.pair ↔ _
    rw [dopair_pairs e _ _ hact']
    exact mem_brute_force_pair_getsid
  | recurse ci cj hact hsi hsj hrec hsub ih =>
    intro sid hn hi hj
    obtain ⟨hlt, hcan⟩ := neighbours_canonical hn
    obtain ⟨hX, hY⟩ := @octree_getsid e ci cj hi hj
    have hne : getsid_ci e ci cj ≠ cell.NULL ∧ getsid_cj e ci cj ≠ cell.NULL := by
      have h1 : ci ≠ cell.NULL := by rintro rfl; exact hsi rfl
      have h2 : cj ≠ cell.NULL := by rintro rfl; exact hsj rfl
      rcases getsid_cells e ci cj with ⟨h1', h2'⟩ | ⟨h1', h2'⟩ <;> rw [h1', h2']
      · exact ⟨h1, h2⟩
      · exact ⟨h2, h1⟩
    have hc : e.cell_can_recurse_in_pair_stars_task (getsid_ci e ci cj) = true ∧
        e.cell_can_recurse_in_pair_stars_task (getsid_cj e ci cj) = true := by
      rcases getsid_cells e ci cj with ⟨h1, h2⟩ | ⟨h1, h2⟩ <;> rw [h1, h2]
      · exact hrec
      · exact hrec.symm
    have sX := octree_splits hX hc.1 hne.1
    have sY := octree_splits hY hc.2 hne.2
    have hd := in_stencil_dir _ hlt
    -- every dispatched child pair satisfies the statement
    have hchild : ∀ ab ∈ runner_dosub_pair_stars_density_tasks (getsid_ci e ci cj)
        (getsid_cj e ci cj) (space_getsid e ci cj).sid,
        (runner_dosub_pair_stars_density e ((getsid_ci e ci cj).progeny ab.1)
            ((getsid_cj e ci cj).progeny ab.2) (-1)).err = none ∧
        ∀ s p, (s, p) ∈ (runner_dosub_pair_stars_density e
              ((getsid_ci e ci cj).progeny ab.1)
              ((getsid_cj e ci cj).progeny ab.2) (-1)).calls.map iact.pair ↔
          (s, p) ∈ brute_force_pair e ((getsid_ci e ci cj).progeny ab.1)
            ((getsid_cj e ci cj).progeny ab.2) := by
      intro ab hab
      obtain ⟨htab, hna, hnb⟩ := mem_tasks.mp hab
      obtain ⟨ha, hb, hadj⟩ := (pair_table_mem hlt ab.1 ab.2).mp htab
      have hnc := (neighbours_along_children hd hcan (sX.2.1 _ ha hna) (sY.2.1 _ hb hnb) hadj).1
      exact ih ab hab (-1) ⟨_, in_stencil_child_offset hd hadj, hnc⟩
        (octree_progeny hX _) (octree_progeny hY _)
    rw [dosub_pair_recurse_eq e ci cj sid hact hsi hsj hrec]
    have hseq := seq_of_no_abort
      ((runner_dosub_pair_stars_density_tasks (getsid_ci e ci cj) (getsid_cj e ci cj)
          (space_getsid e ci cj).sid).map fun ab =>
        runner_dosub_pair_stars_density e ((getsid_ci e ci cj).progeny ab.1)
          ((getsid_cj e ci cj).progeny ab.2) (-1))
      (by
        intro o ho
        rw [List.mem_map] at ho
        obtain ⟨ab, hab, rfl⟩ := ho
        exact (hchild ab hab).1)
    refine ⟨hseq.1, fun s p => ?_⟩
    rw [hseq.2, ← mem_brute_force_pair_getsid,
      brute_force_pair_children hlt hcan hX hY sX sY s p]
    constructor
    · intro h
      rw [List.mem_map] at h
      obtain ⟨c, hc1, hc2⟩ := h
      rw [List.mem_flatMap] at hc1
      obtain ⟨o, ho, hco⟩ := hc1
      rw [List.mem_map] at ho
      obtain ⟨ab, hab, rfl⟩ := ho
      exact ⟨ab, hab, ((hchild ab hab).2 s p).mp (List.mem_map.mpr ⟨c, hco, hc2⟩)⟩
    · rintro ⟨ab, hab, h⟩
      have := ((hchild ab hab).2 s p).mpr h
      rw [List.mem_map] at this ⊢
      obtain ⟨c, hc1, hc2⟩ := this
      exact ⟨c, List.mem_flatMap.mpr ⟨_, List.mem_map.mpr ⟨ab, hab, rfl⟩, hc1⟩, hc2⟩

/-- Claim C1, amended, at two split neighbouring cells, in exact arithmetic. -/
theorem dosub_pair_recursion_equivalence_witness :
    neighbours ex_engine ex_tree_left ex_tree_right ∧
    octree ex_engine ex_tree_left ∧ octree ex_engine ex_tree_right ∧
    dispatch_ready ex_engine ex_tree_left ex_tree_right ∧
    (runner_dosub_pair_stars_density ex_engine ex_tree_left ex_tree_right (-1)).err = none ∧
    ∀ s p,
      (s, p) ∈ (runner_dosub_pair_stars_density ex_engine ex_tree_left ex_tree_right
          (-1)).calls.map iact.pair ↔
        (s, p) ∈ brute_force_pair ex_engine ex_tree_left ex_tree_right :=
  ⟨⟨runner_shift_dir 4, in_stencil_dir 4 (by decide),
      ex_neighbours_along ex_engine rfl _ _ ⟨rfl, rfl⟩ ⟨rfl, rfl⟩⟩,
    ex_octree_left ex_engine rfl rfl, ex_octree_right ex_engine rfl rfl, ex_dispatch_ready,
    dosub_pair_recursion_equivalence ex_engine ex_tree_left ex_tree_right (-1)
      ⟨runner_shift_dir 4, in_stencil_dir 4 (by decide),
        ex_neighbours_along ex_engine rfl _ _ ⟨rfl, rfl⟩ ⟨rfl, rfl⟩⟩
      (ex_octree_left ex_engine rfl rfl) (ex_octree_right ex_engine rfl rfl)
      ex_dispatch_ready⟩

theorem ex_every_cell_leaf (e : engine) (hd : e.cell_are_part_drifted = fun _ => true)
    (hm : e.space_maxreldx = 1) (loc : vec3) (w : ℚ) (hw : 0 ≤ w) (S : List spart)
    (P : List part) :
    every_cell (fun c => e.cell_are_part_drifted c = true ∧
      ∀ sid, sid < 13 → ¬ sort_is_stale e c sid) (ex_leaf loc w S P) := by
  unfold ex_leaf
  simp only [every_cell, and_true]
  refine ⟨by rw [hd], ?_⟩
  intro sid hsid
  unfold sort_is_stale
  simp only [cell.sorted, cell.dx_max_sort_old, cell.dmin, cell.data, hm]
  rintro (h | h)
  · revert h; interval_cases sid <;> decide
  · linarith

/-- Claim C1 fails as stated, in two ways.  First, with all cells drifted and
sorted and the left cell active, the only adjacent child pair holds no active
star: the recursion skips it and invokes nothing, while the brute-force
evaluation of the flattened pair contains a pair in range.  Second, an unsplit
active pair whose second cell holds gas but no star is skipped on its star
count, while the brute-force set is not empty. -/
theorem dosub_pair_recursion_skips_pairs :
    ((ex_one_active_engine.cell_is_active_stars ex_tree_left_two = true ∨
        ex_one_active_engine.cell_is_active_stars ex_tree_right = true) ∧
      neighbours ex_one_active_engine ex_tree_left_two ex_tree_right ∧
      octree ex_one_active_engine ex_tree_left_two ∧
      octree ex_one_active_engine ex_tree_right ∧
      every_cell (fun c => ex_one_active_engine.cell_are_part_drifted c = true ∧
        ∀ sid, sid < 13 → ¬ sort_is_stale ex_one_active_engine c sid) ex_tree_left_two ∧
      every_cell (fun c => ex_one_active_engine.cell_are_part_drifted c = true ∧
        ∀ sid, sid < 13 → ¬ sort_is_stale ex_one_active_engine c sid) ex_tree_right ∧
      runner_dosub_pair_stars_density ex_one_active_engine ex_tree_left_two ex_tree_right
        (-1) = outcome.ok [] ∧
      (ex_star_a, ex_gas_b) ∈
        brute_force_pair ex_one_active_engine ex_tree_left_two ex_tree_right) ∧
    ((ex_engine.cell_is_active_stars ex_cell_near_face = true ∨
        ex_engine.cell_is_active_stars ex_cell_gas_only = true) ∧
      runner_dosub_pair_stars_density ex_engine ex_cell_near_face ex_cell_gas_only (-1) =
        outcome.ok [] ∧
      brute_force_pair ex_engine ex_cell_near_face ex_cell_gas_only ≠ []) := by
  have hnb := ex_neighbours_along ex_one_active_engine rfl ex_tree_left_two ex_tree_right
    ⟨rfl, rfl⟩ ⟨rfl, rfl⟩
  have hact : ex_one_active_engine.cell_is_active_stars ex_tree_left_two = true := by decide
  refine ⟨⟨Or.inl hact, ⟨runner_shift_dir 4, in_stencil_dir 4 (by decide), hnb⟩,
    ex_octree_left_two _ rfl rfl, ex_octree_right _ rfl rfl, ?_, ?_, ?_, ?_⟩, ?_, ?_, ?_⟩
  · refine ⟨⟨rfl, ?_⟩, ex_every_cell_leaf _ rfl rfl _ _ (by norm_num) _ _, trivial, trivial,
      trivial, ex_every_cell_leaf _ rfl rfl _ _ (by norm_num) _ _, trivial, trivial, trivial⟩
    intro sid hsid
    unfold sort_is_stale
    rintro (h | h)
    · revert h; interval_cases sid <;> decide
    · revert h; norm_num [ex_tree_left_two, ex_one_active_engine, ex_engine, cell.data,
        cell.dx_max_sort_old, cell.dmin]
  · refine ⟨⟨rfl, ?_⟩, ex_every_cell_leaf _ rfl rfl _ _ (by norm_num) _ _, trivial, trivial,
      trivial, trivial, trivial, trivial, trivial⟩
    intro sid hsid
    unfold sort_is_stale
    rintro (h | h)
    · revert h; interval_cases sid <;> decide
    · revert h; norm_num [ex_tree_right, ex_one_active_engine, ex_engine, cell.data,
        cell.dx_max_sort_old, cell.dmin]
  · have hg := space_getsid_canonical (i := 4) (by decide) hnb
    have hi : getsid_ci ex_one_active_engine ex_tree_left_two ex_tree_right =
        ex_tree_left_two := by
      unfold getsid_ci; rw [hg.2]; rfl
    have hj : getsid_cj ex_one_active_engine ex_tree_left_two ex_tree_right =
        ex_tree_right := by
      unfold getsid_cj; rw [hg.2]; rfl
    have htasks : runner_dosub_pair_stars_density_tasks ex_tree_left_two ex_tree_right 4 =
        [(4, 0)] := by decide
    rw [dosub_pair_recurse_eq ex_one_active_engine ex_tree_left_two ex_tree_right (-1)
      (Or.inl hact) (by decide) (by decide) ⟨rfl, rfl⟩, hi, hj, hg.1, htasks]
    simp only [List.map_cons, List.map_nil]
    rw [runner_dosub_pair_stars_density, if_pos (by decide)]
    rfl
  · rw [mem_brute_force_pair]
    left
    refine ⟨by simp [ex_tree_left_two, cell.sparts, cell.data],
      by simp [ex_tree_right, cell.parts, cell.data], ?_⟩
    norm_num [r2_shifted, runner_dosubpair_stars_density_shift, ex_tree_left_two,
      ex_tree_right, ex_one_active_engine, ex_engine, cell.loc, cell.data, pt, ex_star_a,
      ex_gas_b]
  · exact Or.inl rfl
  · rw [runner_dosub_pair_stars_density, if_neg (by decide), dif_pos (by decide)]
  · intro h
    have hm : ((⟨6, pt (3 / 2) 0 0, 1⟩ : spart), (⟨5, pt 2 0 0, 1⟩ : part)) ∈
        brute_force_pair ex_engine ex_cell_near_face ex_cell_gas_only := by
      rw [mem_brute_force_pair]
      left
      refine ⟨by simp [ex_cell_near_face, ex_leaf, cell.sparts, cell.data],
        by simp [ex_cell_gas_only, ex_leaf, cell.parts, cell.data], ?_⟩
      norm_num [r2_shifted, runner_dosubpair_stars_density_shift, ex_cell_near_face,
        ex_cell_gas_only, ex_leaf, ex_engine, cell.loc, cell.data, pt]
    rw [h] at hm
    exact absurd hm (List.not_mem_nil _)

/-- Claim C5 fails as stated: a star of radius 1 and a gas particle of radius
2 at squared separation 2 are within the larger radius (`2 < 4`), and
`runner_doself_stars_density` does not invoke the interaction on them.  This
is so in exact arithmetic and under IEEE rounding, where the computed `r2` is
2 and the computed square of the larger radius is 4. -/
theorem doself_cutoff_larger_radius_fails :
    ex_engine.cell_is_active_stars ex_cell_wide_gas = true ∧
    (∃ si ∈ ex_cell_wide_gas.sparts, ∃ pj ∈ ex_cell_wide_gas.parts,
      (0 < r2_shifted no_shift si pj ∧
        r2_shifted no_shift si pj < (max si.h pj.h) ^ 2 * ex_engine.kernel_gamma2) ∧
      (¬ ∃ c ∈ runner_doself_stars_density ex_engine ex_cell_wide_gas,
          c.si = si ∧ c.pj = pj) ∧
      (0 < float_r2 ieee_rounding
          (runner_doself_stars_density_dx ieee_rounding ex_cell_wide_gas si pj) ∧
        float_r2 ieee_rounding
          (runner_doself_stars_density_dx ieee_rounding ex_cell_wide_gas si pj) <
            float_hig2 ieee_rounding ex_engine (max si.h pj.h)) ∧
      ¬ ∃ c ∈ runner_doself_stars_density_float ieee_rounding ex_engine ex_cell_wide_gas,
          c.si = si ∧ c.pj = pj) := by
  refine ⟨rfl, ⟨1, pt 0 0 0, 1⟩, ?_, ⟨2, pt 1 1 0, 2⟩, ?_, ?_, ?_, ?_, ?_⟩
  · simp [ex_cell_wide_gas, ex_leaf, cell.sparts, cell.data]
  · simp [ex_cell_wide_gas, ex_leaf, cell.parts, cell.data]
  · norm_num [r2_shifted, no_shift, pt, ex_engine]
  · rw [doself_eq ex_engine ex_cell_wide_gas rfl]
    simp [ex_cell_wide_gas, ex_leaf, cell.sparts, cell.parts, cell.data, List.product]
    norm_num [r2_shifted, no_shift, pt, ex_engine]
  · have hm : max (⟨1, pt 0 0 0, 1⟩ : spart).h (⟨2, pt 1 1 0, 2⟩ : part).h = 2 := by
      norm_num
    rw [wide_gas_float_r2, hm, float_hig2_two]
    norm_num
  · intro h
    have hlt : float_r2 ieee_rounding (runner_doself_stars_density_dx ieee_rounding
        ex_cell_wide_gas ⟨1, pt 0 0 0, 1⟩ ⟨2, pt 1 1 0, 2⟩) <
        float_hig2 ieee_rounding ex_engine 1 :=
      ((doself_float_call_iff ieee_rounding ex_engine ex_cell_wide_gas rfl
        ⟨1, pt 0 0 0, 1⟩ ⟨2, pt 1 1 0, 2⟩).mp h).2.2.2
    rw [wide_gas_float_r2, float_hig2_one] at hlt
    norm_num at hlt

/-- Claim C5, amended: in an active cell `runner_doself_stars_density`
invokes the interaction on a star and a gas particle of the cell if and only
if the squared separation `r2` it computes for them (with its casts to `float`
and the rounding of each operation) is strictly positive and strictly below
the squared search radius `hi * hi * kernel_gamma2` it computes for the star,
whatever the radius of the gas particle.  This holds for every rounding of the
`float` and `double` operations.  In particular a pair whose two positions have
the same `float` image on every axis gets `r2 = 0` and no interaction. -/
theorem doself_cutoff_star_radius (rd : rounding) (e : engine) (c : cell)
    (hact : e.cell_is_active_stars c = true) (si : spart) (pj : part) :
    ((∃ call ∈ runner_doself_stars_density_float rd e c, call.si = si ∧ call.pj = pj) ↔
      si ∈ c.sparts ∧ pj ∈ c.parts ∧
        0 < float_r2 rd (runner_doself_stars_density_dx rd c si pj) ∧
        float_r2 rd (runner_doself_stars_density_dx rd c si pj) < float_hig2 rd e si.h) ∧
    (rd.f32 0 = 0 →
      (∀ k, rd.f32 (rd.f64 (si.x k - c.loc k)) = rd.f32 (rd.f64 (pj.x k - c.loc k))) →
      ¬ ∃ call ∈ runner_doself_stars_density_float rd e c, call.si = si ∧ call.pj = pj) ∧
    runner_doself_stars_density_float exact_rounding e c =
      runner_doself_stars_density e c := by
  have hiff := doself_float_call_iff rd e c hact si pj
  refine ⟨hiff, ?_, rfl⟩
  intro hz heq hcall
  have h := (hiff.mp hcall).2.2.1
  rw [float_r2_of_equal_casts rd hz c si pj heq] at h
  exact lt_irrefl _ h

/-- Claim C5, amended, under IEEE rounding.  At the cell of the
counterexample the star of radius 1 and the gas particle of radius 2, for
which the computed `r2` is 2, are not handed to the interaction.  In a cell
whose star and gas particle are `2 ^ -30` apart the two offsets have the same
`float`, the computed `r2` is 0, and the pair is not handed to the interaction
either. -/
theorem doself_cutoff_star_radius_witness :
    ex_engine.cell_is_active_stars ex_cell_wide_gas = true ∧
    (¬ ∃ call ∈ runner_doself_stars_density_float ieee_rounding ex_engine ex_cell_wide_gas,
        call.si = ⟨1, pt 0 0 0, 1⟩ ∧ call.pj = ⟨2, pt 1 1 0, 2⟩) ∧
    ex_engine.cell_is_active_stars ex_cell_close_pair = true ∧
    ¬ ∃ call ∈ runner_doself_stars_density_float ieee_rounding ex_engine
        ex_cell_close_pair,
        call.si = ⟨1, pt 1 0 0, 1⟩ ∧ call.pj = ⟨2, pt (1 + 1 / 2 ^ 30) 0 0, 1⟩ := by
  refine ⟨rfl, fun h => ?_, rfl,
    (doself_cutoff_star_radius ieee_rounding ex_engine ex_cell_close_pair rfl
      ⟨1, pt 1 0 0, 1⟩ ⟨2, pt (1 + 1 / 2 ^ 30) 0 0, 1⟩).2.1 ieee_f32_zero
      close_pair_equal_casts⟩
  have hlt : float_r2 ieee_rounding (runner_doself_stars_density_dx ieee_rounding
      ex_cell_wide_gas ⟨1, pt 0 0 0, 1⟩ ⟨2, pt 1 1 0, 2⟩) <
      float_hig2 ieee_rounding ex_engine 1 :=
    ((doself_cutoff_star_radius ieee_rounding ex_engine ex_cell_wide_gas rfl
      ⟨1, pt 0 0 0, 1⟩ ⟨2, pt 1 1 0, 2⟩).1.mp h).2.2.2
  rw [wide_gas_float_r2, float_hig2_one] at hlt
  norm_num at hlt

/-- Claim C7: in a box with `dim[k] > 0` on every axis, the shift computed
for `(ci, cj)` is, component by component, the negation of the shift computed
for `(cj, ci)`, in `runner_dosubpair_stars_density` and in
`runner_dopair_subset_branch_stars_density`. -/
theorem shift_antisymmetric (e : engine) (ci cj : cell) (hdim : ∀ k, 0 < e.dim k) :
    (∀ k, runner_dosubpair_stars_density_shift e ci cj k =
        -runner_dosubpair_stars_density_shift e cj ci k) ∧
    (∀ k, runner_dopair_subset_branch_stars_density_shift e ci cj k =
        -runner_dopair_subset_branch_stars_density_shift e cj ci k) := by
  constructor <;> intro k <;> have h := hdim k
  · unfold runner_dosubpair_stars_density_shift
    split_ifs <;> linarith
  · unfold runner_dopair_subset_branch_stars_density_shift
    split_ifs <;> linarith

/-- Claim C7 in the box of side 8. -/
theorem shift_antisymmetric_witness :
    (∀ k, 0 < ex_engine.dim k) ∧
    (∀ k, runner_dosubpair_stars_density_shift ex_engine ex_cell_one_star ex_cell_right k =
        -runner_dosubpair_stars_density_shift ex_engine ex_cell_right ex_cell_one_star k) :=
  ⟨fun _ => by norm_num [ex_engine],
    (shift_antisymmetric ex_engine ex_cell_one_star ex_cell_right
      (fun _ => by norm_num [ex_engine])).1⟩

/-- Claim C8: on an axis of box width `W > 0`, a raw delta of cell origins
with `|delta| <= W` is corrected by the shift to a delta of magnitude at most
`W / 2`, and a delta of `0.6 * W` is corrected to `-0.4 * W`; for both copies
of the shift computation. -/
theorem shift_minimum_image (e : engine) (ci cj : cell) (k : Fin 3) (hW : 0 < e.dim k) :
    (|cj.loc k - ci.loc k| ≤ e.dim k →
      |cj.loc k - ci.loc k + runner_dosubpair_stars_density_shift e ci cj k| ≤ e.dim k / 2 ∧
      |cj.loc k - ci.loc k + runner_dopair_subset_branch_stars_density_shift e ci cj k| ≤
        e.dim k / 2) ∧
    (cj.loc k - ci.loc k = 6 / 10 * e.dim k →
      cj.loc k - ci.loc k + runner_dosubpair_stars_density_shift e ci cj k =
        -(4 / 10) * e.dim k ∧
      cj.loc k - ci.loc k + runner_dopair_subset_branch_stars_density_shift e ci cj k =
        -(4 / 10) * e.dim k) := by
  unfold runner_dosubpair_stars_density_shift runner_dopair_subset_branch_stars_density_shift
  constructor
  · intro h
    rw [abs_le] at h
    split_ifs <;> (constructor <;> rw [abs_le] <;> constructor <;> linarith)
  · intro h
    split_ifs <;> (constructor <;> linarith)

/-- Claim C8 at a cell whose origin is `0.6` box widths away along `x`. -/
theorem shift_minimum_image_witness :
    0 < ex_engine.dim 0 ∧
    ex_cell_far.loc 0 - ex_cell_one_star.loc 0 +
        runner_dosubpair_stars_density_shift ex_engine ex_cell_one_star ex_cell_far 0 =
      -(4 / 10) * ex_engine.dim 0 :=
  ⟨by norm_num [ex_engine],
    ((shift_minimum_image ex_engine ex_cell_one_star ex_cell_far 0
      (by norm_num [ex_engine])).2
      (by norm_num [ex_engine, ex_cell_far, ex_cell_one_star, ex_leaf, cell.loc, cell.data,
        pt])).1⟩

/-- Claim C6: the 13 direction vectors of the recursion switch together with
their negations are exactly the 26 non-zero offsets of the 3x3x3 stencil,
each occurring once: the list has 26 entries without repetition, an offset is
in it if and only if its components lie in `-1, 0, 1` and are not all zero,
no two ids share a vector, and no vector is the negation of a listed one. -/
theorem directions_cover_stencil_once :
    stencil_dirs.length = 26 ∧ stencil_dirs.Nodup ∧
    (∀ x y z : Int, (x, y, z) ∈ stencil_dirs ↔
      (-1 ≤ x ∧ x ≤ 1) ∧ (-1 ≤ y ∧ y ≤ 1) ∧ (-1 ≤ z ∧ z ≤ 1) ∧ (x, y, z) ≠ (0, 0, 0)) ∧
    (∀ i, i < 13 → ∀ j, j < 13 → runner_shift_dir i = runner_shift_dir j → i = j) ∧
    (∀ i, i < 13 → ∀ j, j < 13 → runner_shift_dir i ≠ dir_neg (runner_shift_dir j)) := by
  refine ⟨by decide, by decide, ?_, by decide, by decide⟩
  intro x y z
  constructor
  · intro h
    have : ∀ v ∈ stencil_dirs, (-1 ≤ v.1 ∧ v.1 ≤ 1) ∧ (-1 ≤ v.2.1 ∧ v.2.1 ≤ 1) ∧
        (-1 ≤ v.2.2 ∧ v.2.2 ≤ 1) ∧ v ≠ (0, 0, 0) := by decide
    exact this _ h
  · rintro ⟨⟨hx1, hx2⟩, ⟨hy1, hy2⟩, ⟨hz1, hz2⟩, hne⟩
    interval_cases x <;> interval_cases y <;> interval_cases z <;>
      first
        | exact absurd rfl hne
        | decide

/-- Claim C9: when an active cell with `scount > 0` may recurse,
`runner_dosub_self_stars_density` runs, in order, the calls of its task list
and nothing else; the list holds the self task of every non-null progeny and
the pair task `(progeny[k], progeny[j])` of every two non-null progeny with
`k < j`, each exactly once; with all eight progeny present these are 8 self
tasks and 28 pair tasks. -/
theorem dosub_self_recursion_structure (e : engine) (ci : cell)
    (hs : ci.scount ≠ 0) (hact : e.cell_is_active_stars ci = true)
    (hrec : e.cell_can_recurse_in_self_stars_task ci = true) :
    runner_dosub_self_stars_density e ci =
        outcome.seq ((runner_dosub_self_stars_density_tasks ci).map fun t =>
          match t with
          | subtask.self k => runner_dosub_self_stars_density e (ci.progeny k)
          | subtask.pair k j =>
            runner_dosub_pair_stars_density e (ci.progeny k) (ci.progeny j) (-1)) ∧
      (∀ k, subtask.self k ∈ runner_dosub_self_stars_density_tasks ci ↔
        k < 8 ∧ ci.progeny k ≠ cell.NULL) ∧
      (∀ k j, subtask.pair k j ∈ runner_dosub_self_stars_density_tasks ci ↔
        k < j ∧ j < 8 ∧ ci.progeny k ≠ cell.NULL ∧ ci.progeny j ≠ cell.NULL) ∧
      (runner_dosub_self_stars_density_tasks ci).Nodup ∧
      ((∀ k, k < 8 → ci.progeny k ≠ cell.NULL) →
        ((runner_dosub_self_stars_density_tasks ci).filter subtask.is_self_task).length = 8 ∧
        ((runner_dosub_self_stars_density_tasks ci).filter
          fun t => !t.is_self_task).length = 28) := by
  refine ⟨?_, tasks_self_mem ci, tasks_pair_mem ci, tasks_nodup ci, ?_⟩
  · rw [runner_dosub_self_stars_density]
    simp [hs, hact, hrec]
  · intro hall
    have hfull : runner_dosub_self_stars_density_tasks ci =
        (List.range 8).flatMap fun k =>
          subtask.self k :: (List.range' (k + 1) (8 - (k + 1))).map (subtask.pair k) := by
      unfold runner_dosub_self_stars_density_tasks
      apply List.flatMap_congr
      intro k hk
      rw [List.mem_range] at hk
      rw [if_pos (hall k hk), List.filter_eq_self.mpr]
      intro j hj
      rw [List.mem_range'] at hj
      obtain ⟨i, hi, rfl⟩ := hj
      exact decide_eq_true (hall _ (by omega))
    rw [hfull]
    decide

/-- Claim C9 at a split cell with eight progeny. -/
theorem dosub_self_recursion_structure_witness :
    (ex_cell_full.scount ≠ 0 ∧ ex_engine.cell_is_active_stars ex_cell_full = true ∧
      ex_engine.cell_can_recurse_in_self_stars_task ex_cell_full = true) ∧
    (∀ k j, subtask.pair k j ∈ runner_dosub_self_stars_density_tasks ex_cell_full ↔
      k < j ∧ j < 8 ∧ ex_cell_full.progeny k ≠ cell.NULL ∧
        ex_cell_full.progeny j ≠ cell.NULL) :=
  ⟨⟨by decide, rfl, rfl⟩,
    (dosub_self_recursion_structure ex_engine ex_cell_full (by decide) rfl rfl).2.2.1⟩

/-- Claim C10 fails as stated: with neither cell active,
`runner_dopair_branch_stars_density` returns without an error although one
cell has `dx_max_sort_old` above `space_maxreldx * dmin`. -/
theorem dopair_branch_stale_inactive_returns :
    ex_cell_stale.dx_max_sort_old > ex_idle_engine.space_maxreldx * ex_cell_stale.dmin ∧
    runner_dopair_branch_stars_density ex_idle_engine ex_cell_one_star ex_cell_stale =
      outcome.ok [] := by
  constructor
  · norm_num [ex_cell_stale, ex_idle_engine, ex_engine, cell.dx_max_sort_old, cell.dmin,
      cell.data]
  · unfold runner_dopair_branch_stars_density
    simp [ex_idle_engine]

/-- Claim C10, amended: for every cell pair with at least one active cell in
which `ci` or `cj` has `dx_max_sort_old` above `space_maxreldx * dmin`,
`runner_dopair_branch_stars_density` aborts with an error and invokes no
interaction. -/
theorem dopair_branch_stale_aborts (e : engine) (ci cj : cell)
    (hact : e.cell_is_active_stars ci = true ∨ e.cell_is_active_stars cj = true)
    (hstale : ci.dx_max_sort_old > e.space_maxreldx * ci.dmin ∨
      cj.dx_max_sort_old > e.space_maxreldx * cj.dmin) :
    (runner_dopair_branch_stars_density e ci cj).calls = [] ∧
      ((runner_dopair_branch_stars_density e ci cj).err = some fatal.undrifted_cells ∨
        (runner_dopair_branch_stars_density e ci cj).err = some fatal.unsorted_cells) := by
  unfold runner_dopair_branch_stars_density
  rw [if_neg (by rcases hact with h | h <;> simp [h])]
  dsimp only
  by_cases h1 : ¬ e.cell_are_part_drifted ci = true ∨ ¬ e.cell_are_part_drifted cj = true
  · rw [if_pos h1]; exact ⟨rfl, Or.inl rfl⟩
  · rw [if_neg h1]
    cases hf : (space_getsid e ci cj).flip <;>
      simp only [Bool.false_eq_true, if_true, if_false] <;>
      split_ifs with h2 h3 <;>
      first
        | exact ⟨rfl, Or.inr rfl⟩
        | (exfalso
           rcases hstale with h | h
           · first
               | exact h2 (Or.inr h)
               | exact h3 (Or.inr h)
           · first
               | exact h2 (Or.inr h)
               | exact h3 (Or.inr h))

/-- Claim C10, amended, at an active pair with one stale cell. -/
theorem dopair_branch_stale_aborts_witness :
    (ex_engine.cell_is_active_stars ex_cell_one_star = true ∨
      ex_engine.cell_is_active_stars ex_cell_stale = true) ∧
    (ex_cell_one_star.dx_max_sort_old > ex_engine.space_maxreldx * ex_cell_one_star.dmin ∨
      ex_cell_stale.dx_max_sort_old > ex_engine.space_maxreldx * ex_cell_stale.dmin) ∧
    (runner_dopair_branch_stars_density ex_engine ex_cell_one_star ex_cell_stale).calls = [] :=
  ⟨Or.inl rfl,
    Or.inr (by norm_num [ex_cell_stale, ex_engine, cell.dx_max_sort_old, cell.dmin, cell.data]),
    (dopair_branch_stale_aborts ex_engine ex_cell_one_star ex_cell_stale (Or.inl rfl)
      (Or.inr (by norm_num [ex_cell_stale, ex_engine, cell.dx_max_sort_old, cell.dmin,
        cell.data]))).1⟩

/-- Claim C17: for every direction id, the child-index pairs `(a, b)` that one
invocation of `runner_dosub_pair_stars_density` dispatches are pairwise
distinct (also for every table entry, whichever progeny are present). -/
theorem dosub_pair_tasks_distinct (ci cj : cell) (sid : Nat) :
    (runner_dosub_pair_stars_density_tasks ci cj sid).Nodup ∧ (pair_table sid).Nodup := by
  refine ⟨?_, pair_table_nodup sid⟩
  unfold runner_dosub_pair_stars_density_tasks
  exact (pair_table_nodup sid).filter _

/-- Claim C13: for an active cell `c`, `runner_doself_branch_stars_density`
aborts if and only if `c->h_max_old * kernel_gamma > c->dmin`, then without
any interaction; otherwise it returns after exactly the interactions of
`runner_doself_stars_density` on `c`. -/
theorem doself_branch_geometry_check (e : engine) (c : cell)
    (hact : e.cell_is_active_stars c = true) :
    ((runner_doself_branch_stars_density e c).err ≠ none ↔
      c.h_max_old * e.kernel_gamma > c.dmin) ∧
    (c.h_max_old * e.kernel_gamma > c.dmin →
      runner_doself_branch_stars_density e c = ⟨[], some fatal.cell_smaller_than_h⟩) ∧
    (¬ c.h_max_old * e.kernel_gamma > c.dmin →
      runner_doself_branch_stars_density e c = ⟨runner_doself_stars_density e c, none⟩) := by
  unfold runner_doself_branch_stars_density
  rw [if_neg (by simp [hact])]
  by_cases h : c.h_max_old * e.kernel_gamma > c.dmin
  · rw [if_pos h]
    exact ⟨⟨fun _ => h, fun _ => by simp [outcome.abort]⟩, fun _ => rfl, fun h' => absurd h h'⟩
  · rw [if_neg h]
    exact ⟨⟨fun h' => absurd rfl h', fun h' => absurd h' h⟩, fun h' => absurd h' h,
      fun _ => rfl⟩

/-- Claim C13 at a cell whose `h_max_old` is zero. -/
theorem doself_branch_geometry_check_witness :
    ex_engine.cell_is_active_stars ex_cell_one_star = true ∧
    ((runner_doself_branch_stars_density ex_engine ex_cell_one_star).err ≠ none ↔
      ex_cell_one_star.h_max_old * ex_engine.kernel_gamma > ex_cell_one_star.dmin) :=
  ⟨rfl, (doself_branch_geometry_check ex_engine ex_cell_one_star rfl).1⟩

/-- Claim C12: when no involved cell is active, `runner_dosub_self_stars_density`,
`runner_doself_branch_stars_density`, `runner_dosub_pair_stars_density`,
`runner_dopair_branch_stars_density` and `runner_dosub_subset_stars_density`
(pair mode and self mode) return without an interaction and without an
error, whatever the other fields of the cells and the other answers of the
engine. -/
theorem inactive_cells_return_at_once (e : engine) (ci cj : cell) (sparts : List spart)
    (ind : List Nat) (sid : Int) (hnull : ci ≠ cell.NULL)
    (hi : e.cell_is_active_stars ci = false) (hj : e.cell_is_active_stars cj = false) :
    runner_dosub_self_stars_density e ci = outcome.ok [] ∧
    runner_doself_branch_stars_density e ci = outcome.ok [] ∧
    runner_dosub_pair_stars_density e ci cj sid = outcome.ok [] ∧
    runner_dopair_branch_stars_density e ci cj = outcome.ok [] ∧
    runner_dosub_subset_stars_density e ci sparts ind cj sid = outcome.ok [] ∧
    runner_dosub_subset_stars_density e ci sparts ind cell.NULL sid = outcome.ok [] := by
  refine ⟨?_, ?_, ?_, ?_, ?_, ?_⟩
  · rw [runner_dosub_self_stars_density, dif_pos (Or.inr (by simp [hi]))]
  · unfold runner_doself_branch_stars_density
    rw [if_pos (by simp [hi])]
  · rw [runner_dosub_pair_stars_density, if_pos (by simp [hi, hj])]
  · unfold runner_dopair_branch_stars_density
    rw [if_pos (by simp [hi, hj])]
  · have hskip : runner_dosub_subset_stars_density_skip e ci cj :=
      Or.inl ⟨by simp [hi], Or.inr (by simp [hj])⟩
    rw [runner_dosub_subset_stars_density, dif_neg hnull, if_pos hskip]
  · have hskip : runner_dosub_subset_stars_density_skip e ci cell.NULL :=
      Or.inl ⟨by simp [hi], Or.inl rfl⟩
    rw [runner_dosub_subset_stars_density, dif_neg hnull, if_pos hskip]

/-- Claim C12 at two cells of which one is stale, at a step where no cell is
active. -/
theorem inactive_cells_return_at_once_witness :
    (ex_cell_one_star ≠ cell.NULL ∧
      ex_idle_engine.cell_is_active_stars ex_cell_one_star = false ∧
      ex_idle_engine.cell_is_active_stars ex_cell_stale = false) ∧
    runner_dosub_pair_stars_density ex_idle_engine ex_cell_one_star ex_cell_stale (-1) =
      outcome.ok [] :=
  ⟨⟨by decide, rfl, rfl⟩,
    (inactive_cells_return_at_once ex_idle_engine ex_cell_one_star ex_cell_stale [] [] (-1)
      (by decide) rfl rfl).2.2.1⟩

/-- Claim C11, on the code: at a step where no cell is drifted, the direct
branch of `runner_dosub_self_stars_density` and the direct self branch of
`runner_dosub_subset_stars_density` each invoke two interactions on an active
unsplit cell and return without an error, while the direct branch of
`runner_dosub_pair_stars_density` aborts before any interaction. -/
theorem undrifted_self_evaluation_proceeds :
    ex_undrifted_engine.cell_are_part_drifted ex_cell_one_star = false ∧
    ((runner_dosub_self_stars_density ex_undrifted_engine ex_cell_one_star).err = none ∧
      (runner_dosub_self_stars_density ex_undrifted_engine ex_cell_one_star).calls.length
        = 2) ∧
    ((runner_dosub_subset_stars_density ex_undrifted_engine ex_cell_one_star
        ex_cell_one_star.sparts [0] cell.NULL (-1)).err = none ∧
      (runner_dosub_subset_stars_density ex_undrifted_engine ex_cell_one_star
        ex_cell_one_star.sparts [0] cell.NULL (-1)).calls.length = 2) ∧
    runner_dosub_pair_stars_density ex_undrifted_engine ex_cell_one_star ex_cell_right (-1)
      = outcome.abort fatal.undrifted_cells := by
  refine ⟨rfl, ?_, ?_, ?_⟩
  · have h : runner_dosub_self_stars_density ex_undrifted_engine ex_cell_one_star =
        outcome.ok (runner_doself_stars_density ex_undrifted_engine ex_cell_one_star) := by
      rw [runner_dosub_self_stars_density, dif_neg (by decide), if_neg (by decide)]
      unfold runner_doself_branch_stars_density
      rw [if_neg (by decide), if_neg (by
        norm_num [ex_cell_one_star, ex_leaf, ex_undrifted_engine, ex_engine,
          cell.h_max_old, cell.dmin, cell.data])]
    rw [h, doself_eq _ _ rfl]
    refine ⟨rfl, ?_⟩
    simp [outcome.ok, ex_cell_one_star, ex_leaf, cell.sparts, cell.parts, cell.data,
      List.product]
    norm_num [r2_shifted, no_shift, pt, ex_undrifted_engine, ex_engine, List.filter]
  · have h : runner_dosub_subset_stars_density ex_undrifted_engine ex_cell_one_star
        ex_cell_one_star.sparts [0] cell.NULL (-1) =
        outcome.ok (runner_doself_subset_stars_density ex_undrifted_engine ex_cell_one_star
          ex_cell_one_star.sparts [0]) := by
      rw [runner_dosub_subset_stars_density, dif_neg (by decide), if_neg (by decide)]
      dsimp only
      rw [dif_pos rfl, if_neg (by decide)]
      rfl
    rw [h]
    refine ⟨rfl, ?_⟩
    simp [outcome.ok, runner_doself_subset_stars_density, spart_at, ex_cell_one_star,
      ex_leaf, cell.sparts, cell.parts, cell.loc, cell.data]
    norm_num [pt, ex_undrifted_engine, ex_engine]
  · rw [runner_dosub_pair_stars_density, if_neg (by decide), dif_neg (by decide)]
    dsimp only
    rw [if_neg (by
      rintro ⟨h, _⟩
      cases hf : (space_getsid ex_undrifted_engine ex_cell_one_star ex_cell_right).flip <;>
        rw [hf] at h <;> revert h <;> decide)]
    unfold runner_dosub_pair_stars_density_direct
    have ha : ∀ c, ex_undrifted_engine.cell_is_active_stars c = true := fun _ => rfl
    have hd : ∀ c, ex_undrifted_engine.cell_are_part_drifted c = false := fun _ => rfl
    simp [ha, hd]

theorem iact_of_exact_arguments (shift : vec3) (si : spart) (pj : part) :
    (iact_of shift si pj).exact_arguments shift :=
  ⟨fun _ => rfl, rfl, rfl, rfl⟩

/-- Claim C18: every interaction invoked by `runner_doself_stars_density`,
`runner_dosubpair_stars_density`, `runner_doself_subset_stars_density` and
`runner_dopair_subset_stars_density` is handed the displacement
`x_star - x_gas - shift` (the zero shift in self mode, the shift of the cell
pair in `runner_dosubpair_stars_density`, the shift argument in
`runner_dopair_subset_stars_density`; the cell origin `loc` does not occur),
the squared separation `dx[0]^2 + dx[1]^2 + dx[2]^2`, the `h` of the star and
the `h` of the gas particle. -/
theorem interaction_arguments_exact (e : engine) (ci cj : cell) (sparts : List spart)
    (ind : List Nat) (shift : vec3) :
    (∀ c ∈ runner_doself_stars_density e ci, c.exact_arguments no_shift) ∧
      (∀ c ∈ runner_dosubpair_stars_density e ci cj,
        c.exact_arguments (runner_dosubpair_stars_density_shift e ci cj)) ∧
      (∀ c ∈ runner_doself_subset_stars_density e ci sparts ind,
        c.exact_arguments no_shift) ∧
      (∀ c ∈ runner_dopair_subset_stars_density e ci sparts ind cj shift,
        c.exact_arguments shift) := by
  refine ⟨?_, ?_, ?_, ?_⟩
  · intro c hc
    by_cases h : e.cell_is_active_stars ci = true
    · rw [doself_eq e ci h, List.mem_map] at hc
      obtain ⟨sp, _, rfl⟩ := hc
      exact iact_of_exact_arguments _ _ _
    · unfold runner_doself_stars_density at hc
      rw [if_pos h] at hc
      exact absurd hc (List.not_mem_nil _)
  · intro c hc
    by_cases h : e.cell_is_active_stars ci = true ∨ e.cell_is_active_stars cj = true
    · rw [dosubpair_eq e ci cj h, List.mem_map] at hc
      obtain ⟨sp, _, rfl⟩ := hc
      exact iact_of_exact_arguments _ _ _
    · unfold runner_dosubpair_stars_density at hc
      rw [if_pos (not_or.mp h)] at hc
      exact absurd hc (List.not_mem_nil _)
  · intro c hc
    rw [doself_subset_eq, List.mem_flatMap] at hc
    obtain ⟨i, _, hc⟩ := hc
    rw [List.mem_map] at hc
    obtain ⟨pj, _, rfl⟩ := hc
    exact iact_of_exact_arguments _ _ _
  · intro c hc
    rw [dopair_subset_eq, List.mem_flatMap] at hc
    obtain ⟨i, _, hc⟩ := hc
    rw [List.mem_map] at hc
    obtain ⟨pj, _, rfl⟩ := hc
    exact iact_of_exact_arguments _ _ _

/-- Claim C14: `runner_doself_subset_stars_density` and
`runner_dopair_subset_stars_density` go through the index list `ind` in order
and, for each occurrence of an index `i`, through every gas particle of the
cell (`ci` for self, `cj` for pair) once, in array order, invoking the
interaction for the star `sparts[i]` and the particles that pass the distance
test; so every call has a star `sparts[i]` with `i` in `ind` and a gas
particle of that cell, and a star that no index of `ind` names is passed to no
call. -/
theorem subset_restriction (e : engine) (ci cj : cell) (sparts : List spart)
    (ind : List Nat) (shift : vec3) :
    (runner_doself_subset_stars_density e ci sparts ind =
        ind.flatMap fun i =>
          (ci.parts.filter fun pj =>
            decide (r2_shifted no_shift (spart_at sparts i) pj > 0 ∧
              r2_shifted no_shift (spart_at sparts i) pj <
                (spart_at sparts i).h * (spart_at sparts i).h * e.kernel_gamma2)).map
            (iact_of no_shift (spart_at sparts i))) ∧
      (runner_dopair_subset_stars_density e ci sparts ind cj shift =
        ind.flatMap fun i =>
          (cj.parts.filter fun pj =>
            decide (r2_shifted shift (spart_at sparts i) pj <
              (spart_at sparts i).h * (spart_at sparts i).h * e.kernel_gamma2)).map
            (iact_of shift (spart_at sparts i))) ∧
      (∀ c ∈ runner_doself_subset_stars_density e ci sparts ind,
        (∃ i ∈ ind, c.si = spart_at sparts i) ∧ c.pj ∈ ci.parts) ∧
      (∀ c ∈ runner_dopair_subset_stars_density e ci sparts ind cj shift,
        (∃ i ∈ ind, c.si = spart_at sparts i) ∧ c.pj ∈ cj.parts) ∧
      (∀ s : spart, (∀ i ∈ ind, spart_at sparts i ≠ s) →
        (∀ c ∈ runner_doself_subset_stars_density e ci sparts ind, c.si ≠ s) ∧
        (∀ c ∈ runner_dopair_subset_stars_density e ci sparts ind cj shift, c.si ≠ s)) := by
  have h3 : ∀ c ∈ runner_doself_subset_stars_density e ci sparts ind,
      (∃ i ∈ ind, c.si = spart_at sparts i) ∧ c.pj ∈ ci.parts := by
    intro c hc
    rw [doself_subset_eq, List.mem_flatMap] at hc
    obtain ⟨i, hi, hc⟩ := hc
    rw [List.mem_map] at hc
    obtain ⟨pj, hpj, rfl⟩ := hc
    exact ⟨⟨i, hi, rfl⟩, (List.mem_filter.mp hpj).1⟩
  have h4 : ∀ c ∈ runner_dopair_subset_stars_density e ci sparts ind cj shift,
      (∃ i ∈ ind, c.si = spart_at sparts i) ∧ c.pj ∈ cj.parts := by
    intro c hc
    rw [dopair_subset_eq, List.mem_flatMap] at hc
    obtain ⟨i, hi, hc⟩ := hc
    rw [List.mem_map] at hc
    obtain ⟨pj, hpj, rfl⟩ := hc
    exact ⟨⟨i, hi, rfl⟩, (List.mem_filter.mp hpj).1⟩
  refine ⟨doself_subset_eq e ci sparts ind, dopair_subset_eq e ci sparts ind cj shift,
    h3, h4, ?_⟩
  intro s hs
  constructor
  · intro c hc heq
    obtain ⟨⟨i, hi, hsi⟩, _⟩ := h3 c hc
    exact hs i hi (hsi.symm.trans heq)
  · intro c hc heq
    obtain ⟨⟨i, hi, hsi⟩, _⟩ := h4 c hc
    exact hs i hi (hsi.symm.trans heq)

/-- Claim C15: the switch of `runner_dosub_subset_stars_density` lists, for
every direction id, the child pairs of the switch of
`runner_dosub_pair_stars_density`.  When both cells can recurse and the
subset sits in the progeny `sub = ci->progeny[a0]` of `ci` (a cell distinct
from every other progeny of `ci` and of `cj`), the recursion calls the
function on `sub` and, in table order, each partner child that
`runner_dosub_pair_stars_density` pairs with `sub` for the direction of the
cell pair: the non-null `cj->progeny[b]` with `(a0, b)` in the table when
`space_getsid` leaves the cells in place, the non-null `cj->progeny[a]` with
`(a, a0)` in the table when it swaps them; no partner is listed twice. -/
theorem subset_recursion_follows_pair_table (e : engine) (ci cj : cell)
    (sparts : List spart) (ind : List Nat) (sid : Int) (a0 : Nat)
    (hci : ci ≠ cell.NULL) (hcj : cj ≠ cell.NULL)
    (hskip : ¬ runner_dosub_subset_stars_density_skip e ci cj)
    (hrec : e.cell_can_recurse_in_pair_stars_task ci = true ∧
      e.cell_can_recurse_in_pair_stars_task cj = true)
    (hsub : runner_dosub_subset_stars_density_sub ci sparts ind = ci.progeny a0)
    (hnn : ci.progeny a0 ≠ cell.NULL)
    (hown : ∀ a, a < 8 → ci.progeny a = ci.progeny a0 → a = a0)
    (hother : ∀ b, b < 8 → cj.progeny b ≠ ci.progeny a0) :
    (∀ s, subset_table s = pair_table s) ∧
      ((space_getsid e ci cj).flip = false →
        runner_dosub_subset_stars_density e ci sparts ind cj sid =
          outcome.seq (((runner_dosub_pair_stars_density_tasks ci cj
              (space_getsid e ci cj).sid).filter fun ab => decide (ab.1 = a0)).map
            fun ab => runner_dosub_subset_stars_density e (ci.progeny a0) sparts ind
              (cj.progeny ab.2) (-1))) ∧
      ((space_getsid e ci cj).flip = true →
        runner_dosub_subset_stars_density e ci sparts ind cj sid =
          outcome.seq (((runner_dosub_pair_stars_density_tasks cj ci
              (space_getsid e ci cj).sid).filter fun ab => decide (ab.2 = a0)).map
            fun ab => runner_dosub_subset_stars_density e (ci.progeny a0) sparts ind
              (cj.progeny ab.1) (-1))) ∧
      (∀ s, (((runner_dosub_pair_stars_density_tasks ci cj s).filter
          fun ab => decide (ab.1 = a0)).map Prod.snd).Nodup) ∧
      (∀ s, (((runner_dosub_pair_stars_density_tasks cj ci s).filter
          fun ab => decide (ab.2 = a0)).map Prod.fst).Nodup) := by
  refine ⟨subset_table_eq, ?_, ?_, ?_, ?_⟩
  · intro hf
    rw [dosub_subset_recurse_eq e ci cj sparts ind sid hci hcj hskip hrec]
    have h1 : getsid_ci e ci cj = ci := by unfold getsid_ci; rw [hf]; rfl
    have h2 : getsid_cj e ci cj = cj := by unfold getsid_cj; rw [hf]; rfl
    rw [h1, h2, hsub,
      subset_tasks_holder_first ci cj (ci.progeny a0) _ a0 rfl hnn hown hother,
      List.map_map]
    congr 1
    apply List.map_congr_left
    intro ab hab
    have ha : ab.1 = a0 := by simpa using (List.mem_filter.mp hab).2
    show runner_dosub_subset_stars_density e (ci.progeny ab.1) sparts ind
      (cj.progeny ab.2) (-1) = _
    rw [ha]
  · intro hf
    rw [dosub_subset_recurse_eq e ci cj sparts ind sid hci hcj hskip hrec]
    have h1 : getsid_ci e ci cj = cj := by unfold getsid_ci; rw [hf]; rfl
    have h2 : getsid_cj e ci cj = ci := by unfold getsid_cj; rw [hf]; rfl
    rw [h1, h2, hsub,
      subset_tasks_holder_second cj ci (ci.progeny a0) _ a0 rfl hnn hown hother,
      List.map_map]
    congr 1
    apply List.map_congr_left
    intro ab hab
    have ha : ab.2 = a0 := by simpa using (List.mem_filter.mp hab).2
    show runner_dosub_subset_stars_density e (ci.progeny ab.2) sparts ind
      (cj.progeny ab.1) (-1) = _
    rw [ha]
  · intro s
    apply List.Nodup.map_on
    · intro x hx y hy hxy
      have hx1 : x.1 = a0 := by simpa using (List.mem_filter.mp hx).2
      have hy1 : y.1 = a0 := by simpa using (List.mem_filter.mp hy).2
      exact Prod.ext (hx1.trans hy1.symm) hxy
    · exact (((pair_table_nodup s).filter _).filter _)
  · intro s
    apply List.Nodup.map_on
    · intro x hx y hy hxy
      have hx1 : x.2 = a0 := by simpa using (List.mem_filter.mp hx).2
      have hy1 : y.2 = a0 := by simpa using (List.mem_filter.mp hy).2
      exact Prod.ext hxy (hx1.trans hy1.symm)
    · exact (((pair_table_nodup s).filter _).filter _)

/-- Claim C15 at two split neighbouring cells: with the subset in octant 4 of
the left cell the recursion reaches the child pair `(4, 0)` of direction 4
from either side, whether `space_getsid` swaps the cells (subset in the right
cell) or not (subset in the left cell). -/
theorem subset_recursion_follows_pair_table_witness :
    runner_dosub_subset_stars_density ex_engine ex_tree_left [ex_star_a] [0]
        ex_tree_right (-1) =
      outcome.seq [runner_dosub_subset_stars_density ex_engine (ex_tree_left.progeny 4)
        [ex_star_a] [0] (ex_tree_right.progeny 0) (-1)] ∧
    runner_dosub_subset_stars_density ex_engine ex_tree_right [ex_star_b] [0]
        ex_tree_left (-1) =
      outcome.seq [runner_dosub_subset_stars_density ex_engine (ex_tree_right.progeny 0)
        [ex_star_b] [0] (ex_tree_left.progeny 4) (-1)] := by
  have hn := ex_neighbours_along ex_engine rfl ex_tree_left ex_tree_right ⟨rfl, rfl⟩ ⟨rfl, rfl⟩
  have hg := space_getsid_canonical (i := 4) (by decide) hn
  have hg' := space_getsid_of_neighbours (in_stencil_neg (in_stencil_dir 4 (by decide)))
    (neighbours_along_swap hn)
  have hc : canonical_sid (dir_neg (runner_shift_dir 4)) = (4, true) := by decide
  rw [hc] at hg'
  have ht : runner_dosub_pair_stars_density_tasks ex_tree_left ex_tree_right 4 =
      [(4, 0)] := by decide
  have hleft : runner_dosub_subset_stars_density_sub ex_tree_left [ex_star_a] [0] =
      ex_tree_left.progeny 4 := by
    unfold runner_dosub_subset_stars_density_sub
    rw [if_pos (by rfl)]
    have hf : (List.range 8).find? (fun k => decide (ex_tree_left.progeny k ≠ cell.NULL ∧
        spart_at [ex_star_a] (([0] : List Nat).headD 0) ∈
          (ex_tree_left.progeny k).sparts)) = some 4 := by
      have hr : List.range 8 = [0, 1, 2, 3, 4, 5, 6, 7] := by decide
      rw [hr]
      have hnull : ∀ k, ex_tree_left.progeny k = cell.NULL →
          decide (ex_tree_left.progeny k ≠ cell.NULL ∧
            spart_at [ex_star_a] (([0] : List Nat).headD 0) ∈
              (ex_tree_left.progeny k).sparts) = false := by
        intro k hk
        simp [hk]
      rw [List.find?_cons_of_neg _ (by rw [hnull 0 rfl]; simp),
        List.find?_cons_of_neg _ (by rw [hnull 1 rfl]; simp),
        List.find?_cons_of_neg _ (by rw [hnull 2 rfl]; simp),
        List.find?_cons_of_neg _ (by rw [hnull 3 rfl]; simp)]
      rw [List.find?_cons_of_pos]
      have : spart_at [ex_star_a] (([0] : List Nat).headD 0) ∈
          (ex_tree_left.progeny 4).sparts := List.mem_singleton.mpr rfl
      simp only [this, and_true, decide_eq_true_eq]
      decide
    rw [hf]
  have hright : runner_dosub_subset_stars_density_sub ex_tree_right [ex_star_b] [0] =
      ex_tree_right.progeny 0 := by
    unfold runner_dosub_subset_stars_density_sub
    rw [if_pos (by rfl)]
    have hf : (List.range 8).find? (fun k => decide (ex_tree_right.progeny k ≠ cell.NULL ∧
        spart_at [ex_star_b] (([0] : List Nat).headD 0) ∈
          (ex_tree_right.progeny k).sparts)) = some 0 := by
      have hr : List.range 8 = [0, 1, 2, 3, 4, 5, 6, 7] := by decide
      rw [hr, List.find?_cons_of_pos]
      have : spart_at [ex_star_b] (([0] : List Nat).headD 0) ∈
          (ex_tree_right.progeny 0).sparts := List.mem_singleton.mpr rfl
      simp only [this, and_true, decide_eq_true_eq]
      decide
    rw [hf]
  have hdiff : ex_tree_right.progeny 0 ≠ ex_tree_left.progeny 4 := by
    intro h
    have h2 := congrArg (fun c => c.sparts.map spart.id) h
    revert h2
    decide
  constructor
  · have h := (subset_recursion_follows_pair_table ex_engine ex_tree_left ex_tree_right
      [ex_star_a] [0] (-1) 4 (by decide) (by decide) (by decide) ⟨rfl, rfl⟩ hleft
      (by decide)
      (by
        intro a ha h
        interval_cases a <;> first | rfl | exact absurd h (by decide))
      (by
        intro b hb h
        interval_cases b
        · exact hdiff h
        all_goals exact absurd h (by decide))).2.1 hg.2
    rw [hg.1, ht] at h
    exact h
  · have h := (subset_recursion_follows_pair_table ex_engine ex_tree_right ex_tree_left
      [ex_star_b] [0] (-1) 0 (by decide) (by decide) (by decide) ⟨rfl, rfl⟩ hright
      (by decide)
      (by
        intro a ha h
        interval_cases a <;> first | rfl | exact absurd h (by decide))
      (by
        intro b hb h
        interval_cases b
        case «4» => exact hdiff h.symm
        all_goals exact absurd h (by decide))).2.2.1 hg'.2
    rw [hg'.1, ht] at h
    exact h

/-- Claim C16: two unit cells adjacent along `x`, at `x = 0` and `x = 1`, in a
box at least two cells wide, each with one star and one gas particle on every
site of the 3x3x3 lattice of spacing `1/3`, every star with
`h * kernel_gamma = 1.5 * (1/3)` and at least one cell active.  Then
`runner_dopair_stars_density` invokes the interaction, for each star of the
first cell and then for each star of the second, on the gas particles of the
other cell listed by `cross_neighbours`: 66 calls, 33 with a star of the first
cell and 33 with a star of the second; the star on site `s` is in exactly
`cross_neighbour_count` calls, which is 3, 4 or 5 on the layer next to the
shared face (corner, edge, centre) and 0 on the other layers. -/
theorem lattice_pair_interaction_counts (e : engine) (h : ℚ)
    (hdim : ∀ k, 2 ≤ e.dim k)
    (hg2 : e.kernel_gamma2 = e.kernel_gamma ^ 2)
    (hh : h * e.kernel_gamma = 3 / 2 * (1 / 3))
    (hact : e.cell_is_active_stars (lattice_cell 0 0 h) = true ∨
      e.cell_is_active_stars (lattice_cell 1 100 h) = true) :
    runner_dopair_stars_density e (lattice_cell 0 0 h) (lattice_cell 1 100 h) =
        (lattice_sites.flatMap fun s => (cross_neighbours 2 0 s).map fun t =>
          iact_of no_shift (lattice_star 0 0 h s) (lattice_gas 1 (100 + 27) h t)) ++
        (lattice_sites.flatMap fun s => (cross_neighbours 0 2 s).map fun t =>
          iact_of no_shift (lattice_star 1 100 h s) (lattice_gas 0 (0 + 27) h t)) ∧
      (runner_dopair_stars_density e (lattice_cell 0 0 h) (lattice_cell 1 100 h)).length =
        66 ∧
      ((runner_dopair_stars_density e (lattice_cell 0 0 h) (lattice_cell 1 100 h)).filter
        fun c => decide (c.si ∈ (lattice_cell 0 0 h).sparts)).length = 33 ∧
      ((runner_dopair_stars_density e (lattice_cell 0 0 h) (lattice_cell 1 100 h)).filter
        fun c => decide (c.si ∈ (lattice_cell 1 100 h).sparts)).length = 33 ∧
      (∀ s ∈ lattice_sites,
        ((runner_dopair_stars_density e (lattice_cell 0 0 h) (lattice_cell 1 100 h)).filter
          fun c => decide (c.si = lattice_star 0 0 h s)).length =
            cross_neighbour_count 2 s ∧
        ((runner_dopair_stars_density e (lattice_cell 0 0 h) (lattice_cell 1 100 h)).filter
          fun c => decide (c.si = lattice_star 1 100 h s)).length =
            cross_neighbour_count 0 s) ∧
      (∀ s ∈ lattice_sites,
        (s.1 = 2 → cross_neighbour_count 2 s = 3 ∨ cross_neighbour_count 2 s = 4 ∨
          cross_neighbour_count 2 s = 5) ∧
        (s.1 ≠ 2 → cross_neighbour_count 2 s = 0) ∧
        (s.1 = 0 → cross_neighbour_count 0 s = 3 ∨ cross_neighbour_count 0 s = 4 ∨
          cross_neighbour_count 0 s = 5) ∧
        (s.1 ≠ 0 → cross_neighbour_count 0 s = 0)) := by
  have hA := lattice_dosubpair e h hdim hg2 hh 0 1 (-3) (by norm_num) (by norm_num) 0 100 2 0
    hact lattice_in_range_left
  have hB := lattice_dosubpair e h hdim hg2 hh 1 0 3 (by norm_num) (by norm_num) 100 0 0 2
    hact.symm lattice_in_range_right
  have hcalls : runner_dopair_stars_density e (lattice_cell 0 0 h) (lattice_cell 1 100 h) =
      (lattice_sites.flatMap fun s => (cross_neighbours 2 0 s).map fun t =>
        iact_of no_shift (lattice_star 0 0 h s) (lattice_gas 1 (100 + 27) h t)) ++
      (lattice_sites.flatMap fun s => (cross_neighbours 0 2 s).map fun t =>
        iact_of no_shift (lattice_star 1 100 h s) (lattice_gas 0 (0 + 27) h t)) := by
    unfold runner_dopair_stars_density
    rw [hA, hB]
  have hlA := lattice_calls_length 2 0 fun s t =>
    iact_of no_shift (lattice_star 0 0 h s) (lattice_gas 1 (100 + 27) h t)
  have hlB := lattice_calls_length 0 2 fun s t =>
    iact_of no_shift (lattice_star 1 100 h s) (lattice_gas 0 (0 + 27) h t)
  rw [cross_neighbours_total.1] at hlA
  rw [cross_neighbours_total.2] at hlB
  have hs1 : (lattice_cell 0 0 h).sparts = lattice_sites.map (lattice_star 0 0 h) := rfl
  have hs2 : (lattice_cell 1 100 h).sparts = lattice_sites.map (lattice_star 1 100 h) := rfl
  have hin1 : ∀ s ∈ lattice_sites, lattice_star 0 0 h s ∈ (lattice_cell 0 0 h).sparts :=
    fun s hs => hs1 ▸ List.mem_map_of_mem _ hs
  have hin2 : ∀ s ∈ lattice_sites, lattice_star 1 100 h s ∈ (lattice_cell 1 100 h).sparts :=
    fun s hs => hs2 ▸ List.mem_map_of_mem _ hs
  have hout1 : ∀ s ∈ lattice_sites, ¬ lattice_star 1 100 h s ∈ (lattice_cell 0 0 h).sparts := by
    intro s hs hm
    rw [hs1] at hm
    obtain ⟨t, ht, heq⟩ := List.mem_map.mp hm
    exact lattice_star_other_cell 0 1 0 100 h t s (Or.inl (by norm_num)) ht hs heq
  have hout2 : ∀ s ∈ lattice_sites, ¬ lattice_star 0 0 h s ∈ (lattice_cell 1 100 h).sparts := by
    intro s hs hm
    rw [hs2] at hm
    obtain ⟨t, ht, heq⟩ := List.mem_map.mp hm
    exact lattice_star_other_cell 1 0 100 0 h t s (Or.inr (by norm_num)) ht hs heq
  refine ⟨hcalls, ?_, ?_, ?_, ?_, ?_⟩
  · rw [hcalls, List.length_append, hlA, hlB]
  · rw [hcalls, List.filter_append,
      lattice_calls_all_of_star 0 0 h 2 0 (lattice_gas 1 (100 + 27) h)
        (fun x => x ∈ (lattice_cell 0 0 h).sparts) hin1,
      lattice_calls_not_of_star 1 100 h 0 2 (lattice_gas 0 (0 + 27) h)
        (fun x => x ∈ (lattice_cell 0 0 h).sparts) hout1,
      List.append_nil, hlA]
  · rw [hcalls, List.filter_append,
      lattice_calls_not_of_star 0 0 h 2 0 (lattice_gas 1 (100 + 27) h)
        (fun x => x ∈ (lattice_cell 1 100 h).sparts) hout2,
      lattice_calls_all_of_star 1 100 h 0 2 (lattice_gas 0 (0 + 27) h)
        (fun x => x ∈ (lattice_cell 1 100 h).sparts) hin2,
      List.nil_append, hlB]
  · intro s hs
    constructor
    · rw [hcalls, List.filter_append,
        lattice_calls_of_star 0 0 h 2 0 (lattice_gas 1 (100 + 27) h) s hs,
        lattice_calls_not_of_star 1 100 h 0 2 (lattice_gas 0 (0 + 27) h)
          (fun x => x = lattice_star 0 0 h s)
          (fun t ht heq =>
            lattice_star_other_cell 1 0 100 0 h t s (Or.inr (by norm_num)) ht hs heq),
        List.append_nil, List.length_map]
      exact cross_neighbours_length.1 s hs
    · rw [hcalls, List.filter_append,
        lattice_calls_not_of_star 0 0 h 2 0 (lattice_gas 1 (100 + 27) h)
          (fun x => x = lattice_star 1 100 h s)
          (fun t ht heq =>
            lattice_star_other_cell 0 1 0 100 h t s (Or.inl (by norm_num)) ht hs heq),
        lattice_calls_of_star 1 100 h 0 2 (lattice_gas 0 (0 + 27) h) s hs,
        List.nil_append, List.length_map]
      exact cross_neighbours_length.2 s hs
  · decide

/-- Claim C16 in the box of side 8 with `kernel_gamma = 1` and `h = 1/2`. -/
theorem lattice_pair_interaction_counts_witness :
    (runner_dopair_stars_density ex_engine (lattice_cell 0 0 (1 / 2))
        (lattice_cell 1 100 (1 / 2))).length = 66 ∧
      ((runner_dopair_stars_density ex_engine (lattice_cell 0 0 (1 / 2))
          (lattice_cell 1 100 (1 / 2))).filter
        fun c => decide (c.si = lattice_star 0 0 (1 / 2) (2, 1, 1))).length = 5 ∧
      ((runner_dopair_stars_density ex_engine (lattice_cell 0 0 (1 / 2))
          (lattice_cell 1 100 (1 / 2))).filter
        fun c => decide (c.si = lattice_star 1 100 (1 / 2) (0, 0, 2))).length = 3 := by
  have h := lattice_pair_interaction_counts ex_engine (1 / 2)
    (fun k => by show (2 : ℚ) ≤ 8; norm_num)
    (by show (1 : ℚ) = 1 ^ 2; norm_num)
    (by show (1 / 2 : ℚ) * 1 = 3 / 2 * (1 / 3); norm_num) (Or.inl rfl)
  exact ⟨h.2.1, (h.2.2.2.2.1 (2, 1, 1) (by decide)).1, (h.2.2.2.2.1 (0, 0, 2) (by decide)).2⟩

/-- Claim C19, on the code: with `lambda = 1`, `min_energy = 1/2`, a particle
of internal energy 1 and a time-step of 2, `cooling_cool_part` sets the
internal energy to `-1`, below the floor.  In general the test compares
`u_old + lambda * dt` with the floor while the value assigned is
`u_old - lambda * dt`. -/
theorem cooling_cool_part_below_floor :
    cooling_cool_part ⟨1, 1 / 2, 1⟩ 1 2 = -1 ∧
    cooling_cool_part ⟨1, 1 / 2, 1⟩ 1 2 < (⟨1, 1 / 2, 1⟩ : cooling_data).min_energy ∧
    ∀ (c : cooling_data) (u dt : ℚ), c.min_energy < u + c.lambda * dt →
      cooling_cool_part c u dt = u - c.lambda * dt := by
  refine ⟨?_, ?_, ?_⟩
  · norm_num [cooling_cool_part]
  · norm_num [cooling_cool_part]
  · intro c u dt h
    unfold cooling_cool_part
    dsimp only
    rw [if_pos (by linarith)]
    ring

/-- Claim C20, on the code: `random_unit_interval` divides the integer drawn
by `1 / RAND_MAX`, so it returns that integer times `RAND_MAX`; with
`RAND_MAX = 2147483647` and a draw of 1 the result is `2147483647`, outside
`[0, 1)`. -/
theorem random_unit_interval_not_unit :
    (∀ (R : Nat) (rand_r : Nat → Nat) (id ti : Int) (type : random_number_type),
      random_unit_interval R rand_r id ti type =
        (rand_r (random_seed id ti type) : ℚ) * R) ∧
    random_unit_interval 2147483647 (fun _ => 1) 0 0
        random_number_type.random_number_star_formation = 2147483647 ∧
    ¬ random_unit_interval 2147483647 (fun _ => 1) 0 0
        random_number_type.random_number_star_formation < 1 := by
  have h : ∀ (R : Nat) (rand_r : Nat → Nat) (id ti : Int) (type : random_number_type),
      random_unit_interval R rand_r id ti type =
        (rand_r (random_seed id ti type) : ℚ) * R := by
    intro R rand_r id ti type
    unfold random_unit_interval
    dsimp only
    rw [one_div, div_inv_eq_mul]
  refine ⟨h, ?_, ?_⟩
  · rw [h]; norm_num
  · rw [h]; norm_num

theorem random_unit_interval_call_result (R : Nat) (rand_r : Nat → Nat × Nat)
    (m : random_memory) (id ti : Int) (type : random_number_type) :
    (random_unit_interval_call R rand_r m id ti type).1 =
      random_unit_interval R (fun s => (rand_r s).1) id ti type := rfl

theorem random_unit_interval_calls_append (R : Nat) (rand_r : Nat → Nat × Nat)
    (m : random_memory) (pre : List (Int × Int × random_number_type))
    (a : Int × Int × random_number_type) :
    (random_unit_interval_calls R rand_r m (pre ++ [a])).1 =
      (random_unit_interval_calls R rand_r m pre).1 ++
        [(random_unit_interval_call R rand_r (random_unit_interval_calls R rand_r m pre).2
          a.1 a.2.1 a.2.2).1] := by
  induction pre generalizing m with
  | nil => rfl
  | cons b l ih =>
    show (random_unit_interval_call R rand_r m b.1 b.2.1 b.2.2).1 ::
        (random_unit_interval_calls R rand_r
          (random_unit_interval_call R rand_r m b.1 b.2.1 b.2.2).2 (l ++ [a])).1 = _
    rw [ih]
    rfl

/-- Claim C21: a call of `random_unit_interval` returns the same number
whatever calls were made before it and whatever they left in memory: run after
any sequence of earlier calls from any memory, the call with arguments `id`,
`ti_current`, `type` returns the value of the function of these three
arguments, `rand_r` being a function of the seed it is handed.  Earlier calls
do leave a trace (the value `rand_r` stored in `seed`), which the next call
overwrites before reading it. -/
theorem random_unit_interval_reproducible (R : Nat) (rand_r : Nat → Nat × Nat)
    (id ti : Int) (type : random_number_type) :
    (∀ (m m' : random_memory) (pre pre' : List (Int × Int × random_number_type)),
      (random_unit_interval_calls R rand_r m (pre ++ [(id, ti, type)])).1.getLast? =
        (random_unit_interval_calls R rand_r m' (pre' ++ [(id, ti, type)])).1.getLast?) ∧
    (∀ (m : random_memory) (pre : List (Int × Int × random_number_type)),
      (random_unit_interval_calls R rand_r m (pre ++ [(id, ti, type)])).1.getLast? =
        some (random_unit_interval R (fun s => (rand_r s).1) id ti type)) ∧
    (∀ m m' : random_memory,
      (random_unit_interval_call R rand_r m id ti type).1 =
        (random_unit_interval_call R rand_r m' id ti type).1) ∧
    (random_unit_interval_call 2147483647 (fun s => (s, s + 1)) ⟨0⟩ 5 7
        random_number_type.random_number_star_formation).2 = ⟨13⟩ := by
  have hlast : ∀ (m : random_memory) (pre : List (Int × Int × random_number_type)),
      (random_unit_interval_calls R rand_r m (pre ++ [(id, ti, type)])).1.getLast? =
        some (random_unit_interval R (fun s => (rand_r s).1) id ti type) := by
    intro m pre
    rw [random_unit_interval_calls_append, List.getLast?_append, List.getLast?_singleton]
    rfl
  refine ⟨?_, hlast, fun _ _ => rfl, ?_⟩
  · intro m m' pre pre'
    rw [hlast m pre, hlast m' pre']
  · decide

/-- Claim C22: when `id + ti_current + type` does not overflow a `long long`
for any of the four types, the seeds computed in `random_unit_interval` for
`random_number_star_formation`, `random_number_stellar_feedback`,
`random_number_stellar_enrichment` and `random_number_BH_feedback` are
pairwise distinct. -/
theorem random_seed_types_distinct (id ti : Int)
    (hlo : -9223372036854775808 ≤ id + ti) (hhi : id + ti + 3 < 9223372036854775808) :
    ([random_number_type.random_number_star_formation,
      random_number_type.random_number_stellar_feedback,
      random_number_type.random_number_stellar_enrichment,
      random_number_type.random_number_BH_feedback].map (random_seed id ti)).Nodup ∧
    ∀ t t' : random_number_type, random_seed id ti t = random_seed id ti t' → t = t' := by
  have hv : ∀ t : random_number_type, 0 ≤ t.val ∧ t.val ≤ 3 := by
    intro t; cases t <;> exact ⟨by decide, by decide⟩
  have hinj : ∀ t t' : random_number_type, random_seed id ti t = random_seed id ti t' →
      t = t' := by
    intro t t' h
    have h1 := hv t
    have h2 := hv t'
    rw [random_seed_of_range id ti t (by omega) (by omega),
      random_seed_of_range id ti t' (by omega) (by omega)] at h
    have hval : t.val = t'.val := by
      rcases lt_trichotomy t.val t'.val with hlt | heq | hgt
      · exact absurd h (seed_of_sum_ne _ _ (by omega) (by omega))
      · exact heq
      · exact absurd h.symm (seed_of_sum_ne _ _ (by omega) (by omega))
    cases t <;> cases t' <;> first | rfl | exact absurd hval (by decide)
  refine ⟨?_, hinj⟩
  apply List.Nodup.map_on
  · intro x _ y _ hxy
    exact hinj x y hxy
  · decide

/-- Claim C22 for the particle 5 at time 7. -/
theorem random_seed_types_distinct_witness :
    (-9223372036854775808 ≤ (5 : Int) + 7 ∧ (5 : Int) + 7 + 3 < 9223372036854775808) ∧
    random_seed 5 7 random_number_type.random_number_star_formation ≠
      random_seed 5 7 random_number_type.random_number_BH_feedback :=
  ⟨⟨by decide, by decide⟩, fun h =>
    absurd ((random_seed_types_distinct 5 7 (by decide) (by decide)).2 _ _ h) (by decide)⟩

/-- Claim C23, on the code: `hydro_write_particles` issues no array write,
for one particle as for any number of them, while `hydro_read_particles`
declares six fields `COMPULSORY`, among them `Coordinates` and
`InternalEnergy`; none of them is among the arrays written. -/
theorem hydro_write_particles_writes_nothing :
    hydro_write_particles 1 = [] ∧
    (∀ N : Int, (hydro_write_particles N).length = 0) ∧
    (hydro_read_particles.filter
      fun f => decide (f.importance = data_importance.COMPULSORY)).map io_props.name =
        ["Coordinates", "Velocities", "Masses", "SmoothingLength", "InternalEnergy",
          "ParticleIDs"] ∧
    (∀ f ∈ hydro_read_particles, f.importance = data_importance.COMPULSORY →
      f.name ∉ hydro_write_particles 1) := by
  refine ⟨rfl, fun _ => rfl, by decide, ?_⟩
  intro f _ _ h
  exact absurd h (List.not_mem_nil _)

theorem dopair_branch_of_no_error (e : engine) (ci cj : cell)
    (hact : e.cell_is_active_stars ci = true ∨ e.cell_is_active_stars cj = true)
    (herr : (runner_dopair_branch_stars_density e ci cj).err = none) :
    (e.cell_are_part_drifted ci = true ∧ e.cell_are_part_drifted cj = true) ∧
      ¬ sort_is_stale e (getsid_ci e ci cj) (space_getsid e ci cj).sid ∧
      ¬ sort_is_stale e (getsid_cj e ci cj) (space_getsid e ci cj).sid ∧
      runner_dopair_branch_stars_density e ci cj =
        outcome.ok (runner_dopair_stars_density e (getsid_ci e ci cj) (getsid_cj e ci cj)) := by
  have hna : ¬ (¬ e.cell_is_active_stars ci = true ∧ ¬ e.cell_is_active_stars cj = true) := by
    rcases hact with h | h <;> simp [h]
  unfold runner_dopair_branch_stars_density at herr ⊢
  unfold getsid_ci getsid_cj
  rw [if_neg hna] at herr ⊢
  by_cases hd : ¬ e.cell_are_part_drifted ci = true ∨ ¬ e.cell_are_part_drifted cj = true
  · rw [if_pos hd] at herr
    exact absurd herr (by simp [outcome.abort])
  · rw [if_neg hd] at herr ⊢
    dsimp only at herr ⊢
    by_cases hs1 : sort_is_stale e (if (space_getsid e ci cj).flip = true then cj else ci)
        (space_getsid e ci cj).sid
    · rw [if_pos hs1] at herr
      exact absurd herr (by simp [outcome.abort])
    · rw [if_neg hs1] at herr ⊢
      by_cases hs2 : sort_is_stale e (if (space_getsid e ci cj).flip = true then ci else cj)
          (space_getsid e ci cj).sid
      · rw [if_pos hs2] at herr
        exact absurd herr (by simp [outcome.abort])
      · rw [if_neg hs2]
        have hd' := not_or.mp hd
        exact ⟨⟨not_not.mp hd'.1, not_not.mp hd'.2⟩, hs1, hs2, rfl⟩

theorem not_stale_iff (e : engine) (c : cell) (sid : Nat) :
    ¬ sort_is_stale e c sid ↔
      c.sorted &&& (1 <<< sid) ≠ 0 ∧ c.dx_max_sort_old ≤ e.space_maxreldx * c.dmin := by
  unfold sort_is_stale
  rw [not_or, not_lt]

/-- Claim C24: with at least one of the two cells active (no skip), a return
of `runner_dopair_branch_stars_density` without a fatal error is a return from
`runner_dopair_stars_density`, and then both cells are drifted, both have bit
`sid` set in `sorted` for the `sid` returned by `space_getsid`, and both have
`dx_max_sort_old <= space_maxreldx * dmin`.  The same holds of a return without
a fatal error of `runner_dosub_pair_stars_density` through its direct branch
(both cells hold stars and not both can recurse), for the `sid` of its own
call of `space_getsid` and for that of the call made again inside
`runner_dopair_branch_stars_density`. -/
theorem pair_path_uses_fresh_data (e : engine) (ci cj : cell) (sid0 : Int)
    (hact : e.cell_is_active_stars ci = true ∨ e.cell_is_active_stars cj = true) :
    ((runner_dopair_branch_stars_density e ci cj).err = none →
      runner_dopair_branch_stars_density e ci cj =
        outcome.ok (runner_dopair_stars_density e (getsid_ci e ci cj) (getsid_cj e ci cj)) ∧
      e.cell_are_part_drifted ci = true ∧ e.cell_are_part_drifted cj = true ∧
      (ci.sorted &&& (1 <<< (space_getsid e ci cj).sid) ≠ 0 ∧
        ci.dx_max_sort_old ≤ e.space_maxreldx * ci.dmin) ∧
      (cj.sorted &&& (1 <<< (space_getsid e ci cj).sid) ≠ 0 ∧
        cj.dx_max_sort_old ≤ e.space_maxreldx * cj.dmin)) ∧
    (ci.scount ≠ 0 → cj.scount ≠ 0 →
      ¬ (e.cell_can_recurse_in_pair_stars_task ci = true ∧
        e.cell_can_recurse_in_pair_stars_task cj = true) →
      (runner_dosub_pair_stars_density e ci cj sid0).err = none →
      (∃ X Y, ((X = ci ∧ Y = cj) ∨ (X = cj ∧ Y = ci)) ∧
        runner_dosub_pair_stars_density e ci cj sid0 =
          outcome.ok (runner_dopair_stars_density e X Y) ∧
        ¬ sort_is_stale e X
          (space_getsid e (getsid_ci e ci cj) (getsid_cj e ci cj)).sid ∧
        ¬ sort_is_stale e Y
          (space_getsid e (getsid_ci e ci cj) (getsid_cj e ci cj)).sid) ∧
      e.cell_are_part_drifted ci = true ∧ e.cell_are_part_drifted cj = true ∧
      (ci.sorted &&& (1 <<< (space_getsid e ci cj).sid) ≠ 0 ∧
        ci.dx_max_sort_old ≤ e.space_maxreldx * ci.dmin) ∧
      (cj.sorted &&& (1 <<< (space_getsid e ci cj).sid) ≠ 0 ∧
        cj.dx_max_sort_old ≤ e.space_maxreldx * cj.dmin)) := by
  constructor
  · intro herr
    obtain ⟨hd, hs1, hs2, heq⟩ := dopair_branch_of_no_error e ci cj hact herr
    rw [not_stale_iff] at hs1 hs2
    refine ⟨heq, hd.1, hd.2, ?_, ?_⟩
    · rcases getsid_cells e ci cj with ⟨h1, h2⟩ | ⟨h1, h2⟩
      · rw [h1] at hs1; exact hs1
      · rw [h2] at hs2; exact hs2
    · rcases getsid_cells e ci cj with ⟨h1, h2⟩ | ⟨h1, h2⟩
      · rw [h2] at hs2; exact hs2
      · rw [h1] at hs1; exact hs1
  · intro hsi hsj hrec herr
    have hc : ¬ (e.cell_can_recurse_in_pair_stars_task (getsid_ci e ci cj) = true ∧
        e.cell_can_recurse_in_pair_stars_task (getsid_cj e ci cj) = true) := by
      rcases getsid_cells e ci cj with ⟨h1, h2⟩ | ⟨h1, h2⟩ <;> rw [h1, h2]
      · exact hrec
      · exact fun h => hrec h.symm
    have ha : e.cell_is_active_stars (getsid_ci e ci cj) = true ∨
        e.cell_is_active_stars (getsid_cj e ci cj) = true := by
      rcases getsid_cells e ci cj with ⟨h1, h2⟩ | ⟨h1, h2⟩ <;> rw [h1, h2]
      · exact hact
      · exact hact.symm
    have hdirect : runner_dosub_pair_stars_density e ci cj sid0 =
        runner_dosub_pair_stars_density_direct e (getsid_ci e ci cj) (getsid_cj e ci cj)
          (space_getsid e ci cj).sid := by
      rw [runner_dosub_pair_stars_density]
      rw [if_neg (by rcases hact with h | h <;> simp [h])]
      rw [dif_neg (by simp [hsi, hsj])]
      unfold getsid_ci getsid_cj at hc ⊢
      dsimp only
      rw [if_neg hc]
    rw [hdirect] at herr ⊢
    unfold runner_dosub_pair_stars_density_direct at herr ⊢
    rw [if_pos ha] at herr ⊢
    by_cases hd : ¬ e.cell_are_part_drifted (getsid_ci e ci cj) = true ∨
        ¬ e.cell_are_part_drifted (getsid_cj e ci cj) = true
    · rw [if_pos hd] at herr
      exact absurd herr (by simp [outcome.abort])
    · rw [if_neg hd] at herr ⊢
      by_cases hs1 : sort_is_stale e (getsid_ci e ci cj) (space_getsid e ci cj).sid
      · rw [if_pos hs1] at herr
        exact absurd herr (by simp [outcome.abort])
      · rw [if_neg hs1] at herr ⊢
        by_cases hs2 : sort_is_stale e (getsid_cj e ci cj) (space_getsid e ci cj).sid
        · rw [if_pos hs2] at herr
          exact absurd herr (by simp [outcome.abort])
        · rw [if_neg hs2] at herr ⊢
          obtain ⟨_, hs1', hs2', heq⟩ := dopair_branch_of_no_error e _ _ ha herr
          have hd' := not_or.mp hd
          rw [not_stale_iff] at hs1 hs2
          have hXY : ∀ X Y : cell, (X = ci ∧ Y = cj) ∨ (X = cj ∧ Y = ci) →
              (getsid_ci e X Y = ci ∧ getsid_cj e X Y = cj) ∨
                (getsid_ci e X Y = cj ∧ getsid_cj e X Y = ci) := by
            intro X Y h
            rcases h with ⟨rfl, rfl⟩ | ⟨rfl, rfl⟩
            · exact getsid_cells e _ _
            · exact (getsid_cells e _ _).symm
          refine ⟨⟨_, _, hXY _ _ (getsid_cells e ci cj), heq, hs1', hs2'⟩, ?_⟩
          rcases getsid_cells e ci cj with ⟨h1, h2⟩ | ⟨h1, h2⟩
          · rw [h1] at hs1 hd'; rw [h2] at hs2 hd'
            exact ⟨not_not.mp hd'.1, not_not.mp hd'.2, hs1, hs2⟩
          · rw [h1] at hs1 hd'; rw [h2] at hs2 hd'
            exact ⟨not_not.mp hd'.2, not_not.mp hd'.1, hs2, hs1⟩

/-- Claim C24 at two neighbouring unsplit cells that are drifted and sorted. -/
theorem pair_path_uses_fresh_data_witness :
    (ex_engine.cell_is_active_stars ex_cell_one_star = true ∨
      ex_engine.cell_is_active_stars ex_cell_right = true) ∧
    (runner_dopair_branch_stars_density ex_engine ex_cell_one_star ex_cell_right).err = none ∧
    (ex_cell_one_star.sorted &&&
        (1 <<< (space_getsid ex_engine ex_cell_one_star ex_cell_right).sid) ≠ 0 ∧
      ex_cell_one_star.dx_max_sort_old ≤
        ex_engine.space_maxreldx * ex_cell_one_star.dmin) := by
  have hn := ex_neighbours_along ex_engine rfl ex_cell_one_star ex_cell_right ⟨rfl, rfl⟩
    ⟨rfl, rfl⟩
  have heq := dopair_branch_canonical_eq ex_engine ex_cell_one_star ex_cell_right 4
    (by decide) hn (Or.inl rfl) rfl rfl
    (ex_not_stale ex_engine rfl _ ⟨rfl, rfl, by
      norm_num [cell.dmin, cell.data, ex_cell_one_star, ex_leaf]⟩)
    (ex_not_stale ex_engine rfl _ ⟨rfl, rfl, by
      norm_num [cell.dmin, cell.data, ex_cell_right, ex_leaf]⟩)
  have herr : (runner_dopair_branch_stars_density ex_engine ex_cell_one_star
      ex_cell_right).err = none := by rw [heq]; rfl
  exact ⟨Or.inl rfl, herr,
    ((pair_path_uses_fresh_data ex_engine ex_cell_one_star ex_cell_right (-1)
      (Or.inl rfl)).1 herr).2.2.2.1⟩

/-- Claim C25: for non-null cells of which one holds no star,
`runner_dosub_pair_stars_density` and `runner_dosub_subset_stars_density` in
pair mode return without an interaction, whatever the gas counts and the
other fields of the cells; `runner_dosub_self_stars_density` does so when
`ci->scount == 0`. -/
theorem emptiness_skip_on_star_counts (e : engine) (ci cj : cell) (sparts : List spart)
    (ind : List Nat) (sid : Int) (hci : ci ≠ cell.NULL) (hcj : cj ≠ cell.NULL)
    (h : ci.scount = 0 ∨ cj.scount = 0) :
    runner_dosub_pair_stars_density e ci cj sid = outcome.ok [] ∧
      runner_dosub_subset_stars_density e ci sparts ind cj sid = outcome.ok [] ∧
      (ci.scount = 0 → runner_dosub_self_stars_density e ci = outcome.ok []) := by
  refine ⟨?_, ?_, ?_⟩
  · rw [runner_dosub_pair_stars_density]
    split_ifs
    · rfl
    · rfl
  · have hskip : runner_dosub_subset_stars_density_skip e ci cj := by
      rcases h with h | h
      · exact Or.inr (Or.inl h)
      · exact Or.inr (Or.inr ⟨hcj, h⟩)
    rw [runner_dosub_subset_stars_density, dif_neg hci, if_pos hskip]
  · intro h0
    rw [runner_dosub_self_stars_density, dif_pos (Or.inl h0)]

/-- Claim C25 at an active cell with a star and a neighbour that holds one gas
particle and no star. -/
theorem emptiness_skip_on_star_counts_witness :
    (ex_cell_gas_only.scount = 0 ∧ ex_cell_gas_only.count = 1 ∧
      ex_engine.cell_is_active_stars ex_cell_gas_only = true) ∧
    runner_dosub_pair_stars_density ex_engine ex_cell_one_star ex_cell_gas_only (-1) =
      outcome.ok [] ∧
    runner_dosub_subset_stars_density ex_engine ex_cell_one_star ex_cell_one_star.sparts [0]
      ex_cell_gas_only (-1) = outcome.ok [] :=
  ⟨⟨rfl, rfl, rfl⟩,
    (emptiness_skip_on_star_counts ex_engine ex_cell_one_star ex_cell_gas_only
      ex_cell_one_star.sparts [0] (-1) (by decide) (by decide) (Or.inr rfl)).1,
    (emptiness_skip_on_star_counts ex_engine ex_cell_one_star ex_cell_gas_only
      ex_cell_one_star.sparts [0] (-1) (by decide) (by decide) (Or.inr rfl)).2.1⟩

/-- Claim C26: for an active cell `c`, `runner_doself_subset_stars_density`
called on the star array of `c` with `ind = [0, 1, ..., scount - 1]` invokes
the interaction on the same sequence of calls (star, gas particle, `r2`, `dx`
and the two smoothing lengths) as `runner_doself_stars_density` on `c`. -/
theorem full_subset_equals_self (e : engine) (c : cell)
    (hact : e.cell_is_active_stars c = true) :
    runner_doself_subset_stars_density e c c.sparts (List.range c.scount) =
      runner_doself_stars_density e c := by
  rw [doself_subset_eq, doself_flat e c hact]
  exact flatMap_range_spart_at c.sparts fun si =>
    (c.parts.filter fun pj =>
      decide (r2_shifted no_shift si pj > 0 ∧
        r2_shifted no_shift si pj < si.h * si.h * e.kernel_gamma2)).map
      (iact_of no_shift si)

/-- Claim C26 at a cell with one star and two gas particles. -/
theorem full_subset_equals_self_witness :
    ex_engine.cell_is_active_stars ex_cell_one_star = true ∧
    runner_doself_subset_stars_density ex_engine ex_cell_one_star ex_cell_one_star.sparts [0] =
      runner_doself_stars_density ex_engine ex_cell_one_star :=
  ⟨rfl, full_subset_equals_self ex_engine ex_cell_one_star rfl⟩

/-- Claim C27: for two cells of which at least one is active,
`runner_dopair_subset_branch_stars_density` called on the star array of `ci`
with `ind = [0, ..., ci->scount - 1]` invokes the interaction on the same
sequence of calls as `runner_dosubpair_stars_density(ci, cj)`; the two copies
of the shift computation give the same vector, and subtracting it from the
star position gives the same `dx` and `r2` as adding it to `cj->loc`. -/
theorem full_subset_equals_subpair (e : engine) (ci cj : cell)
    (hact : e.cell_is_active_stars ci = true ∨ e.cell_is_active_stars cj = true) :
    runner_dopair_subset_branch_stars_density e ci ci.sparts (List.range ci.scount) cj =
        runner_dosubpair_stars_density e ci cj ∧
      runner_dopair_subset_branch_stars_density_shift e ci cj =
        runner_dosubpair_stars_density_shift e ci cj := by
  have hs : runner_dopair_subset_branch_stars_density_shift e ci cj =
      runner_dosubpair_stars_density_shift e ci cj := rfl
  refine ⟨?_, hs⟩
  unfold runner_dopair_subset_branch_stars_density
  rw [dopair_subset_eq, dosubpair_flat e ci cj hact, hs]
  exact flatMap_range_spart_at ci.sparts fun si =>
    (cj.parts.filter fun pj =>
      decide (r2_shifted (runner_dosubpair_stars_density_shift e ci cj) si pj <
        si.h * si.h * e.kernel_gamma2)).map
      (iact_of (runner_dosubpair_stars_density_shift e ci cj) si)

/-- Claim C27 at two neighbouring unsplit cells. -/
theorem full_subset_equals_subpair_witness :
    (ex_engine.cell_is_active_stars ex_cell_one_star = true ∨
      ex_engine.cell_is_active_stars ex_cell_right = true) ∧
    runner_dopair_subset_branch_stars_density ex_engine ex_cell_one_star
        ex_cell_one_star.sparts [0] ex_cell_right =
      runner_dosubpair_stars_density ex_engine ex_cell_one_star ex_cell_right :=
  ⟨Or.inl rfl,
    (full_subset_equals_subpair ex_engine ex_cell_one_star ex_cell_right (Or.inl rfl)).1⟩

/-- Claim C30: on an axis `k` with `dim[k] > 0` the shift component computed
in `runner_dosubpair_stars_density` is `-dim[k]`, `0` or `dim[k]`; it is
`dim[k]` exactly when `cj->loc[k] - ci->loc[k] < -dim[k] / 2`, `-dim[k]`
exactly when that delta is above `dim[k] / 2`, and `0` exactly when its
magnitude is at most `dim[k] / 2`; a delta of exactly half the box width, of
either sign, is not corrected. -/
theorem shift_shape (e : engine) (ci cj : cell) (k : Fin 3) (hW : 0 < e.dim k) :
    (runner_dosubpair_stars_density_shift e ci cj k = -(e.dim k) ∨
        runner_dosubpair_stars_density_shift e ci cj k = 0 ∨
        runner_dosubpair_stars_density_shift e ci cj k = e.dim k) ∧
      (runner_dosubpair_stars_density_shift e ci cj k = e.dim k ↔
        cj.loc k - ci.loc k < -(e.dim k) / 2) ∧
      (runner_dosubpair_stars_density_shift e ci cj k = -(e.dim k) ↔
        cj.loc k - ci.loc k > e.dim k / 2) ∧
      (runner_dosubpair_stars_density_shift e ci cj k = 0 ↔
        |cj.loc k - ci.loc k| ≤ e.dim k / 2) ∧
      (cj.loc k - ci.loc k = e.dim k / 2 →
        runner_dosubpair_stars_density_shift e ci cj k = 0) ∧
      (cj.loc k - ci.loc k = -(e.dim k) / 2 →
        runner_dosubpair_stars_density_shift e ci cj k = 0) := by
  unfold runner_dosubpair_stars_density_shift
  rw [abs_le]
  by_cases h1 : cj.loc k - ci.loc k < -(e.dim k) / 2
  · rw [if_pos h1]
    refine ⟨Or.inr (Or.inr rfl), ⟨fun _ => h1, fun _ => rfl⟩, ⟨fun h => ?_, fun h => ?_⟩,
      ⟨fun h => ?_, fun h => ?_⟩, fun h => ?_, fun h => ?_⟩ <;> linarith
  · rw [if_neg h1]
    by_cases h2 : cj.loc k - ci.loc k > e.dim k / 2
    · rw [if_pos h2]
      refine ⟨Or.inl rfl, ⟨fun h => ?_, fun h => ?_⟩, ⟨fun _ => h2, fun _ => rfl⟩,
        ⟨fun h => ?_, fun h => ?_⟩, fun h => ?_, fun h => ?_⟩ <;> linarith
    · rw [if_neg h2]
      refine ⟨Or.inr (Or.inl rfl), ⟨fun h => ?_, fun h => ?_⟩, ⟨fun h => ?_, fun h => ?_⟩,
        ⟨fun _ => ⟨by linarith, by linarith⟩, fun _ => rfl⟩, fun _ => rfl, fun _ => rfl⟩ <;> linarith

/-- Claim C30 in the box of side 8: a delta of 4.8 is corrected by `-8`, a
delta of 2 is not corrected. -/
theorem shift_shape_witness :
    0 < ex_engine.dim 0 ∧
    runner_dosubpair_stars_density_shift ex_engine ex_cell_one_star ex_cell_far 0 =
      -(ex_engine.dim 0) ∧
    runner_dosubpair_stars_density_shift ex_engine ex_cell_one_star ex_cell_right 0 = 0 :=
  ⟨by norm_num [ex_engine],
    ((shift_shape ex_engine ex_cell_one_star ex_cell_far 0 (by norm_num [ex_engine])).2.2.1).mpr
      (by norm_num [ex_engine, ex_cell_far, ex_cell_one_star, ex_leaf, cell.loc, cell.data,
        pt]),
    ((shift_shape ex_engine ex_cell_one_star ex_cell_right 0
      (by norm_num [ex_engine])).2.2.2.1).mpr
      (by norm_num [ex_engine, ex_cell_right, ex_cell_one_star, ex_leaf, cell.loc, cell.data,
        pt, abs_le])⟩

/-- Claim C28: in self mode (`cj == NULL`) on a cell that may recurse, whose
subset sits in the progeny `sub = ci->progeny[a0]` (a cell distinct from the
other progeny of `ci`), `runner_dosub_subset_stars_density` calls itself on
`(sub, NULL)` once and then on `(sub, ci->progeny[j])` for every `j` other than
`a0` with a non-null progeny, in increasing order; so `a0` is not among the
partners and an index is visited once if its progeny is non-null and never
otherwise. -/
theorem subset_self_recursion_visits_once (e : engine) (ci : cell) (sparts : List spart)
    (ind : List Nat) (sid : Int) (a0 : Nat) (hci : ci ≠ cell.NULL)
    (hskip : ¬ runner_dosub_subset_stars_density_skip e ci cell.NULL)
    (hrec : e.cell_can_recurse_in_self_stars_task ci = true)
    (ha0 : a0 < 8)
    (hsub : runner_dosub_subset_stars_density_sub ci sparts ind = ci.progeny a0)
    (hnn : ci.progeny a0 ≠ cell.NULL)
    (hown : ∀ a, a < 8 → ci.progeny a = ci.progeny a0 → a = a0) :
    runner_dosub_subset_stars_density e ci sparts ind cell.NULL sid =
        outcome.seq
          (runner_dosub_subset_stars_density e (ci.progeny a0) sparts ind cell.NULL (-1) ::
            ((List.range 8).filter
              fun j => decide (j ≠ a0 ∧ ci.progeny j ≠ cell.NULL)).map fun j =>
              runner_dosub_subset_stars_density e (ci.progeny a0) sparts ind
                (ci.progeny j) (-1)) ∧
      a0 ∉ (List.range 8).filter (fun j => decide (j ≠ a0 ∧ ci.progeny j ≠ cell.NULL)) ∧
      (∀ j, (a0 :: (List.range 8).filter
          fun j => decide (j ≠ a0 ∧ ci.progeny j ≠ cell.NULL)).count j =
        if j < 8 ∧ ci.progeny j ≠ cell.NULL then 1 else 0) := by
  have hnot : a0 ∉ (List.range 8).filter
      (fun j => decide (j ≠ a0 ∧ ci.progeny j ≠ cell.NULL)) := by
    intro h
    have h2 := (List.mem_filter.mp h).2
    simp only [decide_eq_true_eq] at h2
    exact h2.1 rfl
  have hnd : (a0 :: (List.range 8).filter
      fun j => decide (j ≠ a0 ∧ ci.progeny j ≠ cell.NULL)).Nodup :=
    List.nodup_cons.mpr ⟨hnot, (List.nodup_range 8).filter _⟩
  refine ⟨?_, hnot, ?_⟩
  · rw [dosub_subset_self_recurse_eq e ci sparts ind sid hci hskip hrec, hsub,
      self_tasks_eq ci a0 hown]
  · intro j
    by_cases hj : j < 8 ∧ ci.progeny j ≠ cell.NULL
    · rw [if_pos hj]
      apply List.count_eq_one_of_mem hnd
      by_cases hja : j = a0
      · rw [hja]; exact List.mem_cons_self _ _
      · apply List.mem_cons_of_mem
        rw [List.mem_filter]
        exact ⟨List.mem_range.mpr hj.1, by simp only [decide_eq_true_eq]; exact ⟨hja, hj.2⟩⟩
    · rw [if_neg hj]
      apply List.count_eq_zero_of_not_mem
      intro hm
      rcases List.mem_cons.mp hm with h | h
      · exact hj ⟨h ▸ ha0, h ▸ hnn⟩
      · have h1 := List.mem_filter.mp h
        have h2 := h1.2
        simp only [decide_eq_true_eq] at h2
        exact hj ⟨List.mem_range.mp h1.1, h2.2⟩

/-- Claim C28 at a split cell with stars in octants 0 and 4, the subset being
the star of octant 0: one self call on octant 0, then one pair call with
octant 4. -/
theorem subset_self_recursion_visits_once_witness :
    runner_dosub_subset_stars_density ex_engine ex_tree_left_two ex_tree_left_two.sparts [0]
        cell.NULL (-1) =
      outcome.seq
        [runner_dosub_subset_stars_density ex_engine (ex_tree_left_two.progeny 0)
          ex_tree_left_two.sparts [0] cell.NULL (-1),
        runner_dosub_subset_stars_density ex_engine (ex_tree_left_two.progeny 0)
          ex_tree_left_two.sparts [0] (ex_tree_left_two.progeny 4) (-1)] := by
  have hsub : runner_dosub_subset_stars_density_sub ex_tree_left_two
      ex_tree_left_two.sparts [0] = ex_tree_left_two.progeny 0 := by
    unfold runner_dosub_subset_stars_density_sub
    rw [if_pos (by rfl)]
    have hf : (List.range 8).find? (fun k => decide (ex_tree_left_two.progeny k ≠ cell.NULL ∧
        spart_at ex_tree_left_two.sparts (([0] : List Nat).headD 0) ∈
          (ex_tree_left_two.progeny k).sparts)) = some 0 := by
      have hr : List.range 8 = [0, 1, 2, 3, 4, 5, 6, 7] := by decide
      rw [hr, List.find?_cons_of_pos]
      have : spart_at ex_tree_left_two.sparts (([0] : List Nat).headD 0) ∈
          (ex_tree_left_two.progeny 0).sparts := List.mem_singleton.mpr rfl
      simp only [this, and_true, decide_eq_true_eq]
      decide
    rw [hf]
  have hdiff : ex_tree_left_two.progeny 4 ≠ ex_tree_left_two.progeny 0 := by
    intro h
    have h2 := congrArg (fun c => c.sparts.map spart.id) h
    revert h2
    decide
  have h := (subset_self_recursion_visits_once ex_engine ex_tree_left_two
    ex_tree_left_two.sparts [0] (-1) 0 (by decide) (by decide) rfl (by decide) hsub
    (by decide)
    (by
      intro a ha h
      interval_cases a
      case «4» => exact absurd h hdiff
      all_goals first | rfl | exact absurd h (by decide))).1
  have hl : (List.range 8).filter
      (fun j => decide (j ≠ 0 ∧ ex_tree_left_two.progeny j ≠ cell.NULL)) = [4] := by decide
  rw [hl] at h
  exact h

/-- Claim C29: when `ci` is split, `sparts[ind[0]]` is one of the stars of
`ci`, every star of `ci` is in the star array of a non-null progeny and the
star arrays of distinct progeny are disjoint, the search of
`runner_dosub_subset_stars_density` ends on a non-null progeny `sub` holding
`sparts[ind[0]]`, the only progeny holding it; every recursive call of the
function, in self mode and in pair mode (with the cells as `space_getsid` left
them), has `sub` as its first cell, which is not `NULL`. -/
theorem subset_cell_found_and_first (e : engine) (ci cj : cell) (sparts : List spart)
    (ind : List Nat) (sid : Int) (hci : ci ≠ cell.NULL)
    (hsplit : ci.data.split = true)
    (hin : spart_at sparts (ind.headD 0) ∈ ci.sparts)
    (hcover : ∀ s ∈ ci.sparts, ∃ a, a < 8 ∧ ci.progeny a ≠ cell.NULL ∧
      s ∈ (ci.progeny a).sparts)
    (hdisj : ∀ a b, a < 8 → b < 8 → a ≠ b → ∀ s, s ∈ (ci.progeny a).sparts →
      s ∉ (ci.progeny b).sparts) :
    (∃ a, a < 8 ∧ runner_dosub_subset_stars_density_sub ci sparts ind = ci.progeny a ∧
      spart_at sparts (ind.headD 0) ∈ (ci.progeny a).sparts ∧
      ∀ b, b < 8 → spart_at sparts (ind.headD 0) ∈ (ci.progeny b).sparts → b = a) ∧
    runner_dosub_subset_stars_density_sub ci sparts ind ≠ cell.NULL ∧
    (¬ runner_dosub_subset_stars_density_skip e ci cell.NULL →
      e.cell_can_recurse_in_self_stars_task ci = true →
      runner_dosub_subset_stars_density e ci sparts ind cell.NULL sid =
        outcome.seq
          (runner_dosub_subset_stars_density e
              (runner_dosub_subset_stars_density_sub ci sparts ind) sparts ind
              cell.NULL (-1) ::
            (runner_dosub_subset_stars_density_self_tasks ci
              (runner_dosub_subset_stars_density_sub ci sparts ind)).map fun j =>
              runner_dosub_subset_stars_density e
                (runner_dosub_subset_stars_density_sub ci sparts ind) sparts ind
                (ci.progeny j) (-1))) ∧
    (cj ≠ cell.NULL → ¬ runner_dosub_subset_stars_density_skip e ci cj →
      e.cell_can_recurse_in_pair_stars_task ci = true ∧
        e.cell_can_recurse_in_pair_stars_task cj = true →
      runner_dosub_subset_stars_density e ci sparts ind cj sid =
        outcome.seq ((runner_dosub_subset_stars_density_tasks (getsid_ci e ci cj)
            (getsid_cj e ci cj) (runner_dosub_subset_stars_density_sub ci sparts ind)
            (space_getsid e ci cj).sid).map fun t =>
          runner_dosub_subset_stars_density e
            (runner_dosub_subset_stars_density_sub ci sparts ind) sparts ind
            (match t with
              | subset_call.ci_first _ b => (getsid_cj e ci cj).progeny b
              | subset_call.cj_first a _ => (getsid_ci e ci cj).progeny a) (-1))) := by
  obtain ⟨k, hk, hsubk, hknn, hkin⟩ := subset_sub_spec ci sparts ind hsplit (hcover _ hin)
  refine ⟨⟨k, hk, hsubk, hkin, ?_⟩, hsubk ▸ hknn, ?_, ?_⟩
  · intro b hb hbin
    by_contra hne
    exact hdisj b k hb hk hne _ hbin hkin
  · intro hskip hrec
    exact dosub_subset_self_recurse_eq e ci sparts ind sid hci hskip hrec
  · intro hcj hskip hrec
    rw [dosub_subset_recurse_eq e ci cj sparts ind sid hci hcj hskip hrec]
    congr 1
    apply List.map_congr_left
    intro t ht
    have hg := mem_subset_tasks _ _ _ _ t ht
    cases t with
    | ci_first a b =>
      show runner_dosub_subset_stars_density e ((getsid_ci e ci cj).progeny a) sparts ind
        ((getsid_cj e ci cj).progeny b) (-1) = _
      rw [hg.1]
    | cj_first a b =>
      show runner_dosub_subset_stars_density e ((getsid_cj e ci cj).progeny b) sparts ind
        ((getsid_ci e ci cj).progeny a) (-1) = _
      rw [hg.2]

/-- Claim C29 at a split cell with stars in octants 0 and 4, the subset being
the star of octant 0. -/
theorem subset_cell_found_and_first_witness :
    runner_dosub_subset_stars_density_sub ex_tree_left_two ex_tree_left_two.sparts [0] ≠
      cell.NULL ∧
    ∃ a, a < 8 ∧ runner_dosub_subset_stars_density_sub ex_tree_left_two
        ex_tree_left_two.sparts [0] = ex_tree_left_two.progeny a ∧
      spart_at ex_tree_left_two.sparts (([0] : List Nat).headD 0) ∈
        (ex_tree_left_two.progeny a).sparts := by
  have hne : ex_star_far ≠ ex_star_a := by
    intro h
    have h2 := congrArg spart.id h
    revert h2
    decide
  have hp : ∀ k, k < 8 → (ex_tree_left_two.progeny k).sparts =
      if k = 0 then [ex_star_far] else if k = 4 then [ex_star_a] else [] := by
    intro k hk
    interval_cases k <;> rfl
  have h := subset_cell_found_and_first ex_engine ex_tree_left_two cell.NULL
    ex_tree_left_two.sparts [0] (-1) (by decide) rfl (List.mem_cons_self _ _)
    (by
      intro s hs
      have hs' : s ∈ [ex_star_far, ex_star_a] := hs
      rcases List.mem_cons.mp hs' with h | h
      · exact ⟨0, by decide, by decide, h ▸ List.mem_singleton.mpr rfl⟩
      · exact ⟨4, by decide, by decide, (List.mem_singleton.mp h) ▸ List.mem_singleton.mpr rfl⟩)
    (by
      intro a b ha hb hab s hs hs'
      rw [hp a ha] at hs
      rw [hp b hb] at hs'
      split_ifs at hs hs' <;> simp_all)
  obtain ⟨⟨a, ha, hsub, hin, _⟩, hnn, _, _⟩ := h
  exact ⟨hnn, a, ha, hsub, hin⟩

/-- Claim C31: for `lambda >= 0` and `dt >= 0`, when the cooled value
`u_old - lambda * dt` is at or above `cooling->min_energy`,
`cooling_cool_part` sets the internal energy to `u_old - lambda * dt`; and
whenever the floor branch is taken (the test `u_old - du_dt * dt > u_floor`
fails) the cooled value is at or below the floor. -/
theorem cooling_away_from_floor (c : cooling_data) (u_old dt : ℚ)
    (hl : 0 ≤ c.lambda) (hdt : 0 ≤ dt) :
    (c.min_energy ≤ u_old - c.lambda * dt →
      cooling_cool_part c u_old dt = u_old - c.lambda * dt) ∧
    (¬ (u_old - -c.lambda * dt > c.min_energy) →
      cooling_cool_part c u_old dt = c.min_energy ∧ u_old - c.lambda * dt ≤ c.min_energy) := by
  have hp : 0 ≤ c.lambda * dt := mul_nonneg hl hdt
  constructor
  · intro h
    unfold cooling_cool_part
    dsimp only
    by_cases ht : u_old - -c.lambda * dt > c.min_energy
    · rw [if_pos ht]; ring
    · rw [if_neg ht]
      have h1 : u_old - -c.lambda * dt ≤ c.min_energy := not_lt.mp ht
      have h2 : u_old - -c.lambda * dt = u_old + c.lambda * dt := by ring
      linarith
  · intro ht
    unfold cooling_cool_part
    dsimp only
    rw [if_neg ht]
    have h1 : u_old - -c.lambda * dt ≤ c.min_energy := not_lt.mp ht
    have h2 : u_old - -c.lambda * dt = u_old + c.lambda * dt := by ring
    exact ⟨rfl, by linarith⟩

/-- Claim C31 with `lambda = 1`, a floor of `1/2`, an energy of 3 and a
time-step of 2. -/
theorem cooling_away_from_floor_witness :
    ((0 : ℚ) ≤ 1 ∧ (0 : ℚ) ≤ 2 ∧ (1 / 2 : ℚ) ≤ 3 - 1 * 2) ∧
    cooling_cool_part ⟨1, 1 / 2, 1⟩ 3 2 = 3 - 1 * 2 :=
  ⟨⟨by norm_num, by norm_num, by norm_num⟩,
    (cooling_away_from_floor ⟨1, 1 / 2, 1⟩ 3 2 (by norm_num) (by norm_num)).1
      (by norm_num)⟩

/-- Claim C33: the value of the `sid` argument of
`runner_dosub_pair_stars_density` and of `runner_dosub_subset_stars_density`
has no influence on what the functions do: the same interactions in the same
order and the same fatal error, if any. -/
theorem sid_argument_ignored (e : engine) (ci cj : cell) (sparts : List spart)
    (ind : List Nat) (sid1 sid2 : Int) :
    runner_dosub_pair_stars_density e ci cj sid1 =
        runner_dosub_pair_stars_density e ci cj sid2 ∧
      runner_dosub_subset_stars_density e ci sparts ind cj sid1 =
        runner_dosub_subset_stars_density e ci sparts ind cj sid2 := by
  constructor
  · rw [runner_dosub_pair_stars_density]
    conv_rhs => rw [runner_dosub_pair_stars_density]
  · rw [runner_dosub_subset_stars_density]
    conv_rhs => rw [runner_dosub_subset_stars_density]

/-- Claim C32: `runner_dosub_self_stars_density`,
`runner_dosub_pair_stars_density` and `runner_dosub_subset_stars_density`
return on every cell tree, with at most as many nested calls as the tree has
levels: run with room for `n` nested calls, `n` above the number of levels of
`ci` and of `cj`, each of them completes with the result of the function.
Every recursive call is on progeny of the cell arguments, and a progeny has
fewer levels than its cell. -/
theorem recursive_dispatch_terminates (e : engine) (n : Nat) (ci cj : cell)
    (sparts : List spart) (ind : List Nat) (sid : Int)
    (hn : max ci.depth cj.depth < n) :
    runner_dosub_self_stars_density_bounded e n ci =
        some (runner_dosub_self_stars_density e ci) ∧
      runner_dosub_pair_stars_density_bounded e n ci cj =
        some (runner_dosub_pair_stars_density e ci cj sid) ∧
      runner_dosub_subset_stars_density_bounded e n ci sparts ind cj =
        some (runner_dosub_subset_stars_density e ci sparts ind cj sid) ∧
      (∀ (c : cell) (k : Nat), c ≠ cell.NULL → (c.progeny k).depth < c.depth) := by
  have hpair : ∀ (m : Nat) (X Y : cell) (s : Int), max X.depth Y.depth < m →
      runner_dosub_pair_stars_density_bounded e m X Y =
        some (runner_dosub_pair_stars_density e X Y s) := by
    intro m
    induction m with
    | zero => intro X Y s h; exact absurd h (Nat.not_lt_zero _)
    | succ m ih =>
      intro X Y s h
      rw [runner_dosub_pair_stars_density, runner_dosub_pair_stars_density_bounded]
      by_cases h1 : ¬ e.cell_is_active_stars X = true ∧ ¬ e.cell_is_active_stars Y = true
      · rw [if_pos h1, if_pos h1]
      · rw [if_neg h1, if_neg h1]
        by_cases h2 : X.scount = 0 ∨ Y.scount = 0
        · rw [if_pos h2, dif_pos h2]
        · rw [if_neg h2, dif_neg h2]
          dsimp only
          have hX : X ≠ cell.NULL := cell.ne_NULL_of_scount X fun h => h2 (Or.inl h)
          have hY : Y ≠ cell.NULL := cell.ne_NULL_of_scount Y fun h => h2 (Or.inr h)
          have hXm : X.depth ≤ m := by have := le_max_left X.depth Y.depth; omega
          have hYm : Y.depth ≤ m := by have := le_max_right X.depth Y.depth; omega
          cases hf : (space_getsid e X Y).flip
          · simp only [Bool.false_eq_true, if_false]
            by_cases h3 : e.cell_can_recurse_in_pair_stars_task X = true ∧
                e.cell_can_recurse_in_pair_stars_task Y = true
            · rw [if_pos h3, if_pos h3]
              apply seq_bounded_map
              intro ab _
              apply ih
              have a1 := cell.depth_progeny_lt X ab.1 hX
              have a2 := cell.depth_progeny_lt Y ab.2 hY
              exact max_lt (by omega) (by omega)
            · rw [if_neg h3, if_neg h3]
          · simp only [if_true]
            by_cases h3 : e.cell_can_recurse_in_pair_stars_task Y = true ∧
                e.cell_can_recurse_in_pair_stars_task X = true
            · rw [if_pos h3, if_pos h3]
              apply seq_bounded_map
              intro ab _
              apply ih
              have a1 := cell.depth_progeny_lt Y ab.1 hY
              have a2 := cell.depth_progeny_lt X ab.2 hX
              exact max_lt (by omega) (by omega)
            · rw [if_neg h3, if_neg h3]
  have hself : ∀ (m : Nat) (X : cell), X.depth < m →
      runner_dosub_self_stars_density_bounded e m X =
        some (runner_dosub_self_stars_density e X) := by
    intro m
    induction m with
    | zero => intro X h; exact absurd h (Nat.not_lt_zero _)
    | succ m ih =>
      intro X h
      rw [runner_dosub_self_stars_density, runner_dosub_self_stars_density_bounded]
      by_cases h1 : X.scount = 0 ∨ ¬ e.cell_is_active_stars X = true
      · rw [if_pos h1, dif_pos h1]
      · rw [if_neg h1, dif_neg h1]
        have hX : X ≠ cell.NULL := cell.ne_NULL_of_scount X fun h => h1 (Or.inl h)
        by_cases h2 : e.cell_can_recurse_in_self_stars_task X = true
        · rw [if_pos h2, if_pos h2]
          apply seq_bounded_map
          intro t _
          cases t with
          | self k =>
            have a1 := cell.depth_progeny_lt X k hX
            exact ih _ (by omega)
          | pair k j =>
            have a1 := cell.depth_progeny_lt X k hX
            have a2 := cell.depth_progeny_lt X j hX
            exact hpair m _ _ (-1) (max_lt (by omega) (by omega))
        · rw [if_neg h2, if_neg h2]
  have hsubset : ∀ (m : Nat) (X Y : cell) (s : Int), max X.depth Y.depth < m →
      runner_dosub_subset_stars_density_bounded e m X sparts ind Y =
        some (runner_dosub_subset_stars_density e X sparts ind Y s) := by
    intro m
    induction m with
    | zero => intro X Y s h; exact absurd h (Nat.not_lt_zero _)
    | succ m ih =>
      intro X Y s h
      rw [runner_dosub_subset_stars_density, runner_dosub_subset_stars_density_bounded]
      by_cases hX : X = cell.NULL
      · rw [if_pos hX, dif_pos hX]
      · rw [if_neg hX, dif_neg hX]
        by_cases h2 : runner_dosub_subset_stars_density_skip e X Y
        · rw [if_pos h2, if_pos h2]
        · rw [if_neg h2, if_neg h2]
          dsimp only
          have hXm : X.depth ≤ m := by have := le_max_left X.depth Y.depth; omega
          have hYm : Y.depth ≤ m := by have := le_max_right X.depth Y.depth; omega
          have hs := subset_sub_depth_lt X sparts ind hX
          have h0 : cell.NULL.depth = 0 := rfl
          by_cases hY : Y = cell.NULL
          · rw [if_pos hY, dif_pos hY]
            by_cases h3 : e.cell_can_recurse_in_self_stars_task X = true
            · rw [if_pos h3, if_pos h3]
              rw [ih (runner_dosub_subset_stars_density_sub X sparts ind) cell.NULL (-1)
                (max_lt (by omega) (by omega))]
              show (outcome.seq_bounded _).map _ = _
              rw [seq_bounded_map _ _
                (fun j => runner_dosub_subset_stars_density e
                  (runner_dosub_subset_stars_density_sub X sparts ind) sparts ind
                  (X.progeny j) (-1))
                (by
                  intro j _
                  apply ih
                  have a1 := cell.depth_progeny_lt X j hX
                  exact max_lt (by omega) (by omega))]
              rfl
            · rw [if_neg h3, if_neg h3]
          · rw [if_neg hY, dif_neg hY]
            by_cases h3 : e.cell_can_recurse_in_pair_stars_task X = true ∧
                e.cell_can_recurse_in_pair_stars_task Y = true
            · rw [if_pos h3, if_pos h3]
              apply seq_bounded_map
              intro t _
              cases hf : (space_getsid e X Y).flip
              · cases t with
                | ci_first a b =>
                  apply ih
                  simp only [Bool.false_eq_true, if_false]
                  have a1 := cell.depth_progeny_lt X a hX
                  have a2 := cell.depth_progeny_lt Y b hY
                  exact max_lt (by omega) (by omega)
                | cj_first a b =>
                  apply ih
                  simp only [Bool.false_eq_true, if_false]
                  have a1 := cell.depth_progeny_lt X a hX
                  have a2 := cell.depth_progeny_lt Y b hY
                  exact max_lt (by omega) (by omega)
              · cases t with
                | ci_first a b =>
                  apply ih
                  simp only [if_true]
                  have a1 := cell.depth_progeny_lt Y a hY
                  have a2 := cell.depth_progeny_lt X b hX
                  exact max_lt (by omega) (by omega)
                | cj_first a b =>
                  apply ih
                  simp only [if_true]
                  have a1 := cell.depth_progeny_lt Y a hY
                  have a2 := cell.depth_progeny_lt X b hX
                  exact max_lt (by omega) (by omega)
            · rw [if_neg h3, if_neg h3]
  exact ⟨hself n ci (lt_of_le_of_lt (le_max_left _ _) hn), hpair n ci cj sid hn,
    hsubset n ci cj sid hn, cell.depth_progeny_lt⟩

/-- Claim C32 at two split neighbouring cells of two levels: with room for
three nested calls the functions complete, with room for one the pair
recursion does not. -/
theorem recursive_dispatch_terminates_witness :
    max ex_tree_left.depth ex_tree_right.depth < 3 ∧
    runner_dosub_pair_stars_density_bounded ex_engine 3 ex_tree_left ex_tree_right =
      some (runner_dosub_pair_stars_density ex_engine ex_tree_left ex_tree_right (-1)) ∧
    runner_dosub_self_stars_density_bounded ex_engine 3 ex_tree_left =
      some (runner_dosub_self_stars_density ex_engine ex_tree_left) ∧
    runner_dosub_pair_stars_density_bounded ex_engine 1 ex_tree_left ex_tree_right = none := by
  refine ⟨by decide,
    (recursive_dispatch_terminates ex_engine 3 ex_tree_left ex_tree_right
      ex_tree_left.sparts [0] (-1) (by decide)).2.1,
    (recursive_dispatch_terminates ex_engine 3 ex_tree_left ex_tree_right
      ex_tree_left.sparts [0] (-1) (by decide)).1, ?_⟩
  have hg := space_getsid_canonical (i := 4) (by decide)
    (ex_neighbours_along ex_engine rfl ex_tree_left ex_tree_right ⟨rfl, rfl⟩ ⟨rfl, rfl⟩)
  have ht : runner_dosub_pair_stars_density_tasks ex_tree_left ex_tree_right 4 =
      [(4, 0)] := by decide
  rw [runner_dosub_pair_stars_density_bounded, if_neg (by decide), if_neg (by decide)]
  dsimp only
  rw [hg.1, hg.2]
  simp only [Bool.false_eq_true, if_false]
  rw [if_pos ⟨rfl, rfl⟩, ht]
  rfl

/-- Claim C34: with `kernel_gamma2 >= 0`, for two stars at the same position
with radii `0 <= h1 <= h2`, every gas particle that `runner_doself_stars_density`
hands to the interaction with the star of radius `h1` is handed to it with the
star of radius `h2` in a cell holding the same gas, and likewise in
`runner_dosubpair_stars_density` for cells at the same origin against the same
`cj`; a star with `h = 0` is in no interaction. -/
theorem neighbour_sets_grow (e : engine) (s1 s2 : spart) (hg : 0 ≤ e.kernel_gamma2)
    (hx : s1.x = s2.x) (h0 : 0 ≤ s1.h) (h12 : s1.h ≤ s2.h) :
    (∀ c1 c2 : cell, e.cell_is_active_stars c2 = true → c1.parts = c2.parts →
      s2 ∈ c2.sparts → ∀ call ∈ runner_doself_stars_density e c1, call.si = s1 →
        ∃ call' ∈ runner_doself_stars_density e c2,
          call'.si = s2 ∧ call'.pj = call.pj) ∧
    (∀ ci1 ci2 cj : cell,
      (e.cell_is_active_stars ci2 = true ∨ e.cell_is_active_stars cj = true) →
      ci1.loc = ci2.loc → s2 ∈ ci2.sparts →
      ∀ call ∈ runner_dosubpair_stars_density e ci1 cj, call.si = s1 →
        ∃ call' ∈ runner_dosubpair_stars_density e ci2 cj,
          call'.si = s2 ∧ call'.pj = call.pj) ∧
    (∀ c : cell, ∀ call ∈ runner_doself_stars_density e c, call.si.h ≠ 0) ∧
    (∀ ci cj : cell, ∀ call ∈ runner_dosubpair_stars_density e ci cj, call.si.h ≠ 0) := by
  have hm := radius_mono e hg s1.h s2.h h0 h12
  refine ⟨?_, ?_, ?_, ?_⟩
  · intro c1 c2 hact hparts hs2 call hcall hsi
    obtain ⟨s, _, p, hp, hr, rfl⟩ := doself_of_mem e c1 call hcall
    have hs : s = s1 := hsi
    subst hs
    rw [r2_shifted_same_position no_shift s s2 p hx] at hr
    exact ⟨iact_of no_shift s2 p,
      doself_mem_of e c2 hact s2 hs2 p (hparts ▸ hp) ⟨hr.1, lt_of_lt_of_le hr.2 hm⟩,
      rfl, rfl⟩
  · intro ci1 ci2 cj hact hloc hs2 call hcall hsi
    obtain ⟨s, _, p, hp, hr, rfl⟩ := dosubpair_of_mem e ci1 cj call hcall
    have hs : s = s1 := hsi
    subst hs
    rw [shift_of_same_loc e ci1 ci2 cj hloc, r2_shifted_same_position _ s s2 p hx] at hr
    exact ⟨iact_of (runner_dosubpair_stars_density_shift e ci2 cj) s2 p,
      dosubpair_mem_of e ci2 cj hact s2 hs2 p hp (lt_of_lt_of_le hr hm), rfl, rfl⟩
  · intro c call hcall hzero
    obtain ⟨s, _, p, _, hr, rfl⟩ := doself_of_mem e c call hcall
    have hs : s.h = 0 := hzero
    rw [hs] at hr
    have := r2_shifted_nonneg no_shift s p
    linarith [hr.2]
  · intro ci cj call hcall hzero
    obtain ⟨s, _, p, _, hr, rfl⟩ := dosubpair_of_mem e ci cj call hcall
    have hs : s.h = 0 := hzero
    rw [hs] at hr
    have := r2_shifted_nonneg (runner_dosubpair_stars_density_shift e ci cj) s p
    linarith

/-- Claim C34 for the star at the origin with radius `1/2` and with radius 2,
in a cell with two gas particles at distance 1. -/
theorem neighbour_sets_grow_witness :
    ((0 : ℚ) ≤ ex_engine.kernel_gamma2 ∧ (0 : ℚ) ≤ 1 / 2 ∧ (1 / 2 : ℚ) ≤ 2) ∧
    ∀ call ∈ runner_doself_stars_density ex_engine ex_cell_short_star,
      call.si = ⟨1, pt 0 0 0, 1 / 2⟩ →
        ∃ call' ∈ runner_doself_stars_density ex_engine ex_cell_one_star,
          call'.si = ⟨1, pt 0 0 0, 2⟩ ∧ call'.pj = call.pj :=
  ⟨⟨by norm_num [ex_engine], by norm_num, by norm_num⟩,
    (neighbour_sets_grow ex_engine ⟨1, pt 0 0 0, 1 / 2⟩ ⟨1, pt 0 0 0, 2⟩
      (by norm_num [ex_engine]) rfl (by norm_num) (by norm_num)).1
      ex_cell_short_star ex_cell_one_star rfl rfl (List.mem_singleton.mpr rfl)⟩

/-- Claim C35: in the direct branch of `runner_dosub_pair_stars_density`
(a cell active, stars on both sides, not both cells able to recurse), when
`space_getsid` applied again to the pair it has ordered returns the same
direction id without a swap, the call of `runner_dopair_branch_stars_density`
made after the checks of the caller have passed raises no error and returns
from `runner_dopair_stars_density`; so the function either aborts on a check
of the caller or returns from `runner_dopair_stars_density`, and the error
`Interacting unsorted cells.` of the callee is never raised. -/
theorem dopair_branch_checks_unreachable (e : engine) (ci cj : cell) (sid0 : Int)
    (hact : e.cell_is_active_stars ci = true ∨ e.cell_is_active_stars cj = true)
    (hsi : ci.scount ≠ 0) (hsj : cj.scount ≠ 0)
    (hrec : ¬ (e.cell_can_recurse_in_pair_stars_task ci = true ∧
      e.cell_can_recurse_in_pair_stars_task cj = true))
    (hidem : (space_getsid e (getsid_ci e ci cj) (getsid_cj e ci cj)).sid =
        (space_getsid e ci cj).sid ∧
      (space_getsid e (getsid_ci e ci cj) (getsid_cj e ci cj)).flip = false) :
    (e.cell_are_part_drifted (getsid_ci e ci cj) = true →
      e.cell_are_part_drifted (getsid_cj e ci cj) = true →
      ¬ sort_is_stale e (getsid_ci e ci cj) (space_getsid e ci cj).sid →
      ¬ sort_is_stale e (getsid_cj e ci cj) (space_getsid e ci cj).sid →
      runner_dopair_branch_stars_density e (getsid_ci e ci cj) (getsid_cj e ci cj) =
          outcome.ok (runner_dopair_stars_density e (getsid_ci e ci cj) (getsid_cj e ci cj)) ∧
        runner_dosub_pair_stars_density e ci cj sid0 =
          outcome.ok (runner_dopair_stars_density e (getsid_ci e ci cj)
            (getsid_cj e ci cj))) ∧
    (runner_dosub_pair_stars_density e ci cj sid0 = outcome.abort fatal.undrifted_cells ∨
      runner_dosub_pair_stars_density e ci cj sid0 = outcome.abort fatal.unsorted_cell ∨
      runner_dosub_pair_stars_density e ci cj sid0 =
        outcome.ok (runner_dopair_stars_density e (getsid_ci e ci cj)
          (getsid_cj e ci cj))) ∧
    (runner_dosub_pair_stars_density e ci cj sid0).err ≠ some fatal.unsorted_cells := by
  have hc : ¬ (e.cell_can_recurse_in_pair_stars_task (getsid_ci e ci cj) = true ∧
      e.cell_can_recurse_in_pair_stars_task (getsid_cj e ci cj) = true) := by
    rcases getsid_cells e ci cj with ⟨h1, h2⟩ | ⟨h1, h2⟩ <;> rw [h1, h2]
    · exact hrec
    · exact fun h => hrec h.symm
  have ha : e.cell_is_active_stars (getsid_ci e ci cj) = true ∨
      e.cell_is_active_stars (getsid_cj e ci cj) = true := by
    rcases getsid_cells e ci cj with ⟨h1, h2⟩ | ⟨h1, h2⟩ <;> rw [h1, h2]
    · exact hact
    · exact hact.symm
  have hdirect : runner_dosub_pair_stars_density e ci cj sid0 =
      runner_dosub_pair_stars_density_direct e (getsid_ci e ci cj) (getsid_cj e ci cj)
        (space_getsid e ci cj).sid := by
    rw [runner_dosub_pair_stars_density]
    rw [if_neg (by rcases hact with h | h <;> simp [h])]
    rw [dif_neg (by simp [hsi, hsj])]
    unfold getsid_ci getsid_cj at hc ⊢
    dsimp only
    rw [if_neg hc]
  have hbranch : e.cell_are_part_drifted (getsid_ci e ci cj) = true →
      e.cell_are_part_drifted (getsid_cj e ci cj) = true →
      ¬ sort_is_stale e (getsid_ci e ci cj) (space_getsid e ci cj).sid →
      ¬ sort_is_stale e (getsid_cj e ci cj) (space_getsid e ci cj).sid →
      runner_dopair_branch_stars_density e (getsid_ci e ci cj) (getsid_cj e ci cj) =
        outcome.ok (runner_dopair_stars_density e (getsid_ci e ci cj)
          (getsid_cj e ci cj)) := by
    intro hd1 hd2 hs1 hs2
    unfold runner_dopair_branch_stars_density
    rw [if_neg (by rcases ha with h | h <;> simp [h]), if_neg (by simp [hd1, hd2])]
    dsimp only
    rw [hidem.1, hidem.2]
    simp only [Bool.false_eq_true, if_false]
    rw [if_neg hs1, if_neg hs2]
  have hcases : runner_dosub_pair_stars_density e ci cj sid0 =
        outcome.abort fatal.undrifted_cells ∨
      runner_dosub_pair_stars_density e ci cj sid0 = outcome.abort fatal.unsorted_cell ∨
      runner_dosub_pair_stars_density e ci cj sid0 =
        outcome.ok (runner_dopair_stars_density e (getsid_ci e ci cj)
          (getsid_cj e ci cj)) := by
    rw [hdirect]
    unfold runner_dosub_pair_stars_density_direct
    rw [if_pos ha]
    by_cases hd : ¬ e.cell_are_part_drifted (getsid_ci e ci cj) = true ∨
        ¬ e.cell_are_part_drifted (getsid_cj e ci cj) = true
    · rw [if_pos hd]; exact Or.inl rfl
    · rw [if_neg hd]
      by_cases hs1 : sort_is_stale e (getsid_ci e ci cj) (space_getsid e ci cj).sid
      · rw [if_pos hs1]; exact Or.inr (Or.inl rfl)
      · rw [if_neg hs1]
        by_cases hs2 : sort_is_stale e (getsid_cj e ci cj) (space_getsid e ci cj).sid
        · rw [if_pos hs2]; exact Or.inr (Or.inl rfl)
        · rw [if_neg hs2]
          have hd' := not_or.mp hd
          exact Or.inr (Or.inr (hbranch (not_not.mp hd'.1) (not_not.mp hd'.2) hs1 hs2))
  refine ⟨?_, hcases, ?_⟩
  · intro hd1 hd2 hs1 hs2
    refine ⟨hbranch hd1 hd2 hs1 hs2, ?_⟩
    rw [hdirect]
    unfold runner_dosub_pair_stars_density_direct
    rw [if_pos ha, if_neg (by simp [hd1, hd2]), if_neg hs1, if_neg hs2]
    exact hbranch hd1 hd2 hs1 hs2
  · rcases hcases with h | h | h <;> rw [h] <;> simp [outcome.abort, outcome.ok]

/-- Claim C35 at two neighbouring unsplit cells that are drifted and sorted. -/
theorem dopair_branch_checks_unreachable_witness :
    (ex_engine.cell_is_active_stars ex_cell_one_star = true ∨
      ex_engine.cell_is_active_stars ex_cell_right = true) ∧
    runner_dosub_pair_stars_density ex_engine ex_cell_one_star ex_cell_right (-1) =
      outcome.ok (runner_dopair_stars_density ex_engine ex_cell_one_star ex_cell_right) := by
  have hn := ex_neighbours_along ex_engine rfl ex_cell_one_star ex_cell_right ⟨rfl, rfl⟩
    ⟨rfl, rfl⟩
  have hg := space_getsid_canonical (i := 4) (by decide) hn
  have hi : getsid_ci ex_engine ex_cell_one_star ex_cell_right = ex_cell_one_star := by
    unfold getsid_ci; rw [hg.2]; rfl
  have hj : getsid_cj ex_engine ex_cell_one_star ex_cell_right = ex_cell_right := by
    unfold getsid_cj; rw [hg.2]; rfl
  have h := (dopair_branch_checks_unreachable ex_engine ex_cell_one_star ex_cell_right (-1)
    (Or.inl rfl) (by decide) (by decide) (by rintro ⟨h, _⟩; revert h; decide)
    (by rw [hi, hj]; exact ⟨rfl, hg.2⟩)).1
  rw [hi, hj, hg.1] at h
  exact ⟨Or.inl rfl, (h rfl rfl
    (ex_not_stale ex_engine rfl _ ⟨rfl, rfl, by
      norm_num [cell.dmin, cell.data, ex_cell_one_star, ex_leaf]⟩)
    (ex_not_stale ex_engine rfl _ ⟨rfl, rfl, by
      norm_num [cell.dmin, cell.data, ex_cell_right, ex_leaf]⟩)).2⟩

end Swift
